import Mathlib

/-!
# dero-merchant: the payment processor

A shallow embedding of `processor/payment.go`, `processor/wallet.go` and the
parts of `processor/webhook.go` and `config/config.go` they use.

Conventions of the embedding.

* Go `uint64` values are natural numbers below `2^64`; every `uint64`
  operation of the source is written with an explicit reduction modulo
  `18446744073709551616`.  Go `int` values are integers.
* A Go map is an association list; the order of the list is the order in
  which `range` visits the map, so a statement for every list is a statement
  for every iteration order.
* The answers of the external collaborators (the Dero wallet and its daemon,
  the clock, the database driver) during one call are the fields of a
  `World`.
  A getter called several times during one call returns the same value
  each time.
* Calls made on the wallet handle and on the ticker are recorded, in order,
  in the `calls` log of the `StoreWallet`; statements executed on the
  database and notifications handed to the dispatchers are returned, in
  order, as a list of `Effect`.  A statement whose execution returns an
  error leaves the table as it was.
* Each function runs alone: a goroutine started with `go` is recorded as an
  effect, and no other goroutine changes the wallet while a function of the
  embedding runs.
-/

namespace DeroMerchant

/-! ## Constants and configuration -/

/-- PaymentStatusPending of `processor/payment.go`. -/
def PaymentStatusPending : String := "pending"

/-- PaymentStatusPaid of `processor/payment.go`. -/
def PaymentStatusPaid : String := "paid"

/-- PaymentStatusExpired of `processor/payment.go`. -/
def PaymentStatusExpired : String := "expired"

/-- PaymentStatusError of `processor/payment.go`. -/
def PaymentStatusError : String := "error"

/-- The two payment settings of `config/config.go`, both Go `int`,
read from the environment with `strconv.Atoi` and not validated. -/
structure Config where
  PaymentMaxTTL : Int
  PaymentMinConfirmations : Int

/-! ## Machine arithmetic -/

/-- The Go conversion `uint64(i)` of an `int`: reduction modulo `2^64`. -/
def uint64OfInt (i : Int) : Nat := (i % 18446744073709551616).toNat

/-- The Go conversion `float64(i)` of an `int`, as the rational number the
result denotes; the conversion is exact for `|i| ≤ 2^53`. -/
def float64OfInt (i : Int) : ℚ := (i : ℚ)

/-- Addition of two `uint64` values. -/
def u64add (a b : Nat) : Nat := (a + b) % 18446744073709551616

/-- Subtraction of two `uint64` values (operands below `2^64`). -/
def u64sub (a b : Nat) : Nat := (a + 18446744073709551616 - b) % 18446744073709551616

/-! ## Data model -/

/-- A deposit reported by the wallet (`walletapi.Entry`): the two fields the
processor reads, both `uint64`. -/
structure Entry where
  Amount : Nat
  Height : Nat
deriving DecidableEq, Repr

/-- PendingPayment of `processor/payment.go`; `CreationTime` is an instant
of the clock. -/
structure PendingPayment where
  AtomicDeroAmount : Nat
  CreationTime : Int
deriving DecidableEq, Repr

/-- Webhook of `processor/webhook.go`. -/
structure Webhook where
  URL : String
  SecretKey : String
deriving DecidableEq, Repr

/-- Webhook.IsSet: `w.URL != "" && w.SecretKey != ""`. -/
def Webhook.IsSet (w : Webhook) : Bool := w.URL != "" && w.SecretKey != ""

/-- A ticker created by `time.NewTicker`. -/
structure Ticker where
  stopped : Bool
deriving DecidableEq, Repr

/-- PendingPayments of `processor/payment.go`: the map and the ticker
(`none` is the nil pointer a fresh struct holds). -/
structure PendingPayments where
  Map : List (String × PendingPayment)
  Checker : Option Ticker
deriving DecidableEq, Repr

/-- NewPendingPayments: an empty map and no ticker. -/
def NewPendingPayments : PendingPayments := ⟨[], none⟩

/-- PendingPayments.Set: `p.Map[paymentID] = pendingPayment`. -/
def PendingPayments.Set (p : PendingPayments) (paymentID : String)
    (pendingPayment : PendingPayment) : PendingPayments :=
  { p with Map := (paymentID, pendingPayment) :: p.Map.filter (fun e => e.1 != paymentID) }

/-- PendingPayments.Delete: `delete(p.Map, paymentID)`. -/
def PendingPayments.Delete (p : PendingPayments) (paymentID : String) : PendingPayments :=
  { p with Map := p.Map.filter (fun e => e.1 != paymentID) }

/-- PendingPayments.Count: `len(p.Map)`. -/
def PendingPayments.Count (p : PendingPayments) : Nat := p.Map.length

/-- The value `p.Map[paymentID]` of the map (`none` when the key is absent). -/
def PendingPayments.Get (p : PendingPayments) (paymentID : String) : Option PendingPayment :=
  p.Map.lookup paymentID

/-- PendingPayments.StartChecker: `p.Checker = time.NewTicker(time.Minute)`. -/
def PendingPayments.StartChecker (p : PendingPayments) : PendingPayments :=
  { p with Checker := some ⟨false⟩ }

/-- A call made on the Dero wallet handle or on the ticker of a store wallet. -/
inductive WalletCall where
  | Get_Payments_Payment_ID (payid : List Nat)
  | SetInitialHeight (h : Int)
  | SetOnlineMode
  | SetOfflineMode
  | Clean
  | StartChecker
  | CheckerStop
  | goCheckForPayments
deriving DecidableEq, Repr

/-- StoreWallet of `processor/wallet.go`; the wallet handle is represented by
the log of the calls made on it. -/
structure StoreWallet where
  calls : List WalletCall
  PendingPayments : PendingPayments
  Webhook : Webhook
deriving DecidableEq, Repr

/-- The answers of the external collaborators during one call. -/
structure World where
  /-- whether `DeroWallet.IsDaemonOnline()` returns a nil error -/
  IsDaemonOnline : Bool
  /-- the value of `DeroWallet.Get_Height()`, a `uint64` -/
  Get_Height : Nat
  /-- the value of `DeroWallet.Get_Daemon_Height()`, a `uint64` -/
  Get_Daemon_Height : Nat
  /-- the value of `DeroWallet.Get_Daemon_TopoHeight()` -/
  Get_Daemon_TopoHeight : Int
  /-- the bytes `hex.DecodeString` returns (its error is discarded) -/
  DecodeString : String → List Nat
  /-- the value of `DeroWallet.Get_Payments_Payment_ID(payid, 0)` -/
  Get_Payments_Payment_ID : List Nat → List Entry
  /-- the instant `time.Now()` returns -/
  Now : Int
  /-- the `float64` value of `time.Now().Sub(t).Minutes()`, as a rational -/
  MinutesSince : Int → ℚ
  /-- whether `postgres.DB.Exec` returns a non-nil error for an update of
  the given payment (`none`: the storewide update) -/
  ExecFails : Option String → Bool

/-- NewPendingPayment: the amount and `time.Now()`. -/
def NewPendingPayment (W : World) (atomicDeroAmount : Nat) : PendingPayment :=
  ⟨atomicDeroAmount, W.Now⟩

/-- PendingPayment.MinutesFromCreation: `time.Now().Sub(p.CreationTime).Minutes()`. -/
def PendingPayment.MinutesFromCreation (W : World) (p : PendingPayment) : ℚ :=
  W.MinutesSince p.CreationTime

/-! ## The persisted payments table -/

/-- A row of the `payments` table of `postgres/connection.go` (the columns
the processor and the uniqueness check touch). -/
structure PaymentRow where
  payment_id : String
  status : String
  integrated_address : String
  atomic_dero_amount : Int
  store_id : Int
deriving DecidableEq, Repr

/-- The two `UPDATE` statements of `processor/wallet.go`. -/
inductive Query where
  /-- The statement `UPDATE payments SET status=$1 WHERE payment_id=$2 AND status=$3`. -/
  | setStatusOfPayment (status paymentID whereStatus : String)
  /-- The statement `UPDATE payments SET status=$1 WHERE status=$2`. -/
  | setStatusOfAll (status whereStatus : String)
deriving DecidableEq, Repr

/-- Whether a row satisfies the `WHERE` clause of a statement. -/
def Query.selects (q : Query) (r : PaymentRow) : Bool :=
  match q with
  | .setStatusOfPayment _ paymentID whereStatus =>
      r.payment_id == paymentID && r.status == whereStatus
  | .setStatusOfAll _ whereStatus => r.status == whereStatus

/-- The status a statement sets. -/
def Query.newStatus : Query → String
  | .setStatusOfPayment status _ _ => status
  | .setStatusOfAll status _ => status

/-- The table after a statement has been executed. -/
def Query.run (q : Query) (t : List PaymentRow) : List PaymentRow :=
  t.map (fun r => if q.selects r then { r with status := q.newStatus } else r)

/-- The number of rows a statement affects. -/
def Query.rowsAffected (q : Query) (t : List PaymentRow) : Nat :=
  (t.filter q.selects).length

/-- What the processor hands to the database and to the dispatchers. -/
inductive Effect where
  /-- A call of `postgres.DB.Exec` with a statement. -/
  | exec (q : Query)
  /-- The statement `go w.Webhook.SendPaymentUpdateEvent(paymentID, newStatus)`. -/
  | goSendPaymentUpdateEvent (wh : Webhook) (paymentID newStatus : String)
  /-- The statement `go PaymentWSConnections.SendStatusUpdate(paymentID, newStatus)`. -/
  | goSendStatusUpdate (paymentID newStatus : String)
  /-- The call `w.Webhook.SendPaymentUpdateEvent(payid, PaymentStatusError)`. -/
  | SendPaymentUpdateEvent (wh : Webhook) (paymentID newStatus : String)
  /-- The call `PaymentWSConnections.SendStatusUpdate(payid, PaymentStatusError)`. -/
  | SendStatusUpdate (paymentID newStatus : String)
deriving DecidableEq, Repr

/-- The payment an effect is about (`none` for the storewide update). -/
def Effect.paymentID : Effect → Option String
  | .exec (.setStatusOfPayment _ paymentID _) => some paymentID
  | .exec (.setStatusOfAll _ _) => none
  | .goSendPaymentUpdateEvent _ paymentID _ => some paymentID
  | .goSendStatusUpdate paymentID _ => some paymentID
  | .SendPaymentUpdateEvent _ paymentID _ => some paymentID
  | .SendStatusUpdate paymentID _ => some paymentID

/-! ## The store wallet: adding a payment, starting and stopping the poll loop -/

/-- StoreWallet.StartCheckingForPayments: returns an error when the daemon is
offline; otherwise sets the initial height, sets the wallet online, creates
the ticker and spawns the worker.  The result is the wallet and the error
(`none` is nil). -/
def StoreWallet.StartCheckingForPayments (W : World) (w : StoreWallet) :
    StoreWallet × Option String :=
  if !W.IsDaemonOnline then (w, some "daemon offline")
  else
    let initialHeight := W.Get_Daemon_TopoHeight
    ({ w with
        calls := w.calls ++ [.SetInitialHeight initialHeight, .SetOnlineMode,
                             .StartChecker, .goCheckForPayments],
        PendingPayments := w.PendingPayments.StartChecker }, none)

/-- StoreWallet.AddPendingPayment.  The first world answers the calls of the
function body, the second the calls made inside `StartCheckingForPayments`. -/
def StoreWallet.AddPendingPayment (W W2 : World) (w : StoreWallet) (paymentID : String)
    (atomicDeroAmount : Nat) : StoreWallet × Option String :=
  if !W.IsDaemonOnline then (w, some "daemon offline")
  else
    let p := NewPendingPayment W atomicDeroAmount
    let w1 := { w with PendingPayments := w.PendingPayments.Set paymentID p }
    let paymentsCount := w1.PendingPayments.Count
    if paymentsCount = 1 then
      match w1.StartCheckingForPayments W2 with
      | (w2, some _) => (w2, some "cannot start checking for payments")
      | (w2, none) => (w2, none)
    else (w1, none)

/-- StoreWallet.StopCheckingForPayments: `SetOfflineMode`, `Clean`, then
`Checker.Stop()`.  The flag of the result is false when `Checker` is nil and
the last call dereferences a nil pointer. -/
def StoreWallet.StopCheckingForPayments (w : StoreWallet) : StoreWallet × Bool :=
  let w1 := { w with calls := w.calls ++ [.SetOfflineMode, .Clean] }
  match w.PendingPayments.Checker with
  | none => (w1, false)
  | some _ =>
      ({ w1 with calls := w1.calls ++ [.CheckerStop],
                 PendingPayments := { w1.PendingPayments with Checker := some ⟨true⟩ } }, true)

/-! ## One tick of the poll loop -/

/-- The test of line 172 for one deposit: its confirmations, computed as
`Get_Daemon_Height() - e.Height` in `uint64`, are fewer than
`uint64(config.PaymentMinConfirmations)`. -/
def underConfirmed (cfg : Config) (W : World) (e : Entry) : Prop :=
  u64sub W.Get_Daemon_Height e.Height < uint64OfInt cfg.PaymentMinConfirmations

instance (cfg : Config) (W : World) (e : Entry) : Decidable (underConfirmed cfg W e) := by
  unfold underConfirmed; infer_instance

/-- The body of the loop over the deposits of one payment (lines 169-174),
on the pair of `receivedAmount` and `notConfirmed`. -/
def scanStep (cfg : Config) (W : World) (acc : Nat × Bool) (e : Entry) : Nat × Bool :=
  let receivedAmount := u64add acc.1 e.Amount
  let confirmations := u64sub W.Get_Daemon_Height e.Height
  if confirmations < uint64OfInt cfg.PaymentMinConfirmations then (receivedAmount, true)
  else (receivedAmount, acc.2)

/-- The loop over the deposits of one payment (lines 168-175): the received
amount and the `notConfirmed` flag after the entries have been visited. -/
def scanEntries (cfg : Config) (W : World) (entries : List Entry) : Nat × Bool :=
  entries.foldl (scanStep cfg W) (0, false)

/-- The choice of `newStatus` (lines 181-195) for a payment whose deposits
are all confirmed; the empty string is no change. -/
def chooseStatus (cfg : Config) (W : World) (payment : PendingPayment)
    (receivedAmount : Nat) : String :=
  if receivedAmount ≥ payment.AtomicDeroAmount then PaymentStatusPaid
  else
    let minsFromCreation := payment.MinutesFromCreation W
    if minsFromCreation > float64OfInt cfg.PaymentMaxTTL then
      let heightDifference := u64sub W.Get_Daemon_Height W.Get_Height
      if heightDifference ≤ 20 then PaymentStatusExpired else ""
    else ""

/-- The state threaded through a tick: the wallet, the payments table and
the effects emitted so far. -/
structure TickState where
  wallet : StoreWallet
  DB : List PaymentRow
  effects : List Effect
deriving DecidableEq, Repr

/-- The body of the loop over `w.PendingPayments.Map` for one entry of the
map (lines 158-219). -/
def checkPayment (cfg : Config) (W : World) (s : TickState)
    (kv : String × PendingPayment) : TickState :=
  let paymentID := kv.1
  let payment := kv.2
  let payid := W.DecodeString paymentID
  let entries := W.Get_Payments_Payment_ID payid
  let s := { s with wallet := { s.wallet with
              calls := s.wallet.calls ++ [.Get_Payments_Payment_ID payid] } }
  let scan := scanEntries cfg W entries
  if scan.2 then s
  else
    let newStatus := chooseStatus cfg W payment scan.1
    if newStatus ≠ "" then
      let q := Query.setStatusOfPayment newStatus paymentID PaymentStatusPending
      if W.ExecFails (some paymentID) then
        { s with effects := s.effects ++ [.exec q] }
      else
        let hook : List Effect :=
          if s.wallet.Webhook.IsSet then
            [.goSendPaymentUpdateEvent s.wallet.Webhook paymentID newStatus]
          else []
        { wallet := { s.wallet with
                        PendingPayments := s.wallet.PendingPayments.Delete paymentID },
          DB := q.run s.DB,
          effects := s.effects ++ [.exec q] ++ hook
                       ++ [.goSendStatusUpdate paymentID newStatus] }
    else s

/-- How the worker leaves a tick. -/
inductive LoopStatus where
  /-- the worker waits for the next tick -/
  | next
  /-- `CheckForPayments` has returned -/
  | returned
  /-- a nil pointer was dereferenced -/
  | panicked
deriving DecidableEq, Repr

/-- The result of a tick: the state and how the worker goes on. -/
structure TickResult where
  wallet : StoreWallet
  DB : List PaymentRow
  effects : List Effect
  status : LoopStatus
deriving DecidableEq, Repr

/-- The loop over `w.PendingPayments.Map` (lines 157-220), entries visited in
the order of the list. -/
def sweep (cfg : Config) (W : World) (w : StoreWallet) (db : List PaymentRow) : TickState :=
  w.PendingPayments.Map.foldl (checkPayment cfg W) ⟨w, db, []⟩

/-- The body of the loop over the ticker channel (lines 145-228) for one
tick: the daemon check, the sweep over the pending payments, and the stop
when no payment is left. -/
def tick (cfg : Config) (W : World) (w : StoreWallet) (db : List PaymentRow) : TickResult :=
  if !W.IsDaemonOnline then ⟨w, db, [], .next⟩
  else
    let s := sweep cfg W w db
    let count := s.wallet.PendingPayments.Count
    if count = 0 then
      match s.wallet.StopCheckingForPayments with
      | (w1, true) => ⟨w1, s.DB, s.effects, .returned⟩
      | (w1, false) => ⟨w1, s.DB, s.effects, .panicked⟩
    else ⟨s.wallet, s.DB, s.effects, .next⟩

/-- The loop over the ticker channel, one world per tick delivered. -/
def tickLoop (cfg : Config) : List World → StoreWallet → List PaymentRow → TickResult
  | [], w, db => ⟨w, db, [], .next⟩
  | W :: rest, w, db =>
      let r := tick cfg W w db
      match r.status with
      | .next =>
          let r2 := tickLoop cfg rest r.wallet r.DB
          ⟨r2.wallet, r2.DB, r.effects ++ r2.effects, r2.status⟩
      | _ => r

/-- StoreWallet.CheckForPayments: `range w.PendingPayments.Checker.C` over
the ticks delivered. -/
def StoreWallet.CheckForPayments (cfg : Config) (ticks : List World) (w : StoreWallet)
    (db : List PaymentRow) : TickResult :=
  match w.PendingPayments.Checker with
  | none => ⟨w, db, [], .panicked⟩
  | some _ => tickLoop cfg ticks w db

/-- The value of `newStatus` when line 197 is reached for one entry of the
map, and the empty string when the entry was left by the `continue` of
line 178. -/
def decision (cfg : Config) (W : World) (kv : String × PendingPayment) : String :=
  let scan := scanEntries cfg W (W.Get_Payments_Payment_ID (W.DecodeString kv.1))
  if scan.2 then "" else chooseStatus cfg W kv.2 scan.1

/-- The statement the sweep executes for an entry of the map for which a new
status was chosen. -/
def stepQuery (cfg : Config) (W : World) (kv : String × PendingPayment) : Query :=
  .setStatusOfPayment (decision cfg W kv) kv.1 PaymentStatusPending

/-- Whether the sweep deletes an entry of the map: a new status was chosen
and the update returned no error. -/
def stepRemoves (cfg : Config) (W : World) (kv : String × PendingPayment) : Bool :=
  decision cfg W kv != "" && !W.ExecFails (some kv.1)

/-- The effects the sweep emits for an entry of the map, for a wallet with
the given webhook. -/
def stepEffects (cfg : Config) (W : World) (wh : Webhook)
    (kv : String × PendingPayment) : List Effect :=
  if decision cfg W kv = "" then []
  else if W.ExecFails (some kv.1) then [.exec (stepQuery cfg W kv)]
  else
    [.exec (stepQuery cfg W kv)]
      ++ (if wh.IsSet then [.goSendPaymentUpdateEvent wh kv.1 (decision cfg W kv)] else [])
      ++ [.goSendStatusUpdate kv.1 (decision cfg W kv)]

/-- The payments table after the body of the loop has run for one entry of
the map: the statement is executed when a new status was chosen and the
update returned no error. -/
def stepDB (cfg : Config) (W : World) (db : List PaymentRow)
    (kv : String × PendingPayment) : List PaymentRow :=
  if stepRemoves cfg W kv then (stepQuery cfg W kv).run db else db

/-! ## Reconciliation at start and shutdown -/

/-- The body of the loop of `CleanAllPendingPayments` over `ActiveWallets.Map`
for one wallet (lines 236-245); the flag is false when stopping the poll loop
dereferenced a nil ticker. -/
def cleanWallet (w : StoreWallet) : StoreWallet × List Effect × Bool :=
  if w.PendingPayments.Count > 0 then
    match w.StopCheckingForPayments with
    | (w1, false) => (w1, [], false)
    | (w1, true) =>
        (w1,
         (w1.PendingPayments.Map.map (fun kv =>
            (if w1.Webhook.IsSet then
               [Effect.SendPaymentUpdateEvent w1.Webhook kv.1 PaymentStatusError]
             else [])
            ++ [Effect.SendStatusUpdate kv.1 PaymentStatusError])).flatten,
         true)
  else (w, [], true)

/-- The loop of `CleanAllPendingPayments` over `ActiveWallets.Map`
(lines 235-246), wallets visited in the order of the list. -/
def cleanWallets : List (Int × StoreWallet) → List (Int × StoreWallet) × List Effect × Bool
  | [] => ([], [], true)
  | (storeID, w) :: rest =>
      match cleanWallet w with
      | (w1, es, false) => ((storeID, w1) :: rest, es, false)
      | (w1, es, true) =>
          match cleanWallets rest with
          | (rest1, es1, ok) => ((storeID, w1) :: rest1, es ++ es1, ok)

/-- The result of `CleanAllPendingPayments`: the registry, the table, the
effects, the error returned (`none` is nil) and whether the call panicked. -/
structure CleanResult where
  wallets : List (Int × StoreWallet)
  DB : List PaymentRow
  effects : List Effect
  err : Option String
  panicked : Bool
deriving DecidableEq, Repr

/-- CleanAllPendingPayments of `processor/wallet.go`, on the registry
`ActiveWallets.Map` and the payments table. -/
def CleanAllPendingPayments (W : World) (ActiveWallets : List (Int × StoreWallet))
    (db : List PaymentRow) : CleanResult :=
  match cleanWallets ActiveWallets with
  | (ws, es, false) => ⟨ws, db, es, none, true⟩
  | (ws, es, true) =>
      let q := Query.setStatusOfAll PaymentStatusError PaymentStatusPending
      if W.ExecFails none then ⟨ws, db, es ++ [.exec q], some "cannot execute query", false⟩
      else ⟨ws, q.run db, es ++ [.exec q], none, false⟩

/-- A step of the processor that writes to the payments table: one tick of a
store wallet, or one reconciliation. -/
inductive ProcessorStep where
  | tick (cfg : Config) (W : World) (w : StoreWallet)
  | clean (W : World) (ActiveWallets : List (Int × StoreWallet))

/-- The payments table after a step of the processor. -/
def ProcessorStep.runDB : ProcessorStep → List PaymentRow → List PaymentRow
  | .tick cfg W w, db => (DeroMerchant.tick cfg W w db).DB
  | .clean W ws, db => (CleanAllPendingPayments W ws db).DB

/-- The payments table after a sequence of steps of the processor. -/
def runSteps (steps : List ProcessorStep) (db : List PaymentRow) : List PaymentRow :=
  steps.foldl (fun t s => s.runDB t) db

/-! ## The registry of store wallets -/

/-- StoresWallets of `processor/wallet.go`: the map from store ID to store
wallet (a key that is absent reads as the nil pointer). -/
structure StoresWallets where
  Map : List (Int × StoreWallet)
deriving DecidableEq, Repr

/-- NewStoresWallets: an empty map. -/
def NewStoresWallets : StoresWallets := ⟨[]⟩

/-- The answers of the collaborators of the registry during one call. -/
structure StoreWorld where
  /-- the columns `wallet_view_key`, `webhook` and `webhook_secret_key` that
  `QueryRow(...).Scan(...)` reads for a store ID, `none` when it returns an
  error (no row, or the query failed) -/
  QueryStore : Int → Option (String × String × String)
  /-- the string `stringutil.RandomHexString(32)` returns, `none` when it
  returns an error -/
  RandomHexString : Option String
  /-- whether `derowallet.Create_Encrypted_Wallet_ViewOnly(filename,
  password, viewKey)` returns a wallet -/
  Create_Encrypted_Wallet_ViewOnly : String → String → String → Bool
  /-- the setting `config.WalletsPath` -/
  WalletsPath : String
  /-- the setting `config.DeroDaemonAddress` -/
  DeroDaemonAddress : String

/-- A call the registry makes on the database, the random source or the
wallet library. -/
inductive RegistryCall where
  | QueryRow (storeID : Int)
  | RandomHexString (n : Nat)
  | Create_Encrypted_Wallet_ViewOnly (filename password viewKey : String)
  | SetDaemonAddress (address : String)
deriving DecidableEq, Repr

/-- NewStoreWallet: a random password, the view-only wallet, the daemon
address, and a store wallet with no pending payment.  The result is the
wallet (`none` is nil), the error (`none` is nil) and the calls made. -/
def NewStoreWallet (SW : StoreWorld) (filename viewKey : String) (webhook : Webhook) :
    Option StoreWallet × Option String × List RegistryCall :=
  match SW.RandomHexString with
  | none => (none, some "cannot generate random hex string", [.RandomHexString 32])
  | some password =>
      if SW.Create_Encrypted_Wallet_ViewOnly filename password viewKey then
        (some { calls := [], PendingPayments := NewPendingPayments, Webhook := webhook },
         none,
         [.RandomHexString 32, .Create_Encrypted_Wallet_ViewOnly filename password viewKey,
          .SetDaemonAddress SW.DeroDaemonAddress])
      else
        (none, some "cannot create encrypted view onyl Dero wallet",
         [.RandomHexString 32, .Create_Encrypted_Wallet_ViewOnly filename password viewKey])

/-- StoresWallets.HasWalletFromStoreID: `w.Map[storeID] != nil`. -/
def StoresWallets.HasWalletFromStoreID (w : StoresWallets) (storeID : Int) : Bool :=
  (w.Map.lookup storeID).isSome

/-- StoresWallets.CreateWalletFromStoreID: reads the view key and the
webhook of the store, builds the store wallet and maps the store ID to it.
The result is the registry, the error (`none` is nil) and the calls made. -/
def StoresWallets.CreateWalletFromStoreID (SW : StoreWorld) (w : StoresWallets)
    (storeID : Int) : StoresWallets × Option String × List RegistryCall :=
  match SW.QueryStore storeID with
  | none => (w, some "cannot query database", [.QueryRow storeID])
  | some (viewKey, url, secretKey) =>
      let filename := SW.WalletsPath ++ "store_" ++ toString storeID ++ ".wallet"
      match NewStoreWallet SW filename viewKey ⟨url, secretKey⟩ with
      | (some storeWallet, _, calls) =>
          (⟨(storeID, storeWallet) :: w.Map.filter (fun e => e.1 != storeID)⟩, none,
           .QueryRow storeID :: calls)
      | (none, _, calls) =>
          (w, some "cannot create new store wallet", .QueryRow storeID :: calls)

/-- The result of `GetWalletFromStoreID`: the registry after the call, the
wallet returned (`none` is nil), the error (`none` is nil) and the calls
made. -/
structure GetResult where
  registry : StoresWallets
  wallet : Option StoreWallet
  err : Option String
  calls : List RegistryCall
deriving DecidableEq, Repr

/-- StoresWallets.GetWalletFromStoreID: the wallet of the store, created
first when `HasWalletFromStoreID` is false. -/
def StoresWallets.GetWalletFromStoreID (SW : StoreWorld) (w : StoresWallets)
    (storeID : Int) : GetResult :=
  if !w.HasWalletFromStoreID storeID then
    match w.CreateWalletFromStoreID SW storeID with
    | (w1, some _, calls) => ⟨w1, none, some "cannot create wallet from store ID", calls⟩
    | (w1, none, calls) => ⟨w1, w1.Map.lookup storeID, none, calls⟩
  else ⟨w, w.Map.lookup storeID, none, []⟩

/-- Two calls of `GetWalletFromStoreID` for one store by two goroutines, in
the order the locks allow in which both run `HasWalletFromStoreID` (read
lock, released on return) before either runs `CreateWalletFromStoreID`
(write lock); each caller then reads the map right after its own creation.
The result is what the first caller gets, what the second gets, and the
registry afterwards. -/
def racingGetWalletFromStoreID (SWa SWb : StoreWorld) (w : StoresWallets) (storeID : Int) :
    GetResult × GetResult :=
  let hasA := w.HasWalletFromStoreID storeID
  let hasB := w.HasWalletFromStoreID storeID
  let resA : GetResult :=
    if !hasA then
      match w.CreateWalletFromStoreID SWa storeID with
      | (w1, some _, calls) => ⟨w1, none, some "cannot create wallet from store ID", calls⟩
      | (w1, none, calls) => ⟨w1, w1.Map.lookup storeID, none, calls⟩
    else ⟨w, w.Map.lookup storeID, none, []⟩
  let resB : GetResult :=
    if !hasB then
      match resA.registry.CreateWalletFromStoreID SWb storeID with
      | (w2, some _, calls) => ⟨w2, none, some "cannot create wallet from store ID", calls⟩
      | (w2, none, calls) => ⟨w2, w2.Map.lookup storeID, none, calls⟩
    else ⟨resA.registry, resA.registry.Map.lookup storeID, none, []⟩
  (resA, resB)

/-- The notifications `CleanAllPendingPayments` sends for one wallet
(lines 238-244): for every entry of the pending map, the webhook event when
the webhook is set, then the live push, both with the status "error". -/
def cleanNotifications (w : StoreWallet) : List Effect :=
  if w.PendingPayments.Count > 0 then
    (w.PendingPayments.Map.map (fun kv =>
      (if w.Webhook.IsSet then
         [Effect.SendPaymentUpdateEvent w.Webhook kv.1 PaymentStatusError]
       else [])
      ++ [Effect.SendStatusUpdate kv.1 PaymentStatusError])).flatten
  else []

/-- A wallet that has a ticker whenever it has a pending payment, so that
`Checker.Stop()` in `StopCheckingForPayments` has a ticker to stop. -/
def hasTicker (w : StoreWallet) : Prop :=
  w.PendingPayments.Count > 0 → w.PendingPayments.Checker ≠ none

instance (w : StoreWallet) : Decidable (hasTicker w) := by
  unfold hasTicker; infer_instance

/-- A wallet after `CleanAllPendingPayments` has visited it without a panic:
stopped when it has a pending payment, untouched otherwise. -/
def stoppedWallet (w : StoreWallet) : StoreWallet :=
  if w.PendingPayments.Count > 0 then w.StopCheckingForPayments.1 else w

/-- What the registry shows of a store wallet apart from the log of calls:
the store, the pending payments with their ticker, and the webhook. -/
def walletView (e : Int × StoreWallet) : Int × PendingPayments × Webhook :=
  (e.1, e.2.PendingPayments, e.2.Webhook)

/-! ## Signed webhook events -/

/-- Go standard library `encoding/hex`: the digit of a value below 16 in the
table "0123456789abcdef". -/
def hexDigit (n : Nat) : Char :=
  if n < 10 then Char.ofNat (48 + n) else Char.ofNat (87 + n)

/-- Go standard library `hex.EncodeToString`: two lowercase digits for every
byte. -/
def hexEncodeToString (bs : List Nat) : String :=
  String.mk ((bs.map (fun b => [hexDigit (b / 16), hexDigit (b % 16)])).flatten)

/-- Go standard library `encoding/hex`: the value of a hexadecimal digit of
either case, `none` for any other character. -/
def hexValue (c : Char) : Option Nat :=
  if 48 ≤ c.toNat ∧ c.toNat ≤ 57 then some (c.toNat - 48)
  else if 97 ≤ c.toNat ∧ c.toNat ≤ 102 then some (c.toNat - 87)
  else if 65 ≤ c.toNat ∧ c.toNat ≤ 70 then some (c.toNat - 55)
  else none

/-- The loop of `hex.Decode` over pairs of characters; `none` when a
character is not a digit or one character is left over. -/
def hexDecodeChars : List Char → Option (List Nat)
  | [] => some []
  | [_] => none
  | p :: q :: rest =>
      match hexValue p, hexValue q with
      | some a, some b => (hexDecodeChars rest).map (fun bs => (a * 16 + b) :: bs)
      | _, _ => none

/-- Go standard library `hex.DecodeString`: the bytes when the error is nil,
`none` when the error is not nil. -/
def hexDecodeString (s : String) : Option (List Nat) := hexDecodeChars s.data

/-- The conversion `[]byte(s)` of a string: its UTF-8 bytes. -/
def bytesOfString (s : String) : List Nat :=
  (s.data.map (fun c => (String.utf8EncodeChar c).map UInt8.toNat)).flatten

/-- PaymentUpdateEvent of `processor/webhook.go`; both fields carry the tag
`omitempty`. -/
structure PaymentUpdateEvent where
  PaymentID : String
  Status : String
deriving DecidableEq, Repr

/-- The answers of the libraries `SendPaymentUpdateEvent` and `cryptoutil`
call. -/
structure WebhookWorld where
  /-- the JSON string literal `encoding/json` writes for a Go string -/
  jsonString : String → String
  /-- the bytes `mac.Sum(nil)` returns for `hmac.New(sha256.New, key)` after
  `mac.Write(message)`, as a function of the key and the message -/
  hmacSum : List Nat → List Nat → List Nat
  /-- whether `http.NewRequest(http.MethodPost, url, body)` returns a
  request (a nil error) for the URL -/
  NewRequest : String → Bool

/-- The text `json.Marshal` writes for a `PaymentUpdateEvent`: an object
with the field `paymentID` and the field `status`, a field whose string is
empty being left out (`omitempty`). -/
def PaymentUpdateEvent.Marshal (WW : WebhookWorld) (e : PaymentUpdateEvent) : String :=
  let fields :=
    (if e.PaymentID = "" then [] else ["\"paymentID\":" ++ WW.jsonString e.PaymentID])
    ++ (if e.Status = "" then [] else ["\"status\":" ++ WW.jsonString e.Status])
  "\x7b" ++ ",".intercalate fields ++ "\x7d"

/-- SignMessage of `cryptoutil/hmac.go`: the signature and the error, which
is nil because `Write` of a `hash.Hash` never returns an error. -/
def SignMessage (WW : WebhookWorld) (message key : List Nat) : List Nat × Option String :=
  (WW.hmacSum key message, none)

/-- ValidMAC of `cryptoutil/hmac.go`: `hmac.Equal` of the given MAC and the
signature of the message. -/
def ValidMAC (WW : WebhookWorld) (message messageMAC key : List Nat) :
    Bool × Option String :=
  match SignMessage WW message key with
  | (_, some _) => (false, some "cannot sign message")
  | (signedMessage, none) => (messageMAC == signedMessage, none)

/-- Go standard library `crypto/hmac`, `New`: the block of 64 bytes the key
is copied into; a key longer than the block size of SHA-256 is hashed first,
and the rest of the block is zero.  SHA-256 itself is a parameter. -/
def hmacBlockKey (sha256 : List Nat → List Nat) (key : List Nat) : List Nat :=
  ((if key.length > 64 then sha256 key else key) ++ List.replicate 64 0).take 64

/-- Go standard library `crypto/hmac`: the bytes `mac.Sum(nil)` returns after
`mac.Write(message)`: the digest of the block of the key xored with 0x5c,
followed by the digest of the block of the key xored with 0x36 followed by
the message. -/
def hmacSHA256 (sha256 : List Nat → List Nat) (key message : List Nat) : List Nat :=
  sha256 ((hmacBlockKey sha256 key).map (fun b => b ^^^ 92)
    ++ sha256 ((hmacBlockKey sha256 key).map (fun b => b ^^^ 54) ++ message))

/-- The world in which `hmac.New(sha256.New, key)` computes HMAC over the
given SHA-256. -/
def WebhookWorld.withSHA256 (WW : WebhookWorld) (sha256 : List Nat → List Nat) :
    WebhookWorld :=
  { WW with hmacSum := hmacSHA256 sha256 }

/-- An HTTP request handed to `httpClient.Do`. -/
structure HTTPRequest where
  Method : String
  URL : String
  Body : List Nat
  Header : List (String × String)
deriving DecidableEq, Repr

/-- Webhook.SendPaymentUpdateEvent of `processor/webhook.go`: the request
handed to `httpClient.Do` (`none` when the function returns before) and the
error returned (`none` is nil); the outcome of `Do` is discarded. -/
def Webhook.SendPaymentUpdateEvent (WW : WebhookWorld) (w : Webhook)
    (paymentID newStatus : String) : Option HTTPRequest × Option String :=
  let e : PaymentUpdateEvent := ⟨paymentID, newStatus⟩
  let body := bytesOfString (e.Marshal WW)
  match hexDecodeString w.SecretKey with
  | none => (none, some "cannot decode hex string")
  | some secretKeyBytes =>
      match SignMessage WW body secretKeyBytes with
      | (_, some _) => (none, some "cannot sign message")
      | (bodySignature, none) =>
          let bodySignatureHex := hexEncodeToString bodySignature
          if !WW.NewRequest w.URL then (none, some "cannot create new request")
          else
            (some { Method := "POST", URL := w.URL, Body := body,
                    Header := [("Content-Type", "application/json"),
                               ("X-Signature", bodySignatureHex)] },
             none)

/-- The outcome of `httpClient.Do`: a response with its status code, the
timeout of one second, or a failure to connect. -/
inductive DoOutcome where
  | response (statusCode : Nat)
  | timeout
  | connectionFailure
deriving DecidableEq, Repr

/-- Webhook.SendPaymentUpdateEvent with its last lines (64-69): when the
request was built, `_, err = httpClient.Do(req)` and `return nil`.  The
result is the calls of `Do` with their outcomes, in order, and the error
returned (`none` is nil). -/
def Webhook.SendPaymentUpdateEventDo (WW : WebhookWorld) (Do : HTTPRequest → DoOutcome)
    (w : Webhook) (paymentID newStatus : String) :
    List (HTTPRequest × DoOutcome) × Option String :=
  match w.SendPaymentUpdateEvent WW paymentID newStatus with
  | (some req, _) => ([(req, Do req)], none)
  | (none, err) => ([], err)

/-! ## Live status push -/

/-- A call on a web socket connection. -/
inductive ConnCall where
  /-- The call `wsutil.WriteServerText(conn, payload)`. -/
  | WriteServerText (conn : Nat) (payload : List Nat)
  /-- The call `conn.Close()`. -/
  | Close (conn : Nat)
deriving DecidableEq, Repr

/-- The connection a call is made on. -/
def ConnCall.conn : ConnCall → Nat
  | .WriteServerText conn _ => conn
  | .Close conn => conn

/-- ConnectionsToPayment of `processor/websocket.go`: the map from payment
ID to the slice of connections listening for it; a connection is a
number. -/
structure ConnectionsToPayment where
  Map : List (String × List Nat)
deriving DecidableEq, Repr

/-- ConnectionsToPayment.SendStatusUpdate: for every connection of
`c[paymentID]` a deferred `Close` and a `WriteServerText` of the status,
then `delete(c, paymentID)`; the deferred calls run last, in reverse order.
The result is the table and the calls made, in order. -/
def ConnectionsToPayment.SendStatusUpdate (c : ConnectionsToPayment)
    (paymentID newStatus : String) : ConnectionsToPayment × List ConnCall :=
  let conns := (c.Map.lookup paymentID).getD []
  (⟨c.Map.filter (fun e => e.1 != paymentID)⟩,
   conns.map (fun conn => ConnCall.WriteServerText conn (bytesOfString newStatus))
     ++ conns.reverse.map ConnCall.Close)

/-- The calls `PaymentWSConnections.SendStatusUpdate(payid, status)` among
the effects of `CleanAllPendingPayments`, made in their order on the table
of connections: the table left and the calls made on the connections. -/
def runStatusUpdates (c : ConnectionsToPayment) :
    List Effect → ConnectionsToPayment × List ConnCall
  | [] => (c, [])
  | .SendStatusUpdate paymentID newStatus :: rest =>
      ((runStatusUpdates (c.SendStatusUpdate paymentID newStatus).1 rest).1,
       (c.SendStatusUpdate paymentID newStatus).2
         ++ (runStatusUpdates (c.SendStatusUpdate paymentID newStatus).1 rest).2)
  | _ :: rest => runStatusUpdates c rest

/-- Whether an effect is a webhook event. -/
def Effect.isWebhookEvent : Effect → Bool
  | .SendPaymentUpdateEvent _ _ _ => true
  | .goSendPaymentUpdateEvent _ _ _ => true
  | _ => false

/-! ## Unique integrated addresses and the time to live of a payment -/

/-- The answers of the wallet and of the database to
`GenerateUniqueIntegratedAddress`, by the number of the iteration. -/
structure AddressWorld where
  /-- the address `DeroWallet.GetRandomIAddress32()` returns in the n-th
  iteration: its string and the bytes of its payment ID -/
  GetRandomIAddress32 : Nat → String × List Nat
  /-- whether the query of the n-th iteration returns an error other than
  `sql.ErrNoRows` -/
  QueryFails : Nat → Bool

/-- StoreWallet.GenerateIntegratedAddress in the n-th iteration: the string
of the random address and the hex of its payment ID. -/
def GenerateIntegratedAddress (AW : AddressWorld) (n : Nat) : String × String :=
  ((AW.GetRandomIAddress32 n).1, hexEncodeToString (AW.GetRandomIAddress32 n).2)

/-- Whether a row of the payments table satisfies
`payment_id=$1 OR integrated_address=$2`. -/
def collides (iaddr payid : String) (r : PaymentRow) : Bool :=
  r.payment_id == payid || r.integrated_address == iaddr

/-- The function isUniqueIntegratedAddress of `api/api.go`: an error when
the query fails, true when no row is found, false when a row is found. -/
def isUniqueIntegratedAddress (db : List PaymentRow) (queryFails : Bool)
    (iaddr payid : String) : Bool × Option String :=
  if queryFails then (false, some "cannot query database")
  else if db.any (collides iaddr payid) then (false, none)
  else (true, none)

/-- Whether the pair generated in the n-th iteration is the payment ID or the
integrated address of a row of the payments table. -/
def pairCollides (AW : AddressWorld) (db : List PaymentRow) (n : Nat) : Bool :=
  db.any (collides (GenerateIntegratedAddress AW n).1 (GenerateIntegratedAddress AW n).2)

/-- The result of `GenerateUniqueIntegratedAddress`: the two strings, the
error (`none` is nil) and the number of pairs the wallet generated. -/
structure GenerateResult where
  iaddr : String
  payid : String
  err : Option String
  generated : Nat
deriving DecidableEq, Repr

/-- The loop of `GenerateUniqueIntegratedAddress` from the n-th iteration on,
for at most the given number of iterations (`none`: the loop is still
running after them). -/
def generateLoop (AW : AddressWorld) (db : List PaymentRow) :
    Nat → Nat → Option GenerateResult
  | 0, _ => none
  | fuel + 1, n =>
      match isUniqueIntegratedAddress db (AW.QueryFails n)
          (GenerateIntegratedAddress AW n).1 (GenerateIntegratedAddress AW n).2 with
      | (_, some _) =>
          some ⟨"", "", some "cannot check if generated integrated address is unique", n + 1⟩
      | (true, none) =>
          some ⟨(GenerateIntegratedAddress AW n).1, (GenerateIntegratedAddress AW n).2,
                none, n + 1⟩
      | (false, none) => generateLoop AW db fuel (n + 1)

/-- GenerateUniqueIntegratedAddress of `api/api.go`, run for at most the
given number of iterations. -/
def GenerateUniqueIntegratedAddress (AW : AddressWorld) (db : List PaymentRow)
    (fuel : Nat) : Option GenerateResult :=
  generateLoop AW db fuel 0

/-- Payment of `api/api.go`; the two `float64` fields are carried as
rationals. -/
structure Payment where
  PaymentID : String
  Status : String
  Currency : String
  CurrencyAmount : ℚ
  ExchangeRate : ℚ
  DeroAmount : String
  AtomicDeroAmount : Nat
  IntegratedAddress : String
  CreationTime : Int
  TTL : Int
  StoreID : Int
deriving DecidableEq, Repr

/-- The value of a Go `int` expression (64 bits): the integer reduced to the
range from `-2^63` to `2^63 - 1`. -/
def wrapInt (x : Int) : Int :=
  (x + 9223372036854775808) % 18446744073709551616 - 9223372036854775808

/-- Payment.CalculateTTL of `api/api.go`. -/
def Payment.CalculateTTL (cfg : Config) (p : Payment) (minsFromCreation : Int) : Payment :=
  if p.Status = PaymentStatusPending then
    let p1 := { p with TTL := wrapInt (cfg.PaymentMaxTTL - minsFromCreation) }
    if p1.TTL < 0 then { p1 with TTL := 0 } else p1
  else p

end DeroMerchant

/-! ## The relation between two states of the payments table -/

namespace DeroMerchant

/-- One row before and after writes of the processor: the row is the same,
or its status was "pending" and is now "paid", "expired" or "error", every
other column being the same. -/
def rowStep (r r2 : PaymentRow) : Prop :=
  r2 = r ∨ (r.status = PaymentStatusPending
    ∧ (r2.status = PaymentStatusPaid ∨ r2.status = PaymentStatusExpired
        ∨ r2.status = PaymentStatusError)
    ∧ r2 = { r with status := r2.status })

/-- A table before and after writes of the processor: every row is still at
its place and is related to the row it was by `rowStep`. -/
def tableStep (t t2 : List PaymentRow) : Prop :=
  ∀ (i : Nat) (r : PaymentRow), t[i]? = some r → ∃ r2, t2[i]? = some r2 ∧ rowStep r r2

end DeroMerchant

/-! ## Example inputs -/

namespace DeroMerchant

/-- A configuration: 60 minutes to live, 3 confirmations. -/
def exampleConfig : Config := ⟨60, 3⟩

/-- A configuration with a negative minimum of confirmations, which
`config.go` accepts: 60 minutes to live, -1 confirmations. -/
def negativeConfig : Config := ⟨60, -1⟩

/-- A world with the daemon online, in which every deposit lookup returns the
given deposits, every payment was created the given number of minutes ago
and no update fails. -/
def exampleWorld (deposits : List Entry) (walletHeight daemonHeight : Nat) (minutes : ℚ) :
    World where
  IsDaemonOnline := true
  Get_Height := walletHeight
  Get_Daemon_Height := daemonHeight
  Get_Daemon_TopoHeight := daemonHeight
  DecodeString := fun _ => []
  Get_Payments_Payment_ID := fun _ => deposits
  Now := 0
  MinutesSince := fun _ => minutes
  ExecFails := fun _ => false

/-- A payment expecting 1,000,000,000,000 atomic units. -/
def examplePayment : PendingPayment := ⟨1000000000000, 0⟩

/-- A store wallet polling for the payment "a1b2", with the given webhook. -/
def exampleWallet (wh : Webhook) : StoreWallet where
  calls := [.SetInitialHeight 100, .SetOnlineMode, .StartChecker, .goCheckForPayments]
  PendingPayments := ⟨[("a1b2", examplePayment)], some ⟨false⟩⟩
  Webhook := wh

/-- A webhook that is set. -/
def exampleWebhook : Webhook := ⟨"https://shop.example/hook", "00ff"⟩

/-- A webhook that is not set. -/
def noWebhook : Webhook := ⟨"", ""⟩

/-- A payments table in which the payment "a1b2" is pending. -/
def pendingTable : List PaymentRow := [⟨"a1b2", "pending", "dETo1", 1000000000000, 7⟩]

/-- A payments table in which the payment "a1b2" is already paid. -/
def paidTable : List PaymentRow := [⟨"a1b2", "paid", "dETo1", 1000000000000, 7⟩]

/-- A store wallet as `NewStoreWallet` returns it: no call made, no pending
payment, no ticker. -/
def freshWallet (wh : Webhook) : StoreWallet where
  calls := []
  PendingPayments := NewPendingPayments
  Webhook := wh

/-- A world in which the daemon is offline. -/
def offlineWorld : World :=
  { exampleWorld [] 100 100 0 with IsDaemonOnline := false }

/-- The wallet a first `AddPendingPayment` leaves when the daemon answers the
entry check and not the check of `StartCheckingForPayments`: one pending
payment and no ticker. -/
def strandedWallet : StoreWallet :=
  ((freshWallet exampleWebhook).AddPendingPayment (exampleWorld [] 100 100 0) offlineWorld
    "c3d4" 1000000000000).1

/-- A payments table with two pending payments, of the stores 7 and 8. -/
def twoPendingTable : List PaymentRow :=
  [⟨"c3d4", "pending", "dETo2", 1000000000000, 7⟩,
   ⟨"a1b2", "pending", "dETo1", 1000000000000, 8⟩]

/-- A store world in which store 7 has a view key, a webhook and a secret,
the random password is the given one and every wallet can be built. -/
def exampleStoreWorld (password : String) : StoreWorld where
  QueryStore := fun storeID =>
    if storeID = 7 then some ("c53d", "https://shop.example/hook", "00ff") else none
  RandomHexString := some password
  Create_Encrypted_Wallet_ViewOnly := fun _ _ _ => true
  WalletsPath := "wallets/"
  DeroDaemonAddress := "127.0.0.1:30306"

/-- A store world in which the wallet of store 7 cannot be built. -/
def brokenStoreWorld : StoreWorld :=
  { exampleStoreWorld "ab" with Create_Encrypted_Wallet_ViewOnly := fun _ _ _ => false }

/-- A webhook world: strings without special characters are quoted as they
are, the MAC is a toy function of the key and the message, and
`http.NewRequest` refuses the URLs that start with a colon (missing protocol
scheme). -/
def exampleWebhookWorld : WebhookWorld where
  jsonString := fun s => "\"" ++ s ++ "\""
  hmacSum := fun key message => key ++ [message.length % 256, message.sum % 256]
  NewRequest := fun url => url.data.head? != some ':'

/-- A digest of one byte, the sum of the bytes modulo 256, in which
collisions are easy to find. -/
def toyDigest (bs : List Nat) : List Nat := [bs.sum % 256]

/-- An address world in which the wallet first generates the address and
the payment ID of the payment "a1b2" and then a fresh pair, and no query
fails. -/
def exampleAddressWorld : AddressWorld where
  GetRandomIAddress32 := fun n => if n = 0 then ("dETo1", [161, 178]) else ("dETo9", [9, 9])
  QueryFails := fun _ => false

/-- A table of connections: two listen for "a1b2", one for "c3d4". -/
def exampleConnections : ConnectionsToPayment := ⟨[("a1b2", [1, 2]), ("c3d4", [3])]⟩

/-- A store wallet polling for the payments "a1b2" and "c3d4". -/
def twoPaymentsWallet : StoreWallet where
  calls := [.SetInitialHeight 100, .SetOnlineMode, .StartChecker, .goCheckForPayments]
  PendingPayments := ⟨[("a1b2", examplePayment), ("c3d4", examplePayment)], some ⟨false⟩⟩
  Webhook := exampleWebhook

/-- The same store wallet, its pending set iterated in the other order. -/
def twoPaymentsWalletSwapped : StoreWallet where
  calls := [.SetInitialHeight 100, .SetOnlineMode, .StartChecker, .goCheckForPayments]
  PendingPayments := ⟨[("c3d4", examplePayment), ("a1b2", examplePayment)], some ⟨false⟩⟩
  Webhook := exampleWebhook

/-- A world in which the payment is funded and confirmed and every update of
one payment returns an error. -/
def refusedUpdateWorld : World :=
  { exampleWorld [⟨1000000000000, 97⟩] 100 100 5 with ExecFails := fun _ => true }

/-- A world in which the storewide update fails. -/
def failingUpdateWorld : World :=
  { exampleWorld [] 100 100 0 with ExecFails := fun _ => true }

end DeroMerchant

/-! ## Lemmas on the deposit scan and on the choice of the status -/

namespace DeroMerchant

theorem scanStep_foldl (cfg : Config) (W : World) :
    ∀ (es : List Entry) (a : Nat) (b : Bool), a < 18446744073709551616 →
      es.foldl (scanStep cfg W) (a, b)
        = ((a + (es.map Entry.Amount).sum) % 18446744073709551616,
           b || es.any (fun e => decide (underConfirmed cfg W e))) := by
  intro es
  induction es with
  | nil =>
      intro a b ha
      simp [Nat.mod_eq_of_lt ha]
  | cons e es ih =>
      intro a b _
      have hlt : u64add a e.Amount < 18446744073709551616 := by
        unfold u64add; exact Nat.mod_lt _ (by norm_num)
      by_cases hc : u64sub W.Get_Daemon_Height e.Height < uint64OfInt cfg.PaymentMinConfirmations
      · have hs : scanStep cfg W (a, b) e = (u64add a e.Amount, true) := by
          simp [scanStep, hc]
        rw [List.foldl_cons, hs, ih _ _ hlt]
        simp [underConfirmed, hc, u64add, Nat.add_assoc]
      · have hs : scanStep cfg W (a, b) e = (u64add a e.Amount, b) := by
          simp [scanStep, hc]
        rw [List.foldl_cons, hs, ih _ _ hlt]
        simp [underConfirmed, hc, u64add, Nat.add_assoc]

theorem scanEntries_fst (cfg : Config) (W : World) (es : List Entry) :
    (scanEntries cfg W es).1 = (es.map Entry.Amount).sum % 18446744073709551616 := by
  unfold scanEntries
  rw [scanStep_foldl cfg W es 0 false (by norm_num)]
  simp

theorem scanEntries_snd (cfg : Config) (W : World) (es : List Entry) :
    (scanEntries cfg W es).2 = es.any (fun e => decide (underConfirmed cfg W e)) := by
  unfold scanEntries
  rw [scanStep_foldl cfg W es 0 false (by norm_num)]
  simp

theorem scanEntries_snd_true (cfg : Config) (W : World) (es : List Entry) (e : Entry)
    (he : e ∈ es) (hu : underConfirmed cfg W e) : (scanEntries cfg W es).2 = true := by
  rw [scanEntries_snd]
  simp only [List.any_eq_true, decide_eq_true_eq]
  exact ⟨e, he, hu⟩

theorem scanEntries_snd_false (cfg : Config) (W : World) (es : List Entry)
    (h : ∀ e ∈ es, ¬ underConfirmed cfg W e) : (scanEntries cfg W es).2 = false := by
  rw [scanEntries_snd]
  simp only [List.any_eq_false, decide_eq_true_eq]
  exact h

end DeroMerchant

/-! ## Lemmas on the sweep -/

namespace DeroMerchant

theorem checkPayment_eq (cfg : Config) (W : World) (s : TickState)
    (kv : String × PendingPayment) :
    checkPayment cfg W s kv =
      { wallet :=
          { calls := s.wallet.calls ++ [.Get_Payments_Payment_ID (W.DecodeString kv.1)],
            PendingPayments :=
              if stepRemoves cfg W kv then s.wallet.PendingPayments.Delete kv.1
              else s.wallet.PendingPayments,
            Webhook := s.wallet.Webhook },
        DB := if stepRemoves cfg W kv then (stepQuery cfg W kv).run s.DB else s.DB,
        effects := s.effects ++ stepEffects cfg W s.wallet.Webhook kv } := by
  unfold checkPayment stepRemoves stepEffects stepQuery decision
  by_cases h2 : (scanEntries cfg W (W.Get_Payments_Payment_ID (W.DecodeString kv.1))).2 = true
  · simp [h2]
  · by_cases h3 : chooseStatus cfg W kv.2
        (scanEntries cfg W (W.Get_Payments_Payment_ID (W.DecodeString kv.1))).1 = ""
    · simp [h2, h3]
    · by_cases h4 : W.ExecFails (some kv.1) = true
      · simp [h2, h3, h4]
      · simp [h2, h3, h4, List.append_assoc]


theorem foldl_checkPayment_webhook (cfg : Config) (W : World) :
    ∀ (l : List (String × PendingPayment)) (s : TickState),
      (l.foldl (checkPayment cfg W) s).wallet.Webhook = s.wallet.Webhook := by
  intro l
  induction l with
  | nil => intro s; rfl
  | cons kv l ih =>
      intro s
      rw [List.foldl_cons, ih, checkPayment_eq]

theorem foldl_checkPayment_checker (cfg : Config) (W : World) :
    ∀ (l : List (String × PendingPayment)) (s : TickState),
      (l.foldl (checkPayment cfg W) s).wallet.PendingPayments.Checker
        = s.wallet.PendingPayments.Checker := by
  intro l
  induction l with
  | nil => intro s; rfl
  | cons kv l ih =>
      intro s
      rw [List.foldl_cons, ih, checkPayment_eq]
      by_cases h : stepRemoves cfg W kv = true
      · simp [h, PendingPayments.Delete]
      · simp [h]

theorem foldl_checkPayment_calls (cfg : Config) (W : World) :
    ∀ (l : List (String × PendingPayment)) (s : TickState),
      (l.foldl (checkPayment cfg W) s).wallet.calls
        = s.wallet.calls
            ++ l.map (fun kv => WalletCall.Get_Payments_Payment_ID (W.DecodeString kv.1)) := by
  intro l
  induction l with
  | nil => intro s; simp
  | cons kv l ih =>
      intro s
      rw [List.foldl_cons, ih, checkPayment_eq]
      simp

theorem foldl_checkPayment_effects (cfg : Config) (W : World) :
    ∀ (l : List (String × PendingPayment)) (s : TickState),
      (l.foldl (checkPayment cfg W) s).effects
        = s.effects ++ (l.map (stepEffects cfg W s.wallet.Webhook)).flatten := by
  intro l
  induction l with
  | nil => intro s; simp
  | cons kv l ih =>
      intro s
      rw [List.foldl_cons, ih, checkPayment_eq]
      simp [List.append_assoc]

theorem foldl_checkPayment_map (cfg : Config) (W : World) :
    ∀ (l : List (String × PendingPayment)) (s : TickState),
      (l.foldl (checkPayment cfg W) s).wallet.PendingPayments.Map
        = s.wallet.PendingPayments.Map.filter
            (fun e => !(l.any (fun kv => stepRemoves cfg W kv && kv.1 == e.1))) := by
  intro l
  induction l with
  | nil => intro s; simp
  | cons kv l ih =>
      intro s
      rw [List.foldl_cons, ih, checkPayment_eq]
      by_cases h : stepRemoves cfg W kv = true
      · simp only [h, if_true, PendingPayments.Delete, List.filter_filter, List.any_cons,
          Bool.true_and]
        apply List.filter_congr
        intro e _
        by_cases hk : kv.1 = e.1
        · simp [hk]
        · have hk2 : (e.1 != kv.1) = true := by
            simp only [bne_iff_ne, ne_eq]
            exact fun h => hk h.symm
          have hk3 : (kv.1 == e.1) = false := by
            simp only [beq_eq_false_iff_ne, ne_eq]
            exact hk
          rw [hk2, hk3]
          simp
      · simp [h]


theorem sweep_effects (cfg : Config) (W : World) (w : StoreWallet) (db : List PaymentRow) :
    (sweep cfg W w db).effects
      = (w.PendingPayments.Map.map (stepEffects cfg W w.Webhook)).flatten := by
  unfold sweep
  rw [foldl_checkPayment_effects]
  simp

theorem sweep_map (cfg : Config) (W : World) (w : StoreWallet) (db : List PaymentRow) :
    (sweep cfg W w db).wallet.PendingPayments.Map
      = w.PendingPayments.Map.filter
          (fun e => !(w.PendingPayments.Map.any
            (fun kv => stepRemoves cfg W kv && kv.1 == e.1))) := by
  unfold sweep
  rw [foldl_checkPayment_map]

theorem sweep_checker (cfg : Config) (W : World) (w : StoreWallet) (db : List PaymentRow) :
    (sweep cfg W w db).wallet.PendingPayments.Checker = w.PendingPayments.Checker := by
  unfold sweep
  rw [foldl_checkPayment_checker]

theorem stop_map (w : StoreWallet) :
    w.StopCheckingForPayments.1.PendingPayments.Map = w.PendingPayments.Map := by
  unfold StoreWallet.StopCheckingForPayments
  cases w.PendingPayments.Checker <;> rfl

theorem tick_effects (cfg : Config) (W : World) (w : StoreWallet) (db : List PaymentRow)
    (honline : W.IsDaemonOnline = true) :
    (tick cfg W w db).effects = (sweep cfg W w db).effects := by
  unfold tick
  simp only [honline, Bool.not_true, Bool.false_eq_true, if_false]
  split
  · split <;> rfl
  · rfl

theorem tick_map (cfg : Config) (W : World) (w : StoreWallet) (db : List PaymentRow)
    (honline : W.IsDaemonOnline = true) :
    (tick cfg W w db).wallet.PendingPayments.Map
      = (sweep cfg W w db).wallet.PendingPayments.Map := by
  unfold tick
  simp only [honline, Bool.not_true, Bool.false_eq_true, if_false]
  split
  · have hm := stop_map (sweep cfg W w db).wallet
    split
    · rename_i heq
      rw [heq] at hm
      exact hm
    · rename_i heq
      rw [heq] at hm
      exact hm
  · rfl

theorem tick_DB (cfg : Config) (W : World) (w : StoreWallet) (db : List PaymentRow)
    (honline : W.IsDaemonOnline = true) :
    (tick cfg W w db).DB = (sweep cfg W w db).DB := by
  unfold tick
  simp only [honline, Bool.not_true, Bool.false_eq_true, if_false]
  split
  · split <;> rfl
  · rfl

theorem tick_status_next (cfg : Config) (W : World) (w : StoreWallet) (db : List PaymentRow)
    (honline : W.IsDaemonOnline = true)
    (hcount : (sweep cfg W w db).wallet.PendingPayments.Count ≠ 0) :
    (tick cfg W w db).status = .next := by
  unfold tick
  simp [honline, hcount]

theorem paymentID_of_mem_stepEffects (cfg : Config) (W : World) (wh : Webhook)
    (kv : String × PendingPayment) (e : Effect) (he : e ∈ stepEffects cfg W wh kv) :
    e.paymentID = some kv.1 := by
  unfold stepEffects at he
  split at he
  · simp at he
  · split at he
    · simp only [List.mem_singleton] at he
      subst he
      rfl
    · by_cases hw : wh.IsSet = true
      · simp only [hw, if_true, List.mem_append, List.mem_singleton] at he
        rcases he with (he | he) | he <;> subst he <;> rfl
      · simp only [hw, if_false, List.append_nil, List.mem_append, List.mem_singleton,
          Bool.false_eq_true] at he
        rcases he with he | he <;> subst he <;> rfl

theorem stepEffects_of_noChange (cfg : Config) (W : World) (wh : Webhook)
    (kv : String × PendingPayment) (h : decision cfg W kv = "") :
    stepEffects cfg W wh kv = [] := by
  simp [stepEffects, h]

theorem stepRemoves_of_noChange (cfg : Config) (W : World)
    (kv : String × PendingPayment) (h : decision cfg W kv = "") :
    stepRemoves cfg W kv = false := by
  simp [stepRemoves, h]

theorem exec_mem_stepEffects (cfg : Config) (W : World) (wh : Webhook)
    (kv : String × PendingPayment) (h : decision cfg W kv ≠ "") :
    Effect.exec (stepQuery cfg W kv) ∈ stepEffects cfg W wh kv := by
  unfold stepEffects
  by_cases hf : W.ExecFails (some kv.1) = true
  · simp [h, hf]
  · simp [h, hf]

/-- A payment for every entry of which the sweep chooses no new status is
left in the pending set by an online tick, which emits no effect about it
and goes on to the next tick. -/
theorem tick_untouched (cfg : Config) (W : World) (w : StoreWallet) (db : List PaymentRow)
    (P : String) (p : PendingPayment) (honline : W.IsDaemonOnline = true)
    (hmem : (P, p) ∈ w.PendingPayments.Map)
    (hno : ∀ kv ∈ w.PendingPayments.Map, kv.1 = P → decision cfg W kv = "") :
    (∀ e ∈ (tick cfg W w db).effects, e.paymentID ≠ some P)
      ∧ (P, p) ∈ (tick cfg W w db).wallet.PendingPayments.Map
      ∧ (tick cfg W w db).status = .next := by
  have hin : (P, p) ∈ (sweep cfg W w db).wallet.PendingPayments.Map := by
    rw [sweep_map, List.mem_filter]
    refine ⟨hmem, ?_⟩
    simp only [Bool.not_eq_true', List.any_eq_false, Bool.and_eq_true, beq_iff_eq, not_and]
    intro kv hkv hrem hk
    rw [stepRemoves_of_noChange cfg W kv (hno kv hkv hk)] at hrem
    exact Bool.false_ne_true hrem
  refine ⟨?_, ?_, ?_⟩
  · intro e he
    rw [tick_effects cfg W w db honline, sweep_effects] at he
    simp only [List.mem_flatten, List.mem_map] at he
    obtain ⟨l, ⟨kv, hkv, rfl⟩, hel⟩ := he
    have hid := paymentID_of_mem_stepEffects cfg W w.Webhook kv e hel
    intro hP
    rw [hid] at hP
    have hk : kv.1 = P := Option.some.inj hP
    rw [stepEffects_of_noChange cfg W w.Webhook kv (hno kv hkv hk)] at hel
    simp at hel
  · rw [tick_map cfg W w db honline]
    exact hin
  · apply tick_status_next cfg W w db honline
    unfold PendingPayments.Count
    intro h0
    rw [List.length_eq_zero] at h0
    rw [h0] at hin
    simp at hin

theorem value_unique_of_nodup_keys {α β : Type} :
    ∀ (l : List (α × β)) (k : α) (v v2 : β), (l.map Prod.fst).Nodup →
      (k, v) ∈ l → (k, v2) ∈ l → v = v2 := by
  intro l
  induction l with
  | nil => intro k v v2 _ h; simp at h
  | cons a l ih =>
      intro k v v2 hnd h1 h2
      rw [List.map_cons, List.nodup_cons] at hnd
      rcases List.mem_cons.mp h1 with h1 | h1
      · rcases List.mem_cons.mp h2 with h2 | h2
        · rw [← h2] at h1
          exact (Prod.mk.inj h1).2
        · exfalso
          apply hnd.1
          rw [← h1]
          exact List.mem_map.mpr ⟨(k, v2), h2, rfl⟩
      · rcases List.mem_cons.mp h2 with h2 | h2
        · exfalso
          apply hnd.1
          rw [← h2]
          exact List.mem_map.mpr ⟨(k, v), h1, rfl⟩
        · exact ih k v v2 hnd.2 h1 h2

theorem exec_mem_tick (cfg : Config) (W : World) (w : StoreWallet) (db : List PaymentRow)
    (kv : String × PendingPayment) (honline : W.IsDaemonOnline = true)
    (hmem : kv ∈ w.PendingPayments.Map) (h : decision cfg W kv ≠ "") :
    Effect.exec (stepQuery cfg W kv) ∈ (tick cfg W w db).effects := by
  rw [tick_effects cfg W w db honline, sweep_effects]
  simp only [List.mem_flatten, List.mem_map]
  exact ⟨stepEffects cfg W w.Webhook kv, ⟨kv, hmem, rfl⟩, exec_mem_stepEffects cfg W w.Webhook kv h⟩


theorem u64sub_of_le (a b : Nat) (ha : a < 18446744073709551616) (hb : b ≤ a) :
    u64sub a b = a - b := by
  unfold u64sub
  omega

theorem decision_of_underConfirmed (cfg : Config) (W : World) (kv : String × PendingPayment)
    (e : Entry) (he : e ∈ W.Get_Payments_Payment_ID (W.DecodeString kv.1))
    (hu : underConfirmed cfg W e) : decision cfg W kv = "" := by
  unfold decision
  simp [scanEntries_snd_true cfg W _ e he hu]

theorem decision_of_confirmed (cfg : Config) (W : World) (kv : String × PendingPayment)
    (h : ∀ e ∈ W.Get_Payments_Payment_ID (W.DecodeString kv.1), ¬ underConfirmed cfg W e) :
    decision cfg W kv
      = chooseStatus cfg W kv.2
          (((W.Get_Payments_Payment_ID (W.DecodeString kv.1)).map Entry.Amount).sum
            % 18446744073709551616) := by
  unfold decision
  simp [scanEntries_snd_false cfg W _ h, scanEntries_fst]

theorem decision_of_short (cfg : Config) (W : World) (kv : String × PendingPayment)
    (hshort : ((W.Get_Payments_Payment_ID (W.DecodeString kv.1)).map Entry.Amount).sum
                % 18446744073709551616 < kv.2.AtomicDeroAmount) :
    decision cfg W kv
      = if (scanEntries cfg W (W.Get_Payments_Payment_ID (W.DecodeString kv.1))).2 then ""
        else if kv.2.MinutesFromCreation W > float64OfInt cfg.PaymentMaxTTL then
          (if u64sub W.Get_Daemon_Height W.Get_Height ≤ 20 then PaymentStatusExpired else "")
        else "" := by
  have hn : ¬ ((scanEntries cfg W (W.Get_Payments_Payment_ID (W.DecodeString kv.1))).1
                ≥ kv.2.AtomicDeroAmount) := by
    rw [scanEntries_fst]
    omega
  unfold decision chooseStatus
  simp only [hn, if_false]

end DeroMerchant

/-! ## The claims on the evaluation of one pending payment -/

namespace DeroMerchant

/-- C1: in an online tick, a pending payment one of whose deposits has
fewer confirmations (daemon height minus deposit height, the deposit not
above the daemon) than the configured minimum gets no status update, no
webhook event and no live push, and stays in the pending set, whatever the
amounts received and expected and whatever the time elapsed. -/
theorem C1_unconfirmed_deposit_keeps_payment_pending (cfg : Config) (W : World)
    (w : StoreWallet) (db : List PaymentRow) (P : String) (p : PendingPayment) (e : Entry)
    (honline : W.IsDaemonOnline = true)
    (hmem : (P, p) ∈ w.PendingPayments.Map)
    (hdep : e ∈ W.Get_Payments_Payment_ID (W.DecodeString P))
    (hdaemon : W.Get_Daemon_Height < 18446744073709551616)
    (hle : e.Height ≤ W.Get_Daemon_Height)
    (hconf : W.Get_Daemon_Height - e.Height < uint64OfInt cfg.PaymentMinConfirmations) :
    (∀ ef ∈ (tick cfg W w db).effects, ef.paymentID ≠ some P)
      ∧ (P, p) ∈ (tick cfg W w db).wallet.PendingPayments.Map
      ∧ (tick cfg W w db).status = .next := by
  apply tick_untouched cfg W w db P p honline hmem
  intro kv _ hk
  apply decision_of_underConfirmed cfg W kv e
  · rw [hk]; exact hdep
  · unfold underConfirmed
    rw [u64sub_of_le _ _ hdaemon hle]
    exact hconf

/-- C2, as stated, fails for a negative minimum of confirmations: with the
minimum -1, a payment whose only deposit covers the expected amount and has
100 confirmations meets the condition of the claim (100 >= -1), yet the code
compares with `uint64(-1)`, finds the deposit under-confirmed, chooses no
status, issues no update and keeps the payment pending. -/
theorem C2_counterexample :
    (∀ e ∈ (exampleWorld [⟨1000000000000, 0⟩] 100 100 5).Get_Payments_Payment_ID
              ((exampleWorld [⟨1000000000000, 0⟩] 100 100 5).DecodeString "a1b2"),
        negativeConfig.PaymentMinConfirmations
          ≤ ((exampleWorld [⟨1000000000000, 0⟩] 100 100 5).Get_Daemon_Height : Int)
              - (e.Height : Int))
      ∧ examplePayment.AtomicDeroAmount
          ≤ (((exampleWorld [⟨1000000000000, 0⟩] 100 100 5).Get_Payments_Payment_ID
                ((exampleWorld [⟨1000000000000, 0⟩] 100 100 5).DecodeString "a1b2")).map
              Entry.Amount).sum
      ∧ u64sub (exampleWorld [⟨1000000000000, 0⟩] 100 100 5).Get_Daemon_Height 0 = 100
      ∧ uint64OfInt negativeConfig.PaymentMinConfirmations = 18446744073709551615
      ∧ decision negativeConfig (exampleWorld [⟨1000000000000, 0⟩] 100 100 5)
          ("a1b2", examplePayment) = ""
      ∧ (tick negativeConfig (exampleWorld [⟨1000000000000, 0⟩] 100 100 5)
          (exampleWallet exampleWebhook) pendingTable).effects = []
      ∧ (tick negativeConfig (exampleWorld [⟨1000000000000, 0⟩] 100 100 5)
          (exampleWallet exampleWebhook) pendingTable).DB = pendingTable
      ∧ ("a1b2", examplePayment)
          ∈ (tick negativeConfig (exampleWorld [⟨1000000000000, 0⟩] 100 100 5)
              (exampleWallet exampleWebhook) pendingTable).wallet.PendingPayments.Map := by
  refine ⟨?_, by decide, by decide, by decide, by decide, by decide, by decide, by decide⟩
  intro e he
  simp only [exampleWorld, List.mem_singleton] at he
  rw [he]
  decide

/-- C2, amended: in an online tick, with a minimum of confirmations that is
not negative, for a pending payment all of whose deposits have at least the
configured minimum of confirmations (daemon height minus deposit height) and
whose deposits sum, below 2^64, to at least the expected amount, the status
chosen is "paid" and the update to "paid" is issued, whatever the time
elapsed and the wallet height. -/
theorem C2_confirmed_and_funded_is_paid (cfg : Config) (W : World)
    (w : StoreWallet) (db : List PaymentRow) (P : String) (p : PendingPayment)
    (honline : W.IsDaemonOnline = true)
    (hmem : (P, p) ∈ w.PendingPayments.Map)
    (hdaemon : W.Get_Daemon_Height < 18446744073709551616)
    (hmin : 0 ≤ cfg.PaymentMinConfirmations)
    (hconf : ∀ e ∈ W.Get_Payments_Payment_ID (W.DecodeString P),
      cfg.PaymentMinConfirmations ≤ (W.Get_Daemon_Height : Int) - (e.Height : Int))
    (hsum : ((W.Get_Payments_Payment_ID (W.DecodeString P)).map Entry.Amount).sum
              < 18446744073709551616)
    (hfunded : p.AtomicDeroAmount
              ≤ ((W.Get_Payments_Payment_ID (W.DecodeString P)).map Entry.Amount).sum) :
    decision cfg W (P, p) = PaymentStatusPaid
      ∧ Effect.exec (.setStatusOfPayment PaymentStatusPaid P PaymentStatusPending)
          ∈ (tick cfg W w db).effects := by
  have hd : decision cfg W (P, p) = PaymentStatusPaid := by
    rw [decision_of_confirmed]
    · unfold chooseStatus
      rw [Nat.mod_eq_of_lt hsum]
      simp [hfunded]
    · intro e he
      have h1 := hconf e he
      unfold underConfirmed
      have hle : e.Height ≤ W.Get_Daemon_Height := by omega
      rw [u64sub_of_le _ _ hdaemon hle]
      have hu : (uint64OfInt cfg.PaymentMinConfirmations : Int) = cfg.PaymentMinConfirmations := by
        unfold uint64OfInt
        rw [Int.toNat_of_nonneg (Int.emod_nonneg _ (by decide))]
        exact Int.emod_eq_of_lt hmin (by omega)
      omega
  refine ⟨hd, ?_⟩
  have hne : decision cfg W (P, p) ≠ "" := by rw [hd]; decide
  have hx := exec_mem_tick cfg W w db (P, p) honline hmem hne
  unfold stepQuery at hx
  rw [hd] at hx
  exact hx

/-- C4: in an online tick, a pending payment with a received amount below
the expected amount is not expired while the daemon is more than 20 blocks
ahead of the wallet, however long ago it was created: the status chosen is
no change, no update and no notification is emitted for it, and it stays in
the pending set. -/
theorem C4_lagging_wallet_never_expires (cfg : Config) (W : World)
    (w : StoreWallet) (db : List PaymentRow) (P : String) (p : PendingPayment)
    (honline : W.IsDaemonOnline = true)
    (hkeys : (w.PendingPayments.Map.map Prod.fst).Nodup)
    (hmem : (P, p) ∈ w.PendingPayments.Map)
    (hdaemon : W.Get_Daemon_Height < 18446744073709551616)
    (hshort : ((W.Get_Payments_Payment_ID (W.DecodeString P)).map Entry.Amount).sum
                % 18446744073709551616 < p.AtomicDeroAmount)
    (hlag : 20 < W.Get_Daemon_Height - W.Get_Height) :
    decision cfg W (P, p) = ""
      ∧ (∀ ef ∈ (tick cfg W w db).effects, ef.paymentID ≠ some P)
      ∧ (P, p) ∈ (tick cfg W w db).wallet.PendingPayments.Map
      ∧ (tick cfg W w db).status = .next := by
  have hd : decision cfg W (P, p) = "" := by
    rw [decision_of_short cfg W (P, p) hshort]
    have hle : W.Get_Height ≤ W.Get_Daemon_Height := by omega
    rw [u64sub_of_le _ _ hdaemon hle]
    have hn : ¬ (W.Get_Daemon_Height - W.Get_Height ≤ 20) := by omega
    simp [hn]
  refine ⟨hd, ?_⟩
  apply tick_untouched cfg W w db P p honline hmem
  intro kv hkv hk
  have hv : kv = (P, p) := by
    have h2 : (P, kv.2) ∈ w.PendingPayments.Map := by rw [← hk]; exact hkv
    have := value_unique_of_nodup_keys _ P kv.2 p hkeys h2 hmem
    exact Prod.ext hk this
  rw [hv]
  exact hd

/-- C5: in an online tick, a pending payment with a received amount below
the expected amount and at most the configured time to live elapsed (the
time to live itself included) is left as it is, for every wallet height and
daemon height: the status chosen is no change, no update and no notification
is emitted for it, and it stays in the pending set. -/
theorem C5_within_ttl_no_change (cfg : Config) (W : World)
    (w : StoreWallet) (db : List PaymentRow) (P : String) (p : PendingPayment)
    (honline : W.IsDaemonOnline = true)
    (hkeys : (w.PendingPayments.Map.map Prod.fst).Nodup)
    (hmem : (P, p) ∈ w.PendingPayments.Map)
    (hshort : ((W.Get_Payments_Payment_ID (W.DecodeString P)).map Entry.Amount).sum
                % 18446744073709551616 < p.AtomicDeroAmount)
    (hearly : p.MinutesFromCreation W ≤ (cfg.PaymentMaxTTL : ℚ)) :
    decision cfg W (P, p) = ""
      ∧ (∀ ef ∈ (tick cfg W w db).effects, ef.paymentID ≠ some P)
      ∧ (P, p) ∈ (tick cfg W w db).wallet.PendingPayments.Map
      ∧ (tick cfg W w db).status = .next := by
  have hd : decision cfg W (P, p) = "" := by
    rw [decision_of_short cfg W (P, p) hshort]
    have hn : ¬ (p.MinutesFromCreation W > float64OfInt cfg.PaymentMaxTTL) := by
      unfold float64OfInt
      exact not_lt.mpr hearly
    simp [hn]
  refine ⟨hd, ?_⟩
  apply tick_untouched cfg W w db P p honline hmem
  intro kv hkv hk
  have hv : kv = (P, p) := by
    have h2 : (P, kv.2) ∈ w.PendingPayments.Map := by rw [← hk]; exact hkv
    have := value_unique_of_nodup_keys _ P kv.2 p hkeys h2 hmem
    exact Prod.ext hk this
  rw [hv]
  exact hd


theorem C1_witness :
    (∀ ef ∈ (tick exampleConfig (exampleWorld [⟨1000000000000, 98⟩] 100 100 5)
              (exampleWallet exampleWebhook) []).effects, ef.paymentID ≠ some "a1b2")
      ∧ ("a1b2", examplePayment)
          ∈ (tick exampleConfig (exampleWorld [⟨1000000000000, 98⟩] 100 100 5)
              (exampleWallet exampleWebhook) []).wallet.PendingPayments.Map
      ∧ (tick exampleConfig (exampleWorld [⟨1000000000000, 98⟩] 100 100 5)
              (exampleWallet exampleWebhook) []).status = .next :=
  C1_unconfirmed_deposit_keeps_payment_pending exampleConfig
    (exampleWorld [⟨1000000000000, 98⟩] 100 100 5) (exampleWallet exampleWebhook) []
    "a1b2" examplePayment ⟨1000000000000, 98⟩ rfl (by simp [exampleWallet])
    (by simp [exampleWorld]) (by decide) (by decide) (by decide)

theorem C2_witness :
    decision exampleConfig (exampleWorld [⟨1000000000000, 97⟩] 100 100 5)
        ("a1b2", examplePayment) = PaymentStatusPaid
      ∧ Effect.exec (.setStatusOfPayment PaymentStatusPaid "a1b2" PaymentStatusPending)
          ∈ (tick exampleConfig (exampleWorld [⟨1000000000000, 97⟩] 100 100 5)
              (exampleWallet exampleWebhook) []).effects :=
  C2_confirmed_and_funded_is_paid exampleConfig
    (exampleWorld [⟨1000000000000, 97⟩] 100 100 5) (exampleWallet exampleWebhook) []
    "a1b2" examplePayment rfl (by simp [exampleWallet]) (by decide) (by decide)
    (by simp [exampleWorld, exampleConfig]) (by decide) (by decide)

theorem C4_witness :
    decision exampleConfig (exampleWorld [] 79 100 100000) ("a1b2", examplePayment) = ""
      ∧ (∀ ef ∈ (tick exampleConfig (exampleWorld [] 79 100 100000)
              (exampleWallet exampleWebhook) []).effects, ef.paymentID ≠ some "a1b2")
      ∧ ("a1b2", examplePayment)
          ∈ (tick exampleConfig (exampleWorld [] 79 100 100000)
              (exampleWallet exampleWebhook) []).wallet.PendingPayments.Map
      ∧ (tick exampleConfig (exampleWorld [] 79 100 100000)
              (exampleWallet exampleWebhook) []).status = .next :=
  C4_lagging_wallet_never_expires exampleConfig
    (exampleWorld [] 79 100 100000) (exampleWallet exampleWebhook) []
    "a1b2" examplePayment rfl (by simp [exampleWallet]) (by simp [exampleWallet])
    (by decide) (by decide) (by decide)

theorem C5_witness :
    decision exampleConfig (exampleWorld [] 100 100 60) ("a1b2", examplePayment) = ""
      ∧ (∀ ef ∈ (tick exampleConfig (exampleWorld [] 100 100 60)
              (exampleWallet exampleWebhook) []).effects, ef.paymentID ≠ some "a1b2")
      ∧ ("a1b2", examplePayment)
          ∈ (tick exampleConfig (exampleWorld [] 100 100 60)
              (exampleWallet exampleWebhook) []).wallet.PendingPayments.Map
      ∧ (tick exampleConfig (exampleWorld [] 100 100 60)
              (exampleWallet exampleWebhook) []).status = .next :=
  C5_within_ttl_no_change exampleConfig
    (exampleWorld [] 100 100 60) (exampleWallet exampleWebhook) []
    "a1b2" examplePayment rfl (by simp [exampleWallet]) (by simp [exampleWallet])
    (by decide)
    (by norm_num [PendingPayment.MinutesFromCreation, exampleWorld, exampleConfig])

end DeroMerchant

/-! ## The claims on the status update and the notifications -/

namespace DeroMerchant

theorem decision_paid_or_expired (cfg : Config) (W : World) (kv : String × PendingPayment)
    (h : decision cfg W kv ≠ "") :
    decision cfg W kv = PaymentStatusPaid ∨ decision cfg W kv = PaymentStatusExpired := by
  unfold decision chooseStatus at *
  revert h
  simp only []
  split
  · intro h; exact absurd rfl h
  · split
    · intro _; exact Or.inl rfl
    · split
      · split
        · intro _; exact Or.inr rfl
        · intro h; exact absurd rfl h
      · intro h; exact absurd rfl h

theorem filter_stepEffects_self (cfg : Config) (W : World) (wh : Webhook)
    (kv : String × PendingPayment) :
    (stepEffects cfg W wh kv).filter (fun e => e.paymentID == some kv.1)
      = stepEffects cfg W wh kv := by
  rw [List.filter_eq_self]
  intro e he
  rw [paymentID_of_mem_stepEffects cfg W wh kv e he]
  simp

theorem filter_stepEffects_other (cfg : Config) (W : World) (wh : Webhook)
    (kv : String × PendingPayment) (P : String) (hne : kv.1 ≠ P) :
    (stepEffects cfg W wh kv).filter (fun e => e.paymentID == some P) = [] := by
  rw [List.filter_eq_nil_iff]
  intro e he
  rw [paymentID_of_mem_stepEffects cfg W wh kv e he]
  simp [hne]

theorem filter_flatten_absent (cfg : Config) (W : World) (wh : Webhook) (P : String) :
    ∀ (l : List (String × PendingPayment)), P ∉ l.map Prod.fst →
      ((l.map (stepEffects cfg W wh)).flatten).filter (fun e => e.paymentID == some P)
        = [] := by
  intro l
  induction l with
  | nil => intro _; rfl
  | cons kv l ih =>
      intro hP
      rw [List.map_cons, List.mem_cons, not_or] at hP
      rw [List.map_cons, List.flatten_cons, List.filter_append,
        filter_stepEffects_other cfg W wh kv P (fun h => hP.1 h.symm), ih hP.2]
      rfl

theorem filter_flatten_present (cfg : Config) (W : World) (wh : Webhook) (P : String)
    (p : PendingPayment) :
    ∀ (l : List (String × PendingPayment)), (l.map Prod.fst).Nodup → (P, p) ∈ l →
      ((l.map (stepEffects cfg W wh)).flatten).filter (fun e => e.paymentID == some P)
        = stepEffects cfg W wh (P, p) := by
  intro l
  induction l with
  | nil => intro _ h; simp at h
  | cons kv l ih =>
      intro hnd hmem
      rw [List.map_cons, List.nodup_cons] at hnd
      rw [List.map_cons, List.flatten_cons, List.filter_append]
      rcases List.mem_cons.mp hmem with h | h
      · subst h
        rw [filter_stepEffects_self cfg W wh (P, p), filter_flatten_absent cfg W wh P l hnd.1]
        simp
      · have hne : kv.1 ≠ P := by
          intro hk
          apply hnd.1
          rw [hk]
          exact List.mem_map.mpr ⟨(P, p), h, rfl⟩
        rw [filter_stepEffects_other cfg W wh kv P hne, ih hnd.2 h]
        rfl

/-- C6: when a tick chooses "paid" or "expired" for the payment P and the
update returns no error, the effects of the tick about P are, in order, the
update of P to the new status where the status is pending, one webhook
event (P, new status) exactly when the webhook is set, and one live push
(P, new status); P is no longer in the pending set after the tick; and the
step that handles P changes the table by that update and the pending set by
removing P, every other entry being in the set after the step exactly when
it was before. -/
theorem C6_successful_update_removes_and_notifies (cfg : Config) (W : World)
    (w : StoreWallet) (db : List PaymentRow) (P : String) (p : PendingPayment)
    (s : TickState)
    (honline : W.IsDaemonOnline = true)
    (hkeys : (w.PendingPayments.Map.map Prod.fst).Nodup)
    (hmem : (P, p) ∈ w.PendingPayments.Map)
    (hdec : decision cfg W (P, p) = PaymentStatusPaid
              ∨ decision cfg W (P, p) = PaymentStatusExpired)
    (hok : W.ExecFails (some P) = false) :
    (tick cfg W w db).effects.filter (fun e => e.paymentID == some P)
        = [Effect.exec
            (.setStatusOfPayment (decision cfg W (P, p)) P PaymentStatusPending)]
          ++ (if w.Webhook.IsSet then
                [Effect.goSendPaymentUpdateEvent w.Webhook P (decision cfg W (P, p))]
              else [])
          ++ [Effect.goSendStatusUpdate P (decision cfg W (P, p))]
      ∧ (∀ p2, (P, p2) ∉ (tick cfg W w db).wallet.PendingPayments.Map)
      ∧ (checkPayment cfg W s (P, p)).DB
          = (Query.setStatusOfPayment (decision cfg W (P, p)) P PaymentStatusPending).run s.DB
      ∧ (∀ p2, (P, p2) ∉ (checkPayment cfg W s (P, p)).wallet.PendingPayments.Map)
      ∧ (∀ kv, kv.1 ≠ P →
          (kv ∈ (checkPayment cfg W s (P, p)).wallet.PendingPayments.Map
            ↔ kv ∈ s.wallet.PendingPayments.Map)) := by
  have hne : decision cfg W (P, p) ≠ "" := by
    rcases hdec with h | h <;> rw [h] <;> decide
  have hrem : stepRemoves cfg W (P, p) = true := by
    simp [stepRemoves, hne, hok]
  refine ⟨?_, ?_, ?_, ?_, ?_⟩
  · rw [tick_effects cfg W w db honline, sweep_effects,
      filter_flatten_present cfg W w.Webhook P p _ hkeys hmem]
    simp [stepEffects, hne, hok, stepQuery]
  · intro p2 hin
    rw [tick_map cfg W w db honline, sweep_map, List.mem_filter] at hin
    have h2 := hin.2
    simp only [Bool.not_eq_true', List.any_eq_false, Bool.and_eq_true, beq_iff_eq,
      not_and] at h2
    exact h2 (P, p) hmem hrem rfl
  · rw [checkPayment_eq]
    simp [hrem, stepQuery]
  · intro p2 hin
    rw [checkPayment_eq] at hin
    simp [hrem, PendingPayments.Delete] at hin
  · intro kv hkv
    rw [checkPayment_eq]
    simp [hrem, PendingPayments.Delete, hkv]


theorem C6_witness :
    (tick exampleConfig (exampleWorld [⟨1000000000000, 97⟩] 100 100 5)
        (exampleWallet exampleWebhook) pendingTable).effects.filter
          (fun e => e.paymentID == some "a1b2")
        = [Effect.exec (.setStatusOfPayment "paid" "a1b2" "pending"),
           Effect.goSendPaymentUpdateEvent exampleWebhook "a1b2" "paid",
           Effect.goSendStatusUpdate "a1b2" "paid"]
      ∧ (∀ p2, ("a1b2", p2)
          ∉ (tick exampleConfig (exampleWorld [⟨1000000000000, 97⟩] 100 100 5)
              (exampleWallet exampleWebhook) pendingTable).wallet.PendingPayments.Map)
      ∧ (checkPayment exampleConfig (exampleWorld [⟨1000000000000, 97⟩] 100 100 5)
          ⟨exampleWallet exampleWebhook, pendingTable, []⟩ ("a1b2", examplePayment)).DB
          = [⟨"a1b2", "paid", "dETo1", 1000000000000, 7⟩] :=
  have h := C6_successful_update_removes_and_notifies exampleConfig
    (exampleWorld [⟨1000000000000, 97⟩] 100 100 5) (exampleWallet exampleWebhook)
    pendingTable "a1b2" examplePayment ⟨exampleWallet exampleWebhook, pendingTable, []⟩
    rfl (by simp [exampleWallet]) (by simp [exampleWallet]) (Or.inl (by decide)) rfl
  ⟨h.1, h.2.1, h.2.2.1⟩

theorem run_of_rowsAffected_zero (q : Query) (t : List PaymentRow)
    (h : q.rowsAffected t = 0) : q.run t = t := by
  unfold Query.rowsAffected at h
  rw [List.length_eq_zero, List.filter_eq_nil_iff] at h
  unfold Query.run
  conv_rhs => rw [← List.map_id t]
  apply List.map_congr_left
  intro r hr
  simp [h r hr]

/-- C7, as the code has it: the update of the tick to P affects no row
because the persisted status of P is already "paid", and the tick still
dispatches the webhook event and the live push for P. -/
theorem C7_counterexample :
    (Query.setStatusOfPayment PaymentStatusPaid "a1b2" PaymentStatusPending).rowsAffected
        paidTable = 0
      ∧ decision exampleConfig (exampleWorld [⟨1000000000000, 97⟩] 100 100 5)
          ("a1b2", examplePayment) = PaymentStatusPaid
      ∧ (tick exampleConfig (exampleWorld [⟨1000000000000, 97⟩] 100 100 5)
          (exampleWallet exampleWebhook) paidTable).effects
          = [Effect.exec (.setStatusOfPayment "paid" "a1b2" "pending"),
             Effect.goSendPaymentUpdateEvent exampleWebhook "a1b2" "paid",
             Effect.goSendStatusUpdate "a1b2" "paid"] := by
  decide

/-- C7, amended: when a tick chooses "paid" or "expired" for the payment P
and the update returns no error but affects no row, the step that handles P
goes on as after any update without error: the table is unchanged, the
update, one webhook event exactly when the webhook is set and one live push
are emitted for P, and P is removed from the pending set. -/
theorem C7_zero_rows_update_is_not_detected (cfg : Config) (W : World)
    (P : String) (p : PendingPayment) (s : TickState)
    (hdec : decision cfg W (P, p) = PaymentStatusPaid
              ∨ decision cfg W (P, p) = PaymentStatusExpired)
    (hok : W.ExecFails (some P) = false)
    (hzero : (Query.setStatusOfPayment (decision cfg W (P, p)) P
                PaymentStatusPending).rowsAffected s.DB = 0) :
    (checkPayment cfg W s (P, p)).DB = s.DB
      ∧ (checkPayment cfg W s (P, p)).effects
          = s.effects
            ++ [Effect.exec
                  (.setStatusOfPayment (decision cfg W (P, p)) P PaymentStatusPending)]
            ++ (if s.wallet.Webhook.IsSet then
                  [Effect.goSendPaymentUpdateEvent s.wallet.Webhook P (decision cfg W (P, p))]
                else [])
            ++ [Effect.goSendStatusUpdate P (decision cfg W (P, p))]
      ∧ (∀ p2, (P, p2) ∉ (checkPayment cfg W s (P, p)).wallet.PendingPayments.Map) := by
  have hne : decision cfg W (P, p) ≠ "" := by
    rcases hdec with h | h <;> rw [h] <;> decide
  have hrem : stepRemoves cfg W (P, p) = true := by
    simp [stepRemoves, hne, hok]
  refine ⟨?_, ?_, ?_⟩
  · rw [checkPayment_eq]
    simp only [hrem, if_true, stepQuery]
    exact run_of_rowsAffected_zero _ _ hzero
  · rw [checkPayment_eq]
    simp [stepEffects, hne, hok, stepQuery]
  · intro p2 hin
    rw [checkPayment_eq] at hin
    simp [hrem, PendingPayments.Delete] at hin

theorem C7_witness :
    (checkPayment exampleConfig (exampleWorld [⟨1000000000000, 97⟩] 100 100 5)
        ⟨exampleWallet noWebhook, paidTable, []⟩ ("a1b2", examplePayment)).DB = paidTable
      ∧ (checkPayment exampleConfig (exampleWorld [⟨1000000000000, 97⟩] 100 100 5)
          ⟨exampleWallet noWebhook, paidTable, []⟩ ("a1b2", examplePayment)).effects
          = [Effect.exec (.setStatusOfPayment "paid" "a1b2" "pending"),
             Effect.goSendStatusUpdate "a1b2" "paid"] :=
  have h := C7_zero_rows_update_is_not_detected exampleConfig
    (exampleWorld [⟨1000000000000, 97⟩] 100 100 5) "a1b2" examplePayment
    ⟨exampleWallet noWebhook, paidTable, []⟩ (Or.inl (by decide)) rfl (by decide)
  ⟨h.1, h.2.1⟩

end DeroMerchant

/-! ## The claim on the persisted status -/

namespace DeroMerchant

theorem rowStep_refl (r : PaymentRow) : rowStep r r := Or.inl rfl

theorem rowStep_eq_of_not_pending (r r2 : PaymentRow) (h : rowStep r r2)
    (hs : r.status ≠ PaymentStatusPending) : r2 = r := by
  rcases h with h | ⟨hp, _, _⟩
  · exact h
  · exact absurd hp hs

theorem rowStep_changed (r r2 : PaymentRow) (h : rowStep r r2) (hne : r2 ≠ r) :
    r2.status ≠ PaymentStatusPending := by
  rcases h with h | ⟨_, ht, _⟩
  · exact absurd h hne
  · rcases ht with ht | ht | ht <;> rw [ht] <;> decide

theorem rowStep_trans (a b c : PaymentRow) (hab : rowStep a b) (hbc : rowStep b c) :
    rowStep a c := by
  by_cases hne : b = a
  · rw [hne] at hbc; exact hbc
  · have := rowStep_eq_of_not_pending b c hbc (rowStep_changed a b hab hne)
    rw [this]; exact hab

theorem tableStep_refl (t : List PaymentRow) : tableStep t t :=
  fun _ r h => ⟨r, h, rowStep_refl r⟩

theorem tableStep_trans (a b c : List PaymentRow) (hab : tableStep a b)
    (hbc : tableStep b c) : tableStep a c := by
  intro i r h
  obtain ⟨r1, h1, s1⟩ := hab i r h
  obtain ⟨r2, h2, s2⟩ := hbc i r1 h1
  exact ⟨r2, h2, rowStep_trans r r1 r2 s1 s2⟩

/-- The statements the processor executes: the update of one payment from
"pending" to "paid" or "expired", and the update of all payments from
"pending" to "error". -/
theorem issued_query_shape (q : Query)
    (h : (∃ cfg W kv, decision cfg W kv ≠ "" ∧ q = stepQuery cfg W kv)
          ∨ q = .setStatusOfAll PaymentStatusError PaymentStatusPending) :
    (∀ r, q.selects r = true → r.status = PaymentStatusPending)
      ∧ (q.newStatus = PaymentStatusPaid ∨ q.newStatus = PaymentStatusExpired
          ∨ q.newStatus = PaymentStatusError) := by
  rcases h with ⟨cfg, W, kv, hd, rfl⟩ | rfl
  · constructor
    · intro r hr
      simp only [stepQuery, Query.selects, Bool.and_eq_true, beq_iff_eq] at hr
      exact hr.2
    · rcases decision_paid_or_expired cfg W kv hd with h | h
      · exact Or.inl h
      · exact Or.inr (Or.inl h)
  · constructor
    · intro r hr
      simp only [Query.selects, beq_iff_eq] at hr
      exact hr
    · exact Or.inr (Or.inr rfl)

theorem rowStep_run (q : Query)
    (hsel : ∀ r, q.selects r = true → r.status = PaymentStatusPending)
    (hnew : q.newStatus = PaymentStatusPaid ∨ q.newStatus = PaymentStatusExpired
              ∨ q.newStatus = PaymentStatusError)
    (r : PaymentRow) :
    rowStep r (if q.selects r then { r with status := q.newStatus } else r) := by
  by_cases h : q.selects r = true
  · rw [if_pos h]
    exact Or.inr ⟨hsel r h, hnew, rfl⟩
  · rw [if_neg h]
    exact Or.inl rfl

theorem tableStep_run (q : Query)
    (hsel : ∀ r, q.selects r = true → r.status = PaymentStatusPending)
    (hnew : q.newStatus = PaymentStatusPaid ∨ q.newStatus = PaymentStatusExpired
              ∨ q.newStatus = PaymentStatusError)
    (t : List PaymentRow) : tableStep t (q.run t) := by
  intro i r h
  refine ⟨_, ?_, rowStep_run q hsel hnew r⟩
  unfold Query.run
  rw [List.getElem?_map, h]
  rfl

theorem tableStep_foldl_checkPayment (cfg : Config) (W : World) :
    ∀ (l : List (String × PendingPayment)) (s : TickState),
      tableStep s.DB (l.foldl (checkPayment cfg W) s).DB := by
  intro l
  induction l with
  | nil => intro s; exact tableStep_refl _
  | cons kv l ih =>
      intro s
      rw [List.foldl_cons]
      apply tableStep_trans _ _ _ _ (ih _)
      rw [checkPayment_eq]
      by_cases hrem : stepRemoves cfg W kv = true
      · simp only [hrem, if_true]
        have hd : decision cfg W kv ≠ "" := by
          intro h0
          rw [stepRemoves_of_noChange cfg W kv h0] at hrem
          exact Bool.false_ne_true hrem
        have hq := issued_query_shape (stepQuery cfg W kv) (Or.inl ⟨cfg, W, kv, hd, rfl⟩)
        exact tableStep_run _ hq.1 hq.2 _
      · simp only [hrem, if_false, Bool.false_eq_true]
        exact tableStep_refl _

theorem tableStep_tick (cfg : Config) (W : World) (w : StoreWallet) (db : List PaymentRow) :
    tableStep db (tick cfg W w db).DB := by
  by_cases honline : W.IsDaemonOnline = true
  · rw [tick_DB cfg W w db honline]
    exact tableStep_foldl_checkPayment cfg W _ ⟨w, db, []⟩
  · have : tick cfg W w db = ⟨w, db, [], .next⟩ := by
      unfold tick
      simp [honline]
    rw [this]
    exact tableStep_refl _

theorem tableStep_clean (W : World) (ws : List (Int × StoreWallet)) (db : List PaymentRow) :
    tableStep db (CleanAllPendingPayments W ws db).DB := by
  unfold CleanAllPendingPayments
  split
  · exact tableStep_refl _
  · by_cases hf : W.ExecFails none = true
    · simp only [hf, if_true]
      exact tableStep_refl _
    · simp only [hf, if_false, Bool.false_eq_true]
      have hq := issued_query_shape
        (.setStatusOfAll PaymentStatusError PaymentStatusPending) (Or.inr rfl)
      exact tableStep_run _ hq.1 hq.2 _

theorem tableStep_runSteps :
    ∀ (steps : List ProcessorStep) (db : List PaymentRow), tableStep db (runSteps steps db) := by
  intro steps
  induction steps with
  | nil => intro db; exact tableStep_refl _
  | cons st steps ih =>
      intro db
      unfold runSteps
      rw [List.foldl_cons]
      apply tableStep_trans _ _ _ _ (ih _)
      cases st with
      | tick cfg W w => exact tableStep_tick cfg W w db
      | clean W ws => exact tableStep_clean W ws db


theorem query_of_exec_mem_stepEffects (cfg : Config) (W : World) (wh : Webhook)
    (kv : String × PendingPayment) (q : Query)
    (h : Effect.exec q ∈ stepEffects cfg W wh kv) :
    decision cfg W kv ≠ "" ∧ q = stepQuery cfg W kv := by
  unfold stepEffects at h
  split at h
  · simp at h
  · rename_i hd
    refine ⟨hd, ?_⟩
    split at h
    · simpa using h
    · by_cases hw : wh.IsSet = true
      · simpa [hw] using h
      · simpa [hw] using h

theorem query_of_exec_mem_tick (cfg : Config) (W : World) (w : StoreWallet)
    (db : List PaymentRow) (q : Query) (h : Effect.exec q ∈ (tick cfg W w db).effects) :
    ∃ kv, decision cfg W kv ≠ "" ∧ q = stepQuery cfg W kv := by
  by_cases honline : W.IsDaemonOnline = true
  · rw [tick_effects cfg W w db honline, sweep_effects] at h
    simp only [List.mem_flatten, List.mem_map] at h
    obtain ⟨l, ⟨kv, _, rfl⟩, hel⟩ := h
    exact ⟨kv, query_of_exec_mem_stepEffects cfg W w.Webhook kv q hel⟩
  · have : tick cfg W w db = ⟨w, db, [], .next⟩ := by
      unfold tick
      simp [honline]
    rw [this] at h
    simp at h

theorem cleanWallet_no_exec (w : StoreWallet) (q : Query) :
    Effect.exec q ∉ (cleanWallet w).2.1 := by
  unfold cleanWallet
  split
  · split
    · simp
    · simp only [List.mem_flatten, List.mem_map, not_exists, not_and]
      intro l kv hl
      obtain ⟨kv2, _, rfl⟩ := kv
      split at hl <;> simp at hl
  · simp

theorem cleanWallets_no_exec (q : Query) :
    ∀ (ws : List (Int × StoreWallet)), Effect.exec q ∉ (cleanWallets ws).2.1 := by
  intro ws
  induction ws with
  | nil => simp [cleanWallets]
  | cons a ws ih =>
      obtain ⟨storeID, w⟩ := a
      have h1 := cleanWallet_no_exec w q
      unfold cleanWallets
      rcases hc : cleanWallet w with ⟨w1, es, ok⟩
      rw [hc] at h1
      cases ok with
      | false => simpa using h1
      | true =>
          rcases hr : cleanWallets ws with ⟨rest1, es1, ok1⟩
          rw [hr] at ih
          simp only [List.mem_append, not_or]
          exact ⟨h1, ih⟩

theorem query_of_exec_mem_clean (W : World) (ws : List (Int × StoreWallet))
    (db : List PaymentRow) (q : Query)
    (h : Effect.exec q ∈ (CleanAllPendingPayments W ws db).effects) :
    q = .setStatusOfAll PaymentStatusError PaymentStatusPending := by
  have hno := cleanWallets_no_exec q ws
  unfold CleanAllPendingPayments at h
  rcases hc : cleanWallets ws with ⟨ws1, es, ok⟩
  rw [hc] at h hno
  cases ok with
  | false => exact absurd h hno
  | true =>
      by_cases hf : W.ExecFails none = true
      · simp only [hf, if_true, List.mem_append, List.mem_singleton] at h
        rcases h with h | h
        · exact absurd h hno
        · exact Effect.exec.inj h
      · simp only [hf, if_false, List.mem_append, List.mem_singleton,
          Bool.false_eq_true] at h
        rcases h with h | h
        · exact absurd h hno
        · exact Effect.exec.inj h

/-- C8: every update the processor executes (any update a tick of
`CheckForPayments` or a call of `CleanAllPendingPayments` emits) leaves a row
whose status is "paid", "expired" or "error" as it is; and along every
sequence of ticks and reconciliations a row keeps its place, changes only
from "pending" to "paid", "expired" or "error" with every other column kept,
and once it has changed it never changes again. -/
theorem C8_persisted_status_leaves_pending_at_most_once
    (steps1 steps2 : List ProcessorStep) (db : List PaymentRow) (i : Nat) (r : PaymentRow)
    (hrow : db[i]? = some r) :
    (∀ (q : Query) (cfg : Config) (W : World) (w : StoreWallet)
        (ws : List (Int × StoreWallet)) (t : List PaymentRow),
        (Effect.exec q ∈ (tick cfg W w t).effects
          ∨ Effect.exec q ∈ (CleanAllPendingPayments W ws t).effects) →
        (r.status = PaymentStatusPaid ∨ r.status = PaymentStatusExpired
          ∨ r.status = PaymentStatusError) →
        (q.run db)[i]? = some r)
      ∧ ∃ r1 r2, (runSteps steps1 db)[i]? = some r1
          ∧ (runSteps (steps1 ++ steps2) db)[i]? = some r2
          ∧ (r1 = r ∨ (r.status = PaymentStatusPending
                ∧ (r1.status = PaymentStatusPaid ∨ r1.status = PaymentStatusExpired
                    ∨ r1.status = PaymentStatusError)
                ∧ r1 = { r with status := r1.status }))
          ∧ (r1 ≠ r → r2 = r1) := by
  constructor
  · intro q cfg W w ws t hq hterm
    have hshape : (∀ r, q.selects r = true → r.status = PaymentStatusPending)
        ∧ (q.newStatus = PaymentStatusPaid ∨ q.newStatus = PaymentStatusExpired
            ∨ q.newStatus = PaymentStatusError) := by
      rcases hq with hq | hq
      · obtain ⟨kv, hd, hk⟩ := query_of_exec_mem_tick cfg W w t q hq
        exact issued_query_shape q (Or.inl ⟨cfg, W, kv, hd, hk⟩)
      · exact issued_query_shape q (Or.inr (query_of_exec_mem_clean W ws t q hq))
    obtain ⟨r2, h2, hstep⟩ := tableStep_run q hshape.1 hshape.2 db i r hrow
    have hnp : r.status ≠ PaymentStatusPending := by
      rcases hterm with h | h | h <;> rw [h] <;> decide
    rw [h2, rowStep_eq_of_not_pending r r2 hstep hnp]
  · obtain ⟨r1, h1, s1⟩ := tableStep_runSteps steps1 db i r hrow
    have happ : runSteps (steps1 ++ steps2) db = runSteps steps2 (runSteps steps1 db) := by
      unfold runSteps
      rw [List.foldl_append]
    obtain ⟨r2, h2, s2⟩ := tableStep_runSteps steps2 (runSteps steps1 db) i r1 h1
    refine ⟨r1, r2, h1, ?_, s1, ?_⟩
    · rw [happ]; exact h2
    · intro hne
      exact rowStep_eq_of_not_pending r1 r2 s2 (rowStep_changed r r1 s1 hne)


theorem C8_witness :
    ∃ r1 r2,
      (runSteps [.tick exampleConfig (exampleWorld [⟨1000000000000, 97⟩] 100 100 5)
          (exampleWallet exampleWebhook)] pendingTable)[0]? = some r1
      ∧ (runSteps ([.tick exampleConfig (exampleWorld [⟨1000000000000, 97⟩] 100 100 5)
          (exampleWallet exampleWebhook)] ++ [.clean (exampleWorld [] 100 100 5) []])
          pendingTable)[0]? = some r2
      ∧ (r1 = (⟨"a1b2", "pending", "dETo1", 1000000000000, 7⟩ : PaymentRow)
          ∨ ((⟨"a1b2", "pending", "dETo1", 1000000000000, 7⟩ : PaymentRow).status
                = PaymentStatusPending
              ∧ (r1.status = PaymentStatusPaid ∨ r1.status = PaymentStatusExpired
                  ∨ r1.status = PaymentStatusError)
              ∧ r1 = { (⟨"a1b2", "pending", "dETo1", 1000000000000, 7⟩ : PaymentRow) with
                        status := r1.status }))
      ∧ (r1 ≠ (⟨"a1b2", "pending", "dETo1", 1000000000000, 7⟩ : PaymentRow) → r2 = r1) :=
  (C8_persisted_status_leaves_pending_at_most_once
    [.tick exampleConfig (exampleWorld [⟨1000000000000, 97⟩] 100 100 5)
      (exampleWallet exampleWebhook)]
    [.clean (exampleWorld [] 100 100 5) []]
    pendingTable 0 ⟨"a1b2", "pending", "dETo1", 1000000000000, 7⟩ rfl).2

end DeroMerchant

/-! ## The claims on the life of the poll loop -/

namespace DeroMerchant

/-- C9, as the code has it.  First: a payment is added to an empty set while
the daemon answers the entry check and not the check of
`StartCheckingForPayments`; the count goes from 0 to 1, an error is returned
and no ticker and no worker is started.  Second: the only pending payment is
added again; the count stays 1 and a second ticker and a second worker are
started. -/
theorem C9_counterexample :
    ((freshWallet noWebhook).PendingPayments.Count = 0
      ∧ ((freshWallet noWebhook).AddPendingPayment (exampleWorld [] 100 100 0) offlineWorld
            "a1b2" 1000000000000).1.PendingPayments.Count = 1
      ∧ ((freshWallet noWebhook).AddPendingPayment (exampleWorld [] 100 100 0) offlineWorld
            "a1b2" 1000000000000).1.calls = []
      ∧ ((freshWallet noWebhook).AddPendingPayment (exampleWorld [] 100 100 0) offlineWorld
            "a1b2" 1000000000000).2 = some "cannot start checking for payments")
    ∧ ((exampleWallet noWebhook).PendingPayments.Count = 1
      ∧ ((exampleWallet noWebhook).AddPendingPayment (exampleWorld [] 100 100 0)
            (exampleWorld [] 100 100 0) "a1b2" 1000000000000).1.PendingPayments.Count = 1
      ∧ ((exampleWallet noWebhook).AddPendingPayment (exampleWorld [] 100 100 0)
            (exampleWorld [] 100 100 0) "a1b2" 1000000000000).1.calls
          = [.SetInitialHeight 100, .SetOnlineMode, .StartChecker, .goCheckForPayments,
             .SetInitialHeight 100, .SetOnlineMode, .StartChecker, .goCheckForPayments]) := by
  decide

theorem Set_count_of_new (p : PendingPayments) (paymentID : String)
    (pendingPayment : PendingPayment) (hnew : paymentID ∉ p.Map.map Prod.fst) :
    (p.Set paymentID pendingPayment).Count = p.Count + 1 := by
  unfold PendingPayments.Set PendingPayments.Count
  have hf : p.Map.filter (fun e => e.1 != paymentID) = p.Map := by
    rw [List.filter_eq_self]
    intro e he
    simp only [bne_iff_ne, ne_eq]
    intro h
    apply hnew
    rw [← h]
    exact List.mem_map.mpr ⟨e, he, rfl⟩
  simp [hf]

/-- C9, amended: for a payment id that is not already pending,
`AddPendingPayment` starts the poll loop (initial height set, wallet set
online, new ticker, new worker, in this order and once) if and only if the
call raised the pending count from 0 to 1 and the daemon answered the check
of `StartCheckingForPayments`; in every other case no call is made on the
wallet or the ticker and the ticker is the one the wallet had, in particular
for every call made while at least one payment is pending. -/
theorem C9_poll_loop_started_on_first_payment (W W2 : World) (w : StoreWallet)
    (paymentID : String) (atomicDeroAmount : Nat)
    (hnew : paymentID ∉ w.PendingPayments.Map.map Prod.fst) :
    (((w.AddPendingPayment W W2 paymentID atomicDeroAmount).1.calls
          = w.calls ++ [.SetInitialHeight W2.Get_Daemon_TopoHeight, .SetOnlineMode,
                        .StartChecker, .goCheckForPayments]
        ∧ (w.AddPendingPayment W W2 paymentID atomicDeroAmount).1.PendingPayments.Checker
            = some ⟨false⟩)
      ↔ (w.PendingPayments.Count = 0
          ∧ (w.AddPendingPayment W W2 paymentID atomicDeroAmount).1.PendingPayments.Count = 1
          ∧ W2.IsDaemonOnline = true))
    ∧ (¬ (w.PendingPayments.Count = 0
          ∧ (w.AddPendingPayment W W2 paymentID atomicDeroAmount).1.PendingPayments.Count = 1
          ∧ W2.IsDaemonOnline = true) →
        (w.AddPendingPayment W W2 paymentID atomicDeroAmount).1.calls = w.calls
        ∧ (w.AddPendingPayment W W2 paymentID atomicDeroAmount).1.PendingPayments.Checker
            = w.PendingPayments.Checker)
    ∧ (0 < w.PendingPayments.Count →
        (w.AddPendingPayment W W2 paymentID atomicDeroAmount).1.calls = w.calls
        ∧ (w.AddPendingPayment W W2 paymentID atomicDeroAmount).1.PendingPayments.Checker
            = w.PendingPayments.Checker) := by
  have hcount := Set_count_of_new w.PendingPayments paymentID
    (NewPendingPayment W atomicDeroAmount) hnew
  have hlen : ∀ (l : List WalletCall) (a b c d : WalletCall), l ≠ l ++ [a, b, c, d] := by
    intro l a b c d h
    have := congrArg List.length h
    simp at this
  by_cases h1 : W.IsDaemonOnline = true
  · by_cases h0 : w.PendingPayments.Count = 0
    · by_cases h2 : W2.IsDaemonOnline = true
      · have hr : w.AddPendingPayment W W2 paymentID atomicDeroAmount
            = ({ calls := w.calls ++ [.SetInitialHeight W2.Get_Daemon_TopoHeight,
                    .SetOnlineMode, .StartChecker, .goCheckForPayments],
                 PendingPayments :=
                   (w.PendingPayments.Set paymentID
                     (NewPendingPayment W atomicDeroAmount)).StartChecker,
                 Webhook := w.Webhook }, none) := by
          unfold StoreWallet.AddPendingPayment StoreWallet.StartCheckingForPayments
          simp [h1, h2, hcount, h0]
        rw [hr]
        have hc1 : ((w.PendingPayments.Set paymentID
            (NewPendingPayment W atomicDeroAmount)).StartChecker).Count = 1 := by
          have : ((w.PendingPayments.Set paymentID
              (NewPendingPayment W atomicDeroAmount)).StartChecker).Count
              = (w.PendingPayments.Set paymentID
                  (NewPendingPayment W atomicDeroAmount)).Count := rfl
          rw [this, hcount, h0]
        refine ⟨⟨fun _ => ⟨h0, hc1, h2⟩, fun _ => ⟨rfl, rfl⟩⟩, ?_, ?_⟩
        · intro hn
          exact absurd ⟨h0, hc1, h2⟩ hn
        · intro hpos
          omega
      · have hr : w.AddPendingPayment W W2 paymentID atomicDeroAmount
            = ({ w with PendingPayments :=
                   w.PendingPayments.Set paymentID (NewPendingPayment W atomicDeroAmount) },
               some "cannot start checking for payments") := by
          unfold StoreWallet.AddPendingPayment StoreWallet.StartCheckingForPayments
          simp [h1, h2, hcount, h0]
        rw [hr]
        refine ⟨⟨fun h => absurd h.1 (hlen _ _ _ _ _), fun h => absurd h.2.2 h2⟩, ?_, ?_⟩
        · intro _
          exact ⟨rfl, rfl⟩
        · intro _
          exact ⟨rfl, rfl⟩
    · have hr : w.AddPendingPayment W W2 paymentID atomicDeroAmount
          = ({ w with PendingPayments :=
                 w.PendingPayments.Set paymentID (NewPendingPayment W atomicDeroAmount) },
             none) := by
        unfold StoreWallet.AddPendingPayment
        simp [h1, hcount, h0]
      rw [hr]
      refine ⟨⟨fun h => absurd h.1 (hlen _ _ _ _ _), fun h => absurd h.1 h0⟩, ?_, ?_⟩
      · intro _
        exact ⟨rfl, rfl⟩
      · intro _
        exact ⟨rfl, rfl⟩
  · have hr : w.AddPendingPayment W W2 paymentID atomicDeroAmount
        = (w, some "daemon offline") := by
      unfold StoreWallet.AddPendingPayment
      simp [h1]
    rw [hr]
    refine ⟨⟨fun h => absurd h.1 (hlen _ _ _ _ _), fun h => ?_⟩, ?_, ?_⟩
    · have ha : w.PendingPayments.Count = 0 := h.1
      have hb : w.PendingPayments.Count = 1 := h.2.1
      omega
    · intro _
      exact ⟨rfl, rfl⟩
    · intro _
      exact ⟨rfl, rfl⟩


theorem C9_witness :
    ((freshWallet noWebhook).AddPendingPayment (exampleWorld [] 100 100 0)
        (exampleWorld [] 100 100 0) "a1b2" 1000000000000).1.calls
        = [] ++ [.SetInitialHeight 100, .SetOnlineMode, .StartChecker, .goCheckForPayments]
      ∧ ((freshWallet noWebhook).AddPendingPayment (exampleWorld [] 100 100 0)
          (exampleWorld [] 100 100 0) "a1b2" 1000000000000).1.PendingPayments.Checker
          = some ⟨false⟩ :=
  (C9_poll_loop_started_on_first_payment (exampleWorld [] 100 100 0)
    (exampleWorld [] 100 100 0) (freshWallet noWebhook) "a1b2" 1000000000000
    (by decide)).1.mpr ⟨by decide, by decide, rfl⟩

/-- C10: at the end of an online tick of a worker (whose ticker exists), if
no payment is left pending after the sweep, the wallet is set offline, its
resources are cleaned, the ticker is stopped, and `CheckForPayments` returns
with the result of this tick, whatever ticks would follow; if a payment is
left pending, the tick ends in the state the sweep left, in which the only
calls made on the wallet are the deposit lookups and the ticker is the one
the worker had, and `CheckForPayments` goes on with the ticks that follow
from that state. -/
theorem C10_loop_stops_exactly_when_no_payment_is_left (cfg : Config) (W : World)
    (rest : List World) (w : StoreWallet) (db : List PaymentRow) (c : Ticker)
    (honline : W.IsDaemonOnline = true)
    (hchecker : w.PendingPayments.Checker = some c) :
    (sweep cfg W w db).wallet.calls
        = w.calls ++ w.PendingPayments.Map.map
            (fun kv => WalletCall.Get_Payments_Payment_ID (W.DecodeString kv.1))
    ∧ ((sweep cfg W w db).wallet.PendingPayments.Count = 0 →
        tick cfg W w db
          = ⟨{ calls := (sweep cfg W w db).wallet.calls
                          ++ [.SetOfflineMode, .Clean, .CheckerStop],
               PendingPayments := ⟨(sweep cfg W w db).wallet.PendingPayments.Map, some ⟨true⟩⟩,
               Webhook := (sweep cfg W w db).wallet.Webhook },
             (sweep cfg W w db).DB, (sweep cfg W w db).effects, .returned⟩
        ∧ w.CheckForPayments cfg (W :: rest) db = tick cfg W w db)
    ∧ ((sweep cfg W w db).wallet.PendingPayments.Count ≠ 0 →
        tick cfg W w db
          = ⟨(sweep cfg W w db).wallet, (sweep cfg W w db).DB,
             (sweep cfg W w db).effects, .next⟩
        ∧ (sweep cfg W w db).wallet.PendingPayments.Checker = some c
        ∧ w.CheckForPayments cfg (W :: rest) db
            = ⟨(tickLoop cfg rest (sweep cfg W w db).wallet (sweep cfg W w db).DB).wallet,
               (tickLoop cfg rest (sweep cfg W w db).wallet (sweep cfg W w db).DB).DB,
               (sweep cfg W w db).effects
                 ++ (tickLoop cfg rest (sweep cfg W w db).wallet
                      (sweep cfg W w db).DB).effects,
               (tickLoop cfg rest (sweep cfg W w db).wallet
                 (sweep cfg W w db).DB).status⟩) := by
  have hsc : (sweep cfg W w db).wallet.PendingPayments.Checker = some c := by
    rw [sweep_checker, hchecker]
  have hloop : w.CheckForPayments cfg (W :: rest) db = tickLoop cfg (W :: rest) w db := by
    unfold StoreWallet.CheckForPayments
    rw [hchecker]
  refine ⟨?_, ?_, ?_⟩
  · unfold sweep
    rw [foldl_checkPayment_calls]
  · intro h0
    have ht : tick cfg W w db
          = ⟨{ calls := (sweep cfg W w db).wallet.calls
                          ++ [.SetOfflineMode, .Clean, .CheckerStop],
               PendingPayments := ⟨(sweep cfg W w db).wallet.PendingPayments.Map, some ⟨true⟩⟩,
               Webhook := (sweep cfg W w db).wallet.Webhook },
             (sweep cfg W w db).DB, (sweep cfg W w db).effects, .returned⟩ := by
      unfold tick
      simp [honline, h0, StoreWallet.StopCheckingForPayments, hsc]
    refine ⟨ht, ?_⟩
    rw [hloop]
    unfold tickLoop
    simp [ht]
  · intro h0
    have ht : tick cfg W w db
          = ⟨(sweep cfg W w db).wallet, (sweep cfg W w db).DB,
             (sweep cfg W w db).effects, .next⟩ := by
      unfold tick
      simp [honline, h0]
    refine ⟨ht, hsc, ?_⟩
    rw [hloop]
    conv_lhs => unfold tickLoop
    simp [ht]


theorem C10_witness :
    ((exampleWallet exampleWebhook).CheckForPayments exampleConfig
        [exampleWorld [⟨1000000000000, 97⟩] 100 100 5, exampleWorld [] 101 101 6]
        pendingTable
      = tick exampleConfig (exampleWorld [⟨1000000000000, 97⟩] 100 100 5)
          (exampleWallet exampleWebhook) pendingTable)
    ∧ (tick exampleConfig (exampleWorld [] 100 100 5) (exampleWallet exampleWebhook)
          pendingTable
        = ⟨(sweep exampleConfig (exampleWorld [] 100 100 5) (exampleWallet exampleWebhook)
              pendingTable).wallet,
           (sweep exampleConfig (exampleWorld [] 100 100 5) (exampleWallet exampleWebhook)
              pendingTable).DB,
           (sweep exampleConfig (exampleWorld [] 100 100 5) (exampleWallet exampleWebhook)
              pendingTable).effects, .next⟩) :=
  ⟨((C10_loop_stops_exactly_when_no_payment_is_left exampleConfig
      (exampleWorld [⟨1000000000000, 97⟩] 100 100 5) [exampleWorld [] 101 101 6]
      (exampleWallet exampleWebhook) pendingTable ⟨false⟩ rfl rfl).2.1 (by decide)).2,
   ((C10_loop_stops_exactly_when_no_payment_is_left exampleConfig
      (exampleWorld [] 100 100 5) []
      (exampleWallet exampleWebhook) pendingTable ⟨false⟩ rfl rfl).2.2 (by decide)).1⟩

end DeroMerchant

/-! ## The pending payments of a wallet as a map -/

namespace DeroMerchant

theorem filter_ne_cons_self {α β : Type} [BEq α] [LawfulBEq α] (a : α) (v : β)
    (l : List (α × β)) :
    ((a, v) :: l).filter (fun e => e.1 != a) = l.filter (fun e => e.1 != a) := by
  simp [List.filter_cons]

theorem filter_ne_cons_other {α β : Type} [BEq α] [LawfulBEq α] (a k : α) (v : β)
    (l : List (α × β)) (hk : k ≠ a) :
    ((k, v) :: l).filter (fun e => e.1 != a) = (k, v) :: l.filter (fun e => e.1 != a) := by
  simp [List.filter_cons, hk]

theorem lookup_filter_ne {α β : Type} [BEq α] [LawfulBEq α] (a b : α) (hne : b ≠ a) :
    ∀ (l : List (α × β)), (l.filter (fun e => e.1 != a)).lookup b = l.lookup b := by
  intro l
  induction l with
  | nil => rfl
  | cons e l ih =>
      obtain ⟨k, v⟩ := e
      by_cases hk : k = a
      · subst hk
        have h2 : (b == k) = false := by simpa using hne
        rw [filter_ne_cons_self, ih, List.lookup_cons, h2]
      · rw [filter_ne_cons_other a k v l hk, List.lookup_cons, List.lookup_cons, ih]

theorem lookup_filter_self {α β : Type} [BEq α] [LawfulBEq α] (a : α) :
    ∀ (l : List (α × β)), (l.filter (fun e => e.1 != a)).lookup a = none := by
  intro l
  induction l with
  | nil => rfl
  | cons e l ih =>
      obtain ⟨k, v⟩ := e
      by_cases hk : k = a
      · subst hk
        rw [filter_ne_cons_self, ih]
      · have h2 : (a == k) = false := by simpa using fun h : a = k => hk h.symm
        rw [filter_ne_cons_other a k v l hk, List.lookup_cons, h2, ih]

theorem filter_ne_of_absent {β : Type} (a : String) :
    ∀ (l : List (String × β)), a ∉ l.map Prod.fst → l.filter (fun e => e.1 != a) = l := by
  intro l h
  rw [List.filter_eq_self]
  intro e he
  simp only [bne_iff_ne, ne_eq]
  intro hk
  apply h
  rw [← hk]
  exact List.mem_map.mpr ⟨e, he, rfl⟩

theorem length_filter_ne_of_present {β : Type} (a : String) :
    ∀ (l : List (String × β)), (l.map Prod.fst).Nodup → a ∈ l.map Prod.fst →
      (l.filter (fun e => e.1 != a)).length + 1 = l.length := by
  intro l
  induction l with
  | nil => intro _ h; simp at h
  | cons e l ih =>
      obtain ⟨k, v⟩ := e
      intro hnd hmem
      rw [List.map_cons, List.nodup_cons] at hnd
      by_cases hk : k = a
      · subst hk
        rw [filter_ne_cons_self, filter_ne_of_absent k l hnd.1]
        rfl
      · have hmem2 : a ∈ l.map Prod.fst := by
          rw [List.map_cons, List.mem_cons] at hmem
          rcases hmem with h | h
          · exact absurd h.symm hk
          · exact h
        rw [filter_ne_cons_other a k v l hk, List.length_cons, List.length_cons,
          ih hnd.2 hmem2]

end DeroMerchant

namespace DeroMerchant

theorem nodup_keys_filter {β : Type} (a : String) (l : List (String × β))
    (h : (l.map Prod.fst).Nodup) : ((l.filter (fun e => e.1 != a)).map Prod.fst).Nodup :=
  List.Nodup.sublist (List.Sublist.map Prod.fst (List.filter_sublist l)) h

theorem key_not_mem_filter {β : Type} (a : String) (l : List (String × β)) :
    a ∉ (l.filter (fun e => e.1 != a)).map Prod.fst := by
  intro h
  obtain ⟨e, he, hk⟩ := List.mem_map.mp h
  have := (List.mem_filter.mp he).2
  simp [hk] at this

/-- C19: for a pending set whose identifiers are distinct, `Count` is the
number of identifiers (and, being a function of the set, changes nothing);
`Set` of an absent identifier raises the count by one, maps the identifier
to the payment and leaves every other identifier as it was; `Delete` removes
the identifier and leaves every other identifier as it was, so the count is
one less when the identifier was present and the same when it was absent;
`Delete` after `Set` of an absent identifier gives back the set; and both
operations keep the identifiers distinct. -/
theorem C19_pending_set_is_a_finite_map (m : PendingPayments) (a b : String)
    (p : PendingPayment) (hkeys : (m.Map.map Prod.fst).Nodup) :
    m.Count = (m.Map.map Prod.fst).toFinset.card
      ∧ (a ∉ m.Map.map Prod.fst →
          (m.Set a p).Count = m.Count + 1
          ∧ (m.Set a p).Get a = some p
          ∧ (b ≠ a → (m.Set a p).Get b = m.Get b)
          ∧ (m.Set a p).Delete a = m)
      ∧ (m.Delete a).Get a = none
      ∧ (b ≠ a → (m.Delete a).Get b = m.Get b)
      ∧ (a ∈ m.Map.map Prod.fst → (m.Delete a).Count + 1 = m.Count)
      ∧ (a ∉ m.Map.map Prod.fst → (m.Delete a).Count = m.Count)
      ∧ (((m.Set a p).Map.map Prod.fst).Nodup ∧ ((m.Delete a).Map.map Prod.fst).Nodup) := by
  refine ⟨?_, ?_, ?_, ?_, ?_, ?_, ?_, ?_⟩
  · rw [List.toFinset_card_of_nodup hkeys, List.length_map]
    rfl
  · intro habs
    refine ⟨Set_count_of_new m a p habs, ?_, ?_, ?_⟩
    · simp [PendingPayments.Set, PendingPayments.Get, List.lookup_cons]
    · intro hne
      have h2 : (b == a) = false := by simpa using hne
      simp only [PendingPayments.Set, PendingPayments.Get, List.lookup_cons, h2]
      exact lookup_filter_ne a b hne m.Map
    · simp only [PendingPayments.Set, PendingPayments.Delete]
      rw [filter_ne_cons_self, filter_ne_of_absent a m.Map habs,
        filter_ne_of_absent a m.Map habs]
  · exact lookup_filter_self a m.Map
  · intro hne
    exact lookup_filter_ne a b hne m.Map
  · intro hmem
    exact length_filter_ne_of_present a m.Map hkeys hmem
  · intro habs
    simp only [PendingPayments.Delete, PendingPayments.Count]
    rw [filter_ne_of_absent a m.Map habs]
  · simp only [PendingPayments.Set, List.map_cons, List.nodup_cons]
    exact ⟨key_not_mem_filter a m.Map, nodup_keys_filter a m.Map hkeys⟩
  · exact nodup_keys_filter a m.Map hkeys

end DeroMerchant

namespace DeroMerchant

theorem C19_witness :
    ((exampleWallet noWebhook).PendingPayments.Set "c3d4" ⟨5, 1⟩).Count
        = (exampleWallet noWebhook).PendingPayments.Count + 1
      ∧ ((exampleWallet noWebhook).PendingPayments.Set "c3d4" ⟨5, 1⟩).Get "c3d4"
          = some ⟨5, 1⟩
      ∧ ("a1b2" ≠ "c3d4" →
          ((exampleWallet noWebhook).PendingPayments.Set "c3d4" ⟨5, 1⟩).Get "a1b2"
            = (exampleWallet noWebhook).PendingPayments.Get "a1b2")
      ∧ ((exampleWallet noWebhook).PendingPayments.Set "c3d4" ⟨5, 1⟩).Delete "c3d4"
          = (exampleWallet noWebhook).PendingPayments :=
  (C19_pending_set_is_a_finite_map (exampleWallet noWebhook).PendingPayments "c3d4" "a1b2"
    ⟨5, 1⟩ (by decide)).2.1 (by decide)

end DeroMerchant

/-! ## The claim on a tick with the daemon offline -/

namespace DeroMerchant

/-- C11: when the daemon-online check of a tick fails, the tick leaves the
wallet (its call log, so no deposit lookup and no stop of the ticker, its
pending set and its ticker), the payments table and the effects (no update,
no notification) as they were, and the worker goes on: `CheckForPayments` on
this tick followed by further ticks is `CheckForPayments` on the further
ticks. -/
theorem C11_offline_tick_is_skipped (cfg : Config) (W : World) (rest : List World)
    (w : StoreWallet) (db : List PaymentRow) (hoff : W.IsDaemonOnline = false) :
    tick cfg W w db = ⟨w, db, [], .next⟩
      ∧ w.CheckForPayments cfg (W :: rest) db = w.CheckForPayments cfg rest db := by
  have ht : tick cfg W w db = ⟨w, db, [], .next⟩ := by
    unfold tick
    simp [hoff]
  refine ⟨ht, ?_⟩
  unfold StoreWallet.CheckForPayments
  cases w.PendingPayments.Checker with
  | none => rfl
  | some c =>
      simp only []
      conv_lhs => unfold tickLoop
      simp [ht]

theorem C11_witness :
    tick exampleConfig offlineWorld (exampleWallet exampleWebhook) pendingTable
        = ⟨exampleWallet exampleWebhook, pendingTable, [], .next⟩
      ∧ (exampleWallet exampleWebhook).CheckForPayments exampleConfig
          (offlineWorld :: [exampleWorld [⟨1000000000000, 97⟩] 100 100 5]) pendingTable
          = (exampleWallet exampleWebhook).CheckForPayments exampleConfig
              [exampleWorld [⟨1000000000000, 97⟩] 100 100 5] pendingTable :=
  C11_offline_tick_is_skipped exampleConfig offlineWorld
    [exampleWorld [⟨1000000000000, 97⟩] 100 100 5] (exampleWallet exampleWebhook)
    pendingTable rfl

end DeroMerchant

/-! ## Lemmas on the reconciliation -/

namespace DeroMerchant

theorem stop_webhook (w : StoreWallet) :
    w.StopCheckingForPayments.1.Webhook = w.Webhook := by
  unfold StoreWallet.StopCheckingForPayments
  cases w.PendingPayments.Checker <;> rfl

theorem stop_of_ticker (w : StoreWallet) (c : Ticker)
    (h : w.PendingPayments.Checker = some c) :
    w.StopCheckingForPayments
      = ({ calls := w.calls ++ [.SetOfflineMode, .Clean, .CheckerStop],
           PendingPayments := ⟨w.PendingPayments.Map, some ⟨true⟩⟩,
           Webhook := w.Webhook }, true) := by
  unfold StoreWallet.StopCheckingForPayments
  rw [h]
  simp

theorem stop_of_nil (w : StoreWallet) (h : w.PendingPayments.Checker = none) :
    w.StopCheckingForPayments
      = ({ w with calls := w.calls ++ [.SetOfflineMode, .Clean] }, false) := by
  unfold StoreWallet.StopCheckingForPayments
  rw [h]

theorem cleanWallet_map (w : StoreWallet) :
    (cleanWallet w).1.PendingPayments.Map = w.PendingPayments.Map
      ∧ (cleanWallet w).1.Webhook = w.Webhook := by
  unfold cleanWallet
  split
  · have hm := stop_map w
    have hw := stop_webhook w
    split
    · rename_i heq
      rw [heq] at hm hw
      exact ⟨hm, hw⟩
    · rename_i heq
      rw [heq] at hm hw
      exact ⟨hm, hw⟩
  · exact ⟨rfl, rfl⟩

theorem cleanWallet_of_hasTicker (w : StoreWallet) (h : hasTicker w) :
    cleanWallet w = (stoppedWallet w, cleanNotifications w, true) := by
  unfold cleanWallet stoppedWallet cleanNotifications
  by_cases hc : w.PendingPayments.Count > 0
  · obtain ⟨c, hsome⟩ := Option.ne_none_iff_exists'.mp (h hc)
    rw [stop_of_ticker w c hsome]
    simp only [hc, if_true]
  · simp [hc]

theorem cleanWallet_of_not_hasTicker (w : StoreWallet) (h : ¬ hasTicker w) :
    cleanWallet w
      = ({ w with calls := w.calls ++ [.SetOfflineMode, .Clean] }, [], false) := by
  unfold hasTicker at h
  have hc : w.PendingPayments.Count > 0 := by
    by_contra hn
    exact h (fun hp => absurd hp hn)
  have hnil : w.PendingPayments.Checker = none := by
    by_contra hn
    exact h (fun _ => hn)
  unfold cleanWallet
  rw [stop_of_nil w hnil]
  simp [hc]

theorem cleanWallets_of_hasTicker :
    ∀ (ws : List (Int × StoreWallet)), (∀ e ∈ ws, hasTicker e.2) →
      cleanWallets ws
        = (ws.map (fun e => (e.1, stoppedWallet e.2)),
           (ws.map (fun e => cleanNotifications e.2)).flatten, true) := by
  intro ws
  induction ws with
  | nil => intro _; rfl
  | cons a ws ih =>
      obtain ⟨storeID, w⟩ := a
      intro h
      have hw : hasTicker w := h (storeID, w) (List.mem_cons_self _ _)
      have hrest := ih (fun e he => h e (List.mem_cons_of_mem _ he))
      unfold cleanWallets
      rw [cleanWallet_of_hasTicker w hw, hrest]
      simp

theorem hasTicker_of_cleanWallets_ok :
    ∀ (ws : List (Int × StoreWallet)), (cleanWallets ws).2.2 = true →
      ∀ e ∈ ws, hasTicker e.2 := by
  intro ws
  induction ws with
  | nil => intro _ e he; simp at he
  | cons a ws ih =>
      obtain ⟨storeID, w⟩ := a
      intro hok
      by_cases hw : hasTicker w
      · have hrest : (cleanWallets ws).2.2 = true := by
          unfold cleanWallets at hok
          rw [cleanWallet_of_hasTicker w hw] at hok
          simpa using hok
        intro e he
        rcases List.mem_cons.mp he with h | h
        · rw [h]; exact hw
        · exact ih hrest e h
      · unfold cleanWallets at hok
        rw [cleanWallet_of_not_hasTicker w hw] at hok
        simp at hok

theorem stoppedWallet_map (w : StoreWallet) :
    (stoppedWallet w).PendingPayments.Map = w.PendingPayments.Map
      ∧ (stoppedWallet w).Webhook = w.Webhook := by
  unfold stoppedWallet
  split
  · exact ⟨stop_map w, stop_webhook w⟩
  · exact ⟨rfl, rfl⟩

theorem cleanNotifications_stoppedWallet (w : StoreWallet) :
    cleanNotifications (stoppedWallet w) = cleanNotifications w := by
  have h := stoppedWallet_map w
  unfold cleanNotifications PendingPayments.Count
  rw [h.1, h.2]

theorem hasTicker_stoppedWallet (w : StoreWallet) (h : hasTicker w) :
    hasTicker (stoppedWallet w) := by
  intro hc
  have hm := (stoppedWallet_map w).1
  have hc2 : w.PendingPayments.Count > 0 := by
    unfold PendingPayments.Count at hc ⊢
    rw [hm] at hc
    exact hc
  obtain ⟨c, hsome⟩ := Option.ne_none_iff_exists'.mp (h hc2)
  unfold stoppedWallet
  rw [if_pos hc2, stop_of_ticker w c hsome]
  simp

theorem walletView_stopped_twice (storeID : Int) (w : StoreWallet) (h : hasTicker w) :
    walletView (storeID, stoppedWallet (stoppedWallet w))
      = walletView (storeID, stoppedWallet w) := by
  by_cases hc : w.PendingPayments.Count > 0
  · obtain ⟨c, hsome⟩ := Option.ne_none_iff_exists'.mp (h hc)
    have h1 : stoppedWallet w
        = { calls := w.calls ++ [.SetOfflineMode, .Clean, .CheckerStop],
            PendingPayments := ⟨w.PendingPayments.Map, some ⟨true⟩⟩,
            Webhook := w.Webhook } := by
      unfold stoppedWallet
      rw [if_pos hc, stop_of_ticker w c hsome]
    rw [h1]
    have hc2 : (StoreWallet.mk (w.calls ++ [.SetOfflineMode, .Clean, .CheckerStop])
        ⟨w.PendingPayments.Map, some ⟨true⟩⟩ w.Webhook).PendingPayments.Count > 0 := hc
    unfold stoppedWallet
    rw [if_pos hc2, stop_of_ticker _ ⟨true⟩ rfl]
    rfl
  · have h1 : stoppedWallet w = w := by
      unfold stoppedWallet
      rw [if_neg hc]
    rw [h1, h1]

end DeroMerchant

namespace DeroMerchant

theorem cleanWallets_maps :
    ∀ (ws : List (Int × StoreWallet)),
      (cleanWallets ws).1.map (fun e => (e.1, e.2.PendingPayments.Map, e.2.Webhook))
        = ws.map (fun e => (e.1, e.2.PendingPayments.Map, e.2.Webhook)) := by
  intro ws
  induction ws with
  | nil => rfl
  | cons a ws ih =>
      obtain ⟨storeID, w⟩ := a
      have hm := cleanWallet_map w
      unfold cleanWallets
      rcases hc : cleanWallet w with ⟨w1, es, ok⟩
      rw [hc] at hm
      have hm1 : w1.PendingPayments.Map = w.PendingPayments.Map := hm.1
      have hm2 : w1.Webhook = w.Webhook := hm.2
      cases ok with
      | false => simp [hm1, hm2]
      | true =>
          rcases hr : cleanWallets ws with ⟨rest1, es1, ok1⟩
          rw [hr] at ih
          simp only [List.map_cons, hm1, hm2]
          rw [ih]

theorem CleanAllPendingPayments_wallets (W : World) (ws : List (Int × StoreWallet))
    (db : List PaymentRow) :
    (CleanAllPendingPayments W ws db).wallets = (cleanWallets ws).1 := by
  unfold CleanAllPendingPayments
  split
  · rename_i heq; rw [heq]
  · rename_i heq
    rw [heq]
    split <;> rfl

theorem CleanAllPendingPayments_of_hasTicker (W : World) (ws : List (Int × StoreWallet))
    (db : List PaymentRow) (h : ∀ e ∈ ws, hasTicker e.2) :
    CleanAllPendingPayments W ws db
      = ⟨ws.map (fun e => (e.1, stoppedWallet e.2)),
         if W.ExecFails none then db
         else (Query.setStatusOfAll PaymentStatusError PaymentStatusPending).run db,
         (ws.map (fun e => cleanNotifications e.2)).flatten
           ++ [.exec (.setStatusOfAll PaymentStatusError PaymentStatusPending)],
         if W.ExecFails none then some "cannot execute query" else none,
         false⟩ := by
  unfold CleanAllPendingPayments
  rw [cleanWallets_of_hasTicker ws h]
  by_cases hf : W.ExecFails none = true
  · simp [hf]
  · simp [hf]

theorem hasTicker_of_returned (W : World) (ws : List (Int × StoreWallet))
    (db : List PaymentRow) (h : (CleanAllPendingPayments W ws db).panicked = false) :
    ∀ e ∈ ws, hasTicker e.2 := by
  apply hasTicker_of_cleanWallets_ok
  unfold CleanAllPendingPayments at h
  rcases hc : cleanWallets ws with ⟨ws1, es, ok⟩
  rw [hc] at h
  cases ok with
  | true => rfl
  | false => simp at h

/-- C12, as the code has it: after a call that returns nil, the wallet of
store 7 still holds its pending payment. -/
theorem C12_counterexample :
    (CleanAllPendingPayments (exampleWorld [] 100 100 0) [(7, exampleWallet exampleWebhook)]
        pendingTable).panicked = false
      ∧ (CleanAllPendingPayments (exampleWorld [] 100 100 0)
          [(7, exampleWallet exampleWebhook)] pendingTable).err = none
      ∧ (CleanAllPendingPayments (exampleWorld [] 100 100 0)
          [(7, exampleWallet exampleWebhook)] pendingTable).wallets.map
            (fun e => (e.1, e.2.PendingPayments.Count)) = [(7, 1)] := by
  decide

/-- C12, amended: `CleanAllPendingPayments` removes no payment from memory:
after the call every store of the registry has the wallet with the pending
map and the webhook it had before the call. -/
theorem C12_reconciliation_keeps_pending_sets (W : World)
    (ActiveWallets : List (Int × StoreWallet)) (db : List PaymentRow) :
    (CleanAllPendingPayments W ActiveWallets db).wallets.map
        (fun e => (e.1, e.2.PendingPayments.Map, e.2.Webhook))
      = ActiveWallets.map (fun e => (e.1, e.2.PendingPayments.Map, e.2.Webhook)) := by
  rw [CleanAllPendingPayments_wallets]
  exact cleanWallets_maps ActiveWallets

/-- C13, on a registry whose wallet has a pending payment and no ticker (the
wallet `AddPendingPayment` leaves when `StartCheckingForPayments` fails):
`CleanAllPendingPayments` sets the wallet offline, cleans it and panics on
the nil ticker, having sent no notification for the pending payment. -/
theorem C13_nil_ticker_panics :
    strandedWallet = ⟨[], ⟨[("c3d4", ⟨1000000000000, 0⟩)], none⟩, exampleWebhook⟩
      ∧ CleanAllPendingPayments (exampleWorld [] 100 100 0) [(7, strandedWallet)]
          twoPendingTable
        = ⟨[(7, ⟨[.SetOfflineMode, .Clean], ⟨[("c3d4", ⟨1000000000000, 0⟩)], none⟩,
                exampleWebhook⟩)],
           twoPendingTable, [], none, true⟩ := by
  decide

/-- C14, on a registry whose first wallet has a pending payment and no
ticker: `CleanAllPendingPayments` panics in the loop over the wallets; it
executes no update, the table keeps its pending rows, and the wallet of
store 8 is not visited. -/
theorem C14_no_update_after_nil_ticker :
    (CleanAllPendingPayments (exampleWorld [] 100 100 0)
        [(7, strandedWallet), (8, exampleWallet exampleWebhook)] twoPendingTable).panicked
        = true
      ∧ (CleanAllPendingPayments (exampleWorld [] 100 100 0)
          [(7, strandedWallet), (8, exampleWallet exampleWebhook)] twoPendingTable).effects
          = []
      ∧ (CleanAllPendingPayments (exampleWorld [] 100 100 0)
          [(7, strandedWallet), (8, exampleWallet exampleWebhook)] twoPendingTable).DB
          = twoPendingTable := by
  decide

end DeroMerchant

namespace DeroMerchant

theorem run_setStatusOfAll_idem (t : List PaymentRow) :
    (Query.setStatusOfAll PaymentStatusError PaymentStatusPending).run
        ((Query.setStatusOfAll PaymentStatusError PaymentStatusPending).run t)
      = (Query.setStatusOfAll PaymentStatusError PaymentStatusPending).run t := by
  unfold Query.run
  rw [List.map_map]
  apply List.map_congr_left
  intro r _
  by_cases h : r.status = PaymentStatusPending
  · have hne : ¬ (PaymentStatusError = PaymentStatusPending) := by decide
    simp [Query.selects, Query.newStatus, h, hne]
  · simp [Query.selects, Query.newStatus, h]

theorem run_setStatusOfAll_getElem (t : List PaymentRow) (i : Nat) :
    ((Query.setStatusOfAll PaymentStatusError PaymentStatusPending).run t)[i]?
      = (t[i]?).map (fun r =>
          if r.status = PaymentStatusPending then { r with status := PaymentStatusError }
          else r) := by
  unfold Query.run
  rw [List.getElem?_map]
  congr 1
  funext r
  simp [Query.selects, Query.newStatus]

theorem run_setStatusOfAll_no_pending (t : List PaymentRow) :
    ∀ r ∈ (Query.setStatusOfAll PaymentStatusError PaymentStatusPending).run t,
      r.status ≠ PaymentStatusPending := by
  intro r hr
  unfold Query.run at hr
  obtain ⟨r0, _, rfl⟩ := List.mem_map.mp hr
  by_cases h : r0.status = PaymentStatusPending
  · simp only [Query.selects, Query.newStatus, h, beq_self_eq_true, if_true]
    decide
  · simp [Query.selects, Query.newStatus, h]

/-- Stopping a second time a wallet that was stopped only adds the three
calls to its log. -/
theorem stoppedWallet_twice (w : StoreWallet) (h : hasTicker w) :
    stoppedWallet (stoppedWallet w)
      = if (stoppedWallet w).PendingPayments.Count > 0 then
          { stoppedWallet w with
              calls := (stoppedWallet w).calls ++ [.SetOfflineMode, .Clean, .CheckerStop] }
        else stoppedWallet w := by
  by_cases hc : w.PendingPayments.Count > 0
  · obtain ⟨c, hsome⟩ := Option.ne_none_iff_exists'.mp (h hc)
    have hs : stoppedWallet w
        = { calls := w.calls ++ [.SetOfflineMode, .Clean, .CheckerStop],
            PendingPayments := ⟨w.PendingPayments.Map, some ⟨true⟩⟩,
            Webhook := w.Webhook } := by
      unfold stoppedWallet
      rw [if_pos hc, stop_of_ticker w c hsome]
    rw [hs]
    have hc2 : (StoreWallet.mk (w.calls ++ [.SetOfflineMode, .Clean, .CheckerStop])
        ⟨w.PendingPayments.Map, some ⟨true⟩⟩ w.Webhook).PendingPayments.Count > 0 := hc
    rw [if_pos hc2]
    unfold stoppedWallet
    rw [if_pos hc2, stop_of_ticker _ ⟨true⟩ rfl]
  · have hs : stoppedWallet w = w := by
      unfold stoppedWallet
      rw [if_neg hc]
    rw [hs, if_neg hc, hs]

theorem SendStatusUpdate_of_absent (c : ConnectionsToPayment) (p s : String)
    (h : c.Map.lookup p = none) : c.SendStatusUpdate p s = (c, []) := by
  have hf : c.Map.filter (fun e => e.1 != p) = c.Map := by
    rw [List.filter_eq_self]
    intro e he
    simp only [bne_iff_ne, ne_eq]
    intro hk
    have hl : ∀ (l : List (String × List Nat)), e ∈ l → l.lookup p ≠ none := by
      intro l
      induction l with
      | nil => intro hin; cases hin
      | cons a l ih =>
        intro hin
        obtain ⟨k, v⟩ := a
        by_cases hkp : p = k
        · subst hkp
          simp [List.lookup]
        · have hb : (p == k) = false := by simpa using hkp
          simp only [List.lookup, hb]
          rcases List.mem_cons.mp hin with h1 | h1
          · rw [h1] at hk
            exact absurd hk.symm hkp
          · exact ih h1
    exact hl c.Map he h
  unfold ConnectionsToPayment.SendStatusUpdate
  simp [h, hf]

theorem SendStatusUpdate_lookup (c : ConnectionsToPayment) (p q s : String)
    (h : c.Map.lookup p = none ∨ p = q) :
    (c.SendStatusUpdate q s).1.Map.lookup p = none := by
  by_cases hpq : p = q
  · rw [hpq]
    exact lookup_filter_self q c.Map
  · rcases h with h | h
    · have := lookup_filter_ne q p hpq c.Map
      unfold ConnectionsToPayment.SendStatusUpdate
      simp only
      rw [this]
      exact h
    · exact absurd h hpq

theorem runStatusUpdates_keeps_none :
    ∀ (es : List Effect) (c : ConnectionsToPayment) (p : String),
      c.Map.lookup p = none → (runStatusUpdates c es).1.Map.lookup p = none := by
  intro es
  induction es with
  | nil => intro c p h; exact h
  | cons ef es ih =>
    intro c p h
    cases ef with
    | SendStatusUpdate q s =>
      simp only [runStatusUpdates]
      exact ih _ p (SendStatusUpdate_lookup c p q s (Or.inl h))
    | exec q => simp only [runStatusUpdates]; exact ih c p h
    | goSendPaymentUpdateEvent wh q s => simp only [runStatusUpdates]; exact ih c p h
    | goSendStatusUpdate q s => simp only [runStatusUpdates]; exact ih c p h
    | SendPaymentUpdateEvent wh q s => simp only [runStatusUpdates]; exact ih c p h

/-- After the status updates have run, no connection is registered under a
payment one of them was about. -/
theorem runStatusUpdates_lookup :
    ∀ (es : List Effect) (c : ConnectionsToPayment) (p s : String),
      Effect.SendStatusUpdate p s ∈ es → (runStatusUpdates c es).1.Map.lookup p = none := by
  intro es
  induction es with
  | nil => intro c p s h; cases h
  | cons ef es ih =>
    intro c p s h
    rcases List.mem_cons.mp h with h1 | h1
    · rw [← h1]
      simp only [runStatusUpdates]
      exact runStatusUpdates_keeps_none es _ p (SendStatusUpdate_lookup c p p s (Or.inr rfl))
    · cases ef with
      | SendStatusUpdate q s2 => simp only [runStatusUpdates]; exact ih _ p s h1
      | exec q => simp only [runStatusUpdates]; exact ih c p s h1
      | goSendPaymentUpdateEvent wh q s2 => simp only [runStatusUpdates]; exact ih c p s h1
      | goSendStatusUpdate q s2 => simp only [runStatusUpdates]; exact ih c p s h1
      | SendPaymentUpdateEvent wh q s2 => simp only [runStatusUpdates]; exact ih c p s h1

/-- Status updates about payments under which no connection is registered
make no call on any connection and leave the table as it was. -/
theorem runStatusUpdates_silent :
    ∀ (es : List Effect) (c : ConnectionsToPayment),
      (∀ p s, Effect.SendStatusUpdate p s ∈ es → c.Map.lookup p = none) →
      runStatusUpdates c es = (c, []) := by
  intro es
  induction es with
  | nil => intro c _; rfl
  | cons ef es ih =>
    intro c h
    have hrest : ∀ p s, Effect.SendStatusUpdate p s ∈ es → c.Map.lookup p = none :=
      fun p s hin => h p s (List.mem_cons_of_mem _ hin)
    cases ef with
    | SendStatusUpdate q s =>
      have h0 := SendStatusUpdate_of_absent c q s (h q s (List.mem_cons_self _ _))
      simp only [runStatusUpdates, h0, ih c hrest, List.append_nil]
    | exec q => simp only [runStatusUpdates]; exact ih c hrest
    | goSendPaymentUpdateEvent wh q s => simp only [runStatusUpdates]; exact ih c hrest
    | goSendStatusUpdate q s => simp only [runStatusUpdates]; exact ih c hrest
    | SendPaymentUpdateEvent wh q s => simp only [runStatusUpdates]; exact ih c hrest

end DeroMerchant

namespace DeroMerchant

end DeroMerchant

/-! ## The claims on the registry of store wallets -/

namespace DeroMerchant

/-- C16: for a store ID the registry maps to a wallet,
`GetWalletFromStoreID` returns that wallet and a nil error, makes no call on
the database, the random source or the wallet library, and returns the
registry as it was; a second call returns the same wallet; and
`HasWalletFromStoreID` is true for the store before and after. -/
theorem C16_present_store_is_returned (SW SW2 : StoreWorld) (reg : StoresWallets)
    (storeID : Int) (storeWallet : StoreWallet)
    (hpresent : reg.Map.lookup storeID = some storeWallet) :
    reg.GetWalletFromStoreID SW storeID = ⟨reg, some storeWallet, none, []⟩
      ∧ (reg.GetWalletFromStoreID SW storeID).registry.GetWalletFromStoreID SW2 storeID
          = ⟨reg, some storeWallet, none, []⟩
      ∧ reg.HasWalletFromStoreID storeID = true
      ∧ (reg.GetWalletFromStoreID SW storeID).registry.HasWalletFromStoreID storeID
          = true := by
  have hhas : reg.HasWalletFromStoreID storeID = true := by
    unfold StoresWallets.HasWalletFromStoreID
    rw [hpresent]
    rfl
  have hget : ∀ S : StoreWorld,
      reg.GetWalletFromStoreID S storeID = ⟨reg, some storeWallet, none, []⟩ := by
    intro S
    unfold StoresWallets.GetWalletFromStoreID
    simp [hhas, hpresent]
  refine ⟨hget SW, ?_, hhas, ?_⟩
  · rw [hget SW]
    exact hget SW2
  · rw [hget SW]
    exact hhas

theorem C16_witness :
    (StoresWallets.mk [(7, exampleWallet exampleWebhook)]).GetWalletFromStoreID
        brokenStoreWorld 7
      = ⟨⟨[(7, exampleWallet exampleWebhook)]⟩, some (exampleWallet exampleWebhook),
         none, []⟩ :=
  (C16_present_store_is_returned brokenStoreWorld brokenStoreWorld
    ⟨[(7, exampleWallet exampleWebhook)]⟩ 7 (exampleWallet exampleWebhook) (by decide)).1

/-- C17: for a store ID the registry does not map to a wallet: when the
store has no record, or the random password or the wallet cannot be made,
`GetWalletFromStoreID` returns a nil wallet and an error and the registry as
it was, in which `HasWalletFromStoreID` is still false; otherwise it returns
a wallet with no pending payment and the webhook URL and secret read from
the store, with a nil error, and the registry maps the store ID to that
wallet and every other store ID to what it was mapped to. -/
theorem C17_absent_store_is_created_or_refused (SW : StoreWorld) (reg : StoresWallets)
    (storeID other : Int) (habsent : reg.Map.lookup storeID = none) :
    (SW.QueryStore storeID = none →
        (reg.GetWalletFromStoreID SW storeID).wallet = none
        ∧ (reg.GetWalletFromStoreID SW storeID).err ≠ none
        ∧ (reg.GetWalletFromStoreID SW storeID).registry = reg
        ∧ (reg.GetWalletFromStoreID SW storeID).registry.HasWalletFromStoreID storeID
            = false)
    ∧ (∀ viewKey url secretKey,
        SW.QueryStore storeID = some (viewKey, url, secretKey) →
        (SW.RandomHexString = none
          ∨ ∃ password, SW.RandomHexString = some password
              ∧ SW.Create_Encrypted_Wallet_ViewOnly
                  (SW.WalletsPath ++ "store_" ++ toString storeID ++ ".wallet")
                  password viewKey = false) →
        (reg.GetWalletFromStoreID SW storeID).wallet = none
        ∧ (reg.GetWalletFromStoreID SW storeID).err ≠ none
        ∧ (reg.GetWalletFromStoreID SW storeID).registry = reg
        ∧ (reg.GetWalletFromStoreID SW storeID).registry.HasWalletFromStoreID storeID
            = false)
    ∧ (∀ viewKey url secretKey password,
        SW.QueryStore storeID = some (viewKey, url, secretKey) →
        SW.RandomHexString = some password →
        SW.Create_Encrypted_Wallet_ViewOnly
            (SW.WalletsPath ++ "store_" ++ toString storeID ++ ".wallet")
            password viewKey = true →
        (reg.GetWalletFromStoreID SW storeID).wallet
            = some { calls := [], PendingPayments := NewPendingPayments,
                     Webhook := ⟨url, secretKey⟩ }
        ∧ NewPendingPayments.Count = 0
        ∧ (reg.GetWalletFromStoreID SW storeID).err = none
        ∧ (reg.GetWalletFromStoreID SW storeID).registry.Map.lookup storeID
            = (reg.GetWalletFromStoreID SW storeID).wallet
        ∧ (other ≠ storeID →
            (reg.GetWalletFromStoreID SW storeID).registry.Map.lookup other
              = reg.Map.lookup other)) := by
  have hhas : reg.HasWalletFromStoreID storeID = false := by
    unfold StoresWallets.HasWalletFromStoreID
    rw [habsent]
    rfl
  refine ⟨?_, ?_, ?_⟩
  · intro hq
    have hr : reg.GetWalletFromStoreID SW storeID
        = ⟨reg, none, some "cannot create wallet from store ID", [.QueryRow storeID]⟩ := by
      unfold StoresWallets.GetWalletFromStoreID StoresWallets.CreateWalletFromStoreID
      simp [hhas, hq]
    rw [hr]
    exact ⟨rfl, by simp, rfl, hhas⟩
  · intro viewKey url secretKey hq hfail
    have hr : (reg.GetWalletFromStoreID SW storeID).wallet = none
        ∧ (reg.GetWalletFromStoreID SW storeID).err
            = some "cannot create wallet from store ID"
        ∧ (reg.GetWalletFromStoreID SW storeID).registry = reg := by
      unfold StoresWallets.GetWalletFromStoreID StoresWallets.CreateWalletFromStoreID
        NewStoreWallet
      rcases hfail with hnone | ⟨password, hpw, hcreate⟩
      · simp [hhas, hq, hnone]
      · simp [hhas, hq, hpw, hcreate]
    refine ⟨hr.1, ?_, hr.2.2, ?_⟩
    · rw [hr.2.1]; simp
    · rw [hr.2.2]; exact hhas
  · intro viewKey url secretKey password hq hpw hcreate
    have hr : reg.GetWalletFromStoreID SW storeID
        = ⟨⟨(storeID, { calls := [], PendingPayments := NewPendingPayments,
                        Webhook := ⟨url, secretKey⟩ })
              :: reg.Map.filter (fun e => e.1 != storeID)⟩,
           some { calls := [], PendingPayments := NewPendingPayments,
                  Webhook := ⟨url, secretKey⟩ },
           none,
           [.QueryRow storeID, .RandomHexString 32,
            .Create_Encrypted_Wallet_ViewOnly
              (SW.WalletsPath ++ "store_" ++ toString storeID ++ ".wallet") password viewKey,
            .SetDaemonAddress SW.DeroDaemonAddress]⟩ := by
      unfold StoresWallets.GetWalletFromStoreID StoresWallets.CreateWalletFromStoreID
        NewStoreWallet
      simp [hhas, hq, hpw, hcreate, List.lookup_cons]
    rw [hr]
    refine ⟨rfl, rfl, rfl, ?_, ?_⟩
    · simp [List.lookup_cons]
    · intro hne
      have h2 : (other == storeID) = false := by simpa using hne
      simp only [List.lookup_cons, h2]
      exact lookup_filter_ne storeID other hne reg.Map

theorem C17_witness :
    ((NewStoresWallets.GetWalletFromStoreID brokenStoreWorld 7).wallet = none
      ∧ (NewStoresWallets.GetWalletFromStoreID brokenStoreWorld 7).err ≠ none
      ∧ (NewStoresWallets.GetWalletFromStoreID brokenStoreWorld 7).registry
          = NewStoresWallets
      ∧ (NewStoresWallets.GetWalletFromStoreID brokenStoreWorld 7).registry.HasWalletFromStoreID
          7 = false)
    ∧ (NewStoresWallets.GetWalletFromStoreID (exampleStoreWorld "ab") 7).wallet
        = some { calls := [], PendingPayments := NewPendingPayments,
                 Webhook := ⟨"https://shop.example/hook", "00ff"⟩ } :=
  ⟨(C17_absent_store_is_created_or_refused brokenStoreWorld NewStoresWallets 7 8
      (by decide)).2.1 "c53d" "https://shop.example/hook" "00ff" (by decide)
      (Or.inr ⟨"ab", by decide, by decide⟩),
   ((C17_absent_store_is_created_or_refused (exampleStoreWorld "ab") NewStoresWallets 7 8
      (by decide)).2.2 "c53d" "https://shop.example/hook" "00ff" "ab" (by decide)
      (by decide) (by decide)).1⟩

/-- C18, on two callers that both find store 7 absent before either creates
its wallet.  When the wallet library builds both wallets: both callers read
the store, both build a wallet from the same file name and both insert it,
the second insertion replacing the first, and each caller is handed the
wallet it built.  When the wallet library refuses the second wallet: the
first caller is handed a wallet and the second a nil wallet and an error. -/
theorem C18_two_callers_build_two_wallets :
    (racingGetWalletFromStoreID (exampleStoreWorld "ab") (exampleStoreWorld "cd")
        NewStoresWallets 7).1.calls
        = [.QueryRow 7, .RandomHexString 32,
           .Create_Encrypted_Wallet_ViewOnly "wallets/store_7.wallet" "ab" "c53d",
           .SetDaemonAddress "127.0.0.1:30306"]
      ∧ (racingGetWalletFromStoreID (exampleStoreWorld "ab") (exampleStoreWorld "cd")
          NewStoresWallets 7).2.calls
          = [.QueryRow 7, .RandomHexString 32,
             .Create_Encrypted_Wallet_ViewOnly "wallets/store_7.wallet" "cd" "c53d",
             .SetDaemonAddress "127.0.0.1:30306"]
      ∧ (racingGetWalletFromStoreID (exampleStoreWorld "ab") (exampleStoreWorld "cd")
          NewStoresWallets 7).1.err = none
      ∧ (racingGetWalletFromStoreID (exampleStoreWorld "ab") (exampleStoreWorld "cd")
          NewStoresWallets 7).2.err = none
      ∧ (racingGetWalletFromStoreID (exampleStoreWorld "ab") (exampleStoreWorld "cd")
          NewStoresWallets 7).2.registry.Map.length = 1
      ∧ (racingGetWalletFromStoreID (exampleStoreWorld "ab") brokenStoreWorld
          NewStoresWallets 7).1.wallet
          = some { calls := [], PendingPayments := NewPendingPayments,
                   Webhook := ⟨"https://shop.example/hook", "00ff"⟩ }
      ∧ (racingGetWalletFromStoreID (exampleStoreWorld "ab") brokenStoreWorld
          NewStoresWallets 7).2.wallet = none
      ∧ (racingGetWalletFromStoreID (exampleStoreWorld "ab") brokenStoreWorld
          NewStoresWallets 7).2.err = some "cannot create wallet from store ID" := by
  decide

end DeroMerchant

/-! ## The claim on the signed webhook event -/

namespace DeroMerchant

theorem hexValue_hexDigit : ∀ n, n < 16 → hexValue (hexDigit n) = some n := by
  decide

theorem hexDecode_hexEncode :
    ∀ (bs : List Nat), (∀ b ∈ bs, b < 256) →
      hexDecodeString (hexEncodeToString bs) = some bs := by
  intro bs
  unfold hexDecodeString hexEncodeToString
  simp only []
  induction bs with
  | nil => intro _; rfl
  | cons b bs ih =>
      intro h
      have hb : b < 256 := h b (List.mem_cons_self _ _)
      have h1 : hexValue (hexDigit (b / 16)) = some (b / 16) :=
        hexValue_hexDigit _ (by omega)
      have h2 : hexValue (hexDigit (b % 16)) = some (b % 16) :=
        hexValue_hexDigit _ (by omega)
      have hrest := ih (fun x hx => h x (List.mem_cons_of_mem _ hx))
      simp only [List.map_cons, List.flatten_cons, List.cons_append, List.nil_append,
        hexDecodeChars, h1, h2, hrest, Option.map_some']
      have hb2 : b / 16 * 16 + b % 16 = b := by omega
      rw [hb2]
      have hnil : ([] : List Char).append
          (List.map (fun b => [hexDigit (b / 16), hexDigit (b % 16)]) bs).flatten
          = (List.map (fun b => [hexDigit (b / 16), hexDigit (b % 16)]) bs).flatten := rfl
      rw [hnil, hrest]
      rfl

end DeroMerchant

namespace DeroMerchant

/-- C20, as the code has it.  First: for a webhook whose secret key is valid
hex and whose URL `http.NewRequest` refuses, the function returns an error
and hands no request to the client.  Second: for an empty payment id the
body has no field `paymentID`. -/
theorem C20_counterexample :
    (hexDecodeString "00ff" = some [0, 255]
      ∧ (Webhook.mk ":hook" "00ff").SendPaymentUpdateEvent exampleWebhookWorld "a1b2" "paid"
          = (none, some "cannot create new request"))
    ∧ ((Webhook.mk "https://shop.example/hook" "00ff").SendPaymentUpdateEvent
          exampleWebhookWorld "" "paid").1.map HTTPRequest.Body
        = some (bytesOfString "\x7b\"status\":\"paid\"\x7d") := by
  decide

/-- C20, amended: for a non-empty payment id and a non-empty status, and a
webhook whose secret key is valid hex and whose URL `http.NewRequest`
accepts, `SendPaymentUpdateEvent` hands the client one POST request to the
webhook URL and returns nil; the body is the JSON object with the fields
`paymentID` and `status`, the headers are `Content-Type: application/json`
and `X-Signature`, the lowercase hex of the HMAC of the body under the
decoded secret key; decoding `X-Signature` gives that HMAC back, and
`ValidMAC` of the body, the decoded signature and the decoded key is true
with a nil error. -/
theorem C20_webhook_event_is_signed (WW : WebhookWorld) (w : Webhook)
    (paymentID newStatus : String) (key : List Nat)
    (hkey : hexDecodeString w.SecretKey = some key)
    (hurl : WW.NewRequest w.URL = true)
    (hid : paymentID ≠ "") (hstatus : newStatus ≠ "")
    (hbytes : ∀ b ∈ WW.hmacSum key
        (bytesOfString ("\x7b" ++ ",".intercalate
          ["\"paymentID\":" ++ WW.jsonString paymentID,
           "\"status\":" ++ WW.jsonString newStatus] ++ "\x7d")), b < 256) :
    w.SendPaymentUpdateEvent WW paymentID newStatus
        = (some
            { Method := "POST", URL := w.URL,
              Body := bytesOfString ("\x7b" ++ ",".intercalate
                ["\"paymentID\":" ++ WW.jsonString paymentID,
                 "\"status\":" ++ WW.jsonString newStatus] ++ "\x7d"),
              Header :=
                [("Content-Type", "application/json"),
                 ("X-Signature",
                  hexEncodeToString (WW.hmacSum key
                    (bytesOfString ("\x7b" ++ ",".intercalate
                      ["\"paymentID\":" ++ WW.jsonString paymentID,
                       "\"status\":" ++ WW.jsonString newStatus] ++ "\x7d"))))] },
           none)
      ∧ hexDecodeString
          (hexEncodeToString (WW.hmacSum key
            (bytesOfString ("\x7b" ++ ",".intercalate
              ["\"paymentID\":" ++ WW.jsonString paymentID,
               "\"status\":" ++ WW.jsonString newStatus] ++ "\x7d"))))
          = some (WW.hmacSum key
              (bytesOfString ("\x7b" ++ ",".intercalate
                ["\"paymentID\":" ++ WW.jsonString paymentID,
                 "\"status\":" ++ WW.jsonString newStatus] ++ "\x7d")))
      ∧ ValidMAC WW
          (bytesOfString ("\x7b" ++ ",".intercalate
            ["\"paymentID\":" ++ WW.jsonString paymentID,
             "\"status\":" ++ WW.jsonString newStatus] ++ "\x7d"))
          (WW.hmacSum key
            (bytesOfString ("\x7b" ++ ",".intercalate
              ["\"paymentID\":" ++ WW.jsonString paymentID,
               "\"status\":" ++ WW.jsonString newStatus] ++ "\x7d")))
          key = (true, none) := by
  refine ⟨?_, hexDecode_hexEncode _ hbytes, ?_⟩
  · unfold Webhook.SendPaymentUpdateEvent SignMessage PaymentUpdateEvent.Marshal
    simp [hkey, hurl, hid, hstatus]
  · unfold ValidMAC SignMessage
    simp

theorem C20_witness :
    (Webhook.mk "https://shop.example/hook" "00ff").SendPaymentUpdateEvent
        exampleWebhookWorld "a1b2" "paid"
      = (some
          { Method := "POST", URL := "https://shop.example/hook",
            Body := bytesOfString "\x7b\"paymentID\":\"a1b2\",\"status\":\"paid\"\x7d",
            Header := [("Content-Type", "application/json"), ("X-Signature", "00ff249b")] },
         none) :=
  (C20_webhook_event_is_signed exampleWebhookWorld ⟨"https://shop.example/hook", "00ff"⟩
    "a1b2" "paid" [0, 255] (by decide) (by decide) (by decide) (by decide) (by decide)).1

end DeroMerchant

/-! ## The claims on the webhook, the MAC and the time to live -/

namespace DeroMerchant

/-- C21: `Webhook.IsSet` is true exactly when the URL and the secret key are
both non-empty; it is false for a webhook with an empty URL and for a
webhook with an empty secret key. -/
theorem C21_webhook_is_set_iff_both_nonempty (w : Webhook) (url secretKey : String) :
    (w.IsSet = true ↔ (w.URL ≠ "" ∧ w.SecretKey ≠ ""))
      ∧ (Webhook.mk "" secretKey).IsSet = false
      ∧ (Webhook.mk url "").IsSet = false := by
  refine ⟨?_, ?_, ?_⟩
  · unfold Webhook.IsSet
    simp
  · simp [Webhook.IsSet]
  · simp [Webhook.IsSet]

/-- C22: once `SendPaymentUpdateEvent` has built its request, it calls
`httpClient.Do` once, with that request, and returns nil, whatever `Do`
answers (a response of any status, the timeout, a failure to connect). -/
theorem C22_one_delivery_attempt_and_nil (WW : WebhookWorld) (Do : HTTPRequest → DoOutcome)
    (w : Webhook) (paymentID newStatus : String) (req : HTTPRequest)
    (hbuilt : (w.SendPaymentUpdateEvent WW paymentID newStatus).1 = some req) :
    w.SendPaymentUpdateEventDo WW Do paymentID newStatus = ([(req, Do req)], none)
      ∧ (w.SendPaymentUpdateEventDo WW Do paymentID newStatus).1.length = 1
      ∧ (w.SendPaymentUpdateEventDo WW Do paymentID newStatus).2 = none := by
  have h : w.SendPaymentUpdateEventDo WW Do paymentID newStatus = ([(req, Do req)], none) := by
    unfold Webhook.SendPaymentUpdateEventDo
    rcases hr : w.SendPaymentUpdateEvent WW paymentID newStatus with ⟨r, e⟩
    rw [hr] at hbuilt
    simp only at hbuilt
    rw [hbuilt]
  rw [h]
  exact ⟨rfl, rfl, rfl⟩

theorem C22_witness :
    (Webhook.mk "https://shop.example/hook" "00ff").SendPaymentUpdateEventDo
        exampleWebhookWorld (fun _ => DoOutcome.timeout) "a1b2" "paid"
      = ([(⟨"POST", "https://shop.example/hook",
            bytesOfString "\x7b\"paymentID\":\"a1b2\",\"status\":\"paid\"\x7d",
            [("Content-Type", "application/json"), ("X-Signature", "00ff249b")]⟩,
           DoOutcome.timeout)], none) :=
  (C22_one_delivery_attempt_and_nil exampleWebhookWorld (fun _ => DoOutcome.timeout)
    ⟨"https://shop.example/hook", "00ff"⟩ "a1b2" "paid"
    ⟨"POST", "https://shop.example/hook",
      bytesOfString "\x7b\"paymentID\":\"a1b2\",\"status\":\"paid\"\x7d",
      [("Content-Type", "application/json"), ("X-Signature", "00ff249b")]⟩ (by decide)).1

theorem length_hmacBlockKey (sha256 : List Nat → List Nat) (key : List Nat) :
    (hmacBlockKey sha256 key).length = 64 := by
  unfold hmacBlockKey
  rw [List.length_take, List.length_append, List.length_replicate]
  omega

/-- A MAC of one message under one key that is accepted for another message
or for a key with another block contains a collision of the digest. -/
theorem collision_of_equal_hmac (sha256 : List Nat → List Nat)
    (message key message2 key2 : List Nat)
    (hdiff : message2 ≠ message ∨ hmacBlockKey sha256 key2 ≠ hmacBlockKey sha256 key)
    (heq : hmacSHA256 sha256 key2 message2 = hmacSHA256 sha256 key message) :
    ∃ x y, x ≠ y ∧ sha256 x = sha256 y := by
  unfold hmacSHA256 at heq
  by_cases hout :
      (hmacBlockKey sha256 key2).map (fun b => b ^^^ 92)
          ++ sha256 ((hmacBlockKey sha256 key2).map (fun b => b ^^^ 54) ++ message2)
        = (hmacBlockKey sha256 key).map (fun b => b ^^^ 92)
          ++ sha256 ((hmacBlockKey sha256 key).map (fun b => b ^^^ 54) ++ message)
  · have hlen : ((hmacBlockKey sha256 key2).map (fun b => b ^^^ 92)).length
        = ((hmacBlockKey sha256 key).map (fun b => b ^^^ 92)).length := by
      rw [List.length_map, List.length_map, length_hmacBlockKey, length_hmacBlockKey]
    obtain ⟨hpad, hinner⟩ := List.append_inj hout hlen
    have hkey : hmacBlockKey sha256 key2 = hmacBlockKey sha256 key :=
      (List.map_injective_iff.mpr (Nat.xor_left_injective)) hpad
    by_cases hin :
        (hmacBlockKey sha256 key2).map (fun b => b ^^^ 54) ++ message2
          = (hmacBlockKey sha256 key).map (fun b => b ^^^ 54) ++ message
    · have hlen2 : ((hmacBlockKey sha256 key2).map (fun b => b ^^^ 54)).length
          = ((hmacBlockKey sha256 key).map (fun b => b ^^^ 54)).length := by
        rw [List.length_map, List.length_map, length_hmacBlockKey, length_hmacBlockKey]
      have hmsg := (List.append_inj hin hlen2).2
      rcases hdiff with h | h
      · exact absurd hmsg h
      · exact absurd hkey h
    · exact ⟨_, _, hin, hinner⟩
  · exact ⟨_, _, hout, heq⟩

/-- C25, as stated, fails for HMAC itself: the keys 00ff and 00ff00 are
different, yet HMAC pads both to the same block of 64 bytes, so for every
SHA-256 and every message the MAC computed under the key 00ff00 is accepted
by `ValidMAC` under the key 00ff. -/
theorem C25_counterexample :
    ([0, 255, 0] : List Nat) ≠ [0, 255]
      ∧ ∀ (WW : WebhookWorld) (sha256 : List Nat → List Nat) (message : List Nat),
          ValidMAC (WW.withSHA256 sha256) message
            (SignMessage (WW.withSHA256 sha256) message [0, 255, 0]).1 [0, 255]
            = (true, none) := by
  refine ⟨by decide, ?_⟩
  intro WW sha256 message
  have hk : hmacBlockKey sha256 [0, 255, 0] = hmacBlockKey sha256 [0, 255] := by
    unfold hmacBlockKey
    rfl
  simp [ValidMAC, SignMessage, WebhookWorld.withSHA256, hmacSHA256, hk]

/-- C25, amended: `ValidMAC` of a message, its signature under a key and
that key is true with a nil error; for every byte string, `ValidMAC` is true
exactly when the byte string is the signature of the message under the key,
and its error is nil; the signature is the HMAC of the message under the
key; a MAC computed under a key that HMAC prepares to the same block is
accepted, and a MAC computed for another message, or under a key that HMAC
prepares to another block, is accepted only if SHA-256 has a collision. -/
theorem C25_valid_mac_iff_signature (WW : WebhookWorld) (sha256 : List Nat → List Nat)
    (message key mac message2 key2 : List Nat) :
    ValidMAC WW message (SignMessage WW message key).1 key = (true, none)
      ∧ ((ValidMAC WW message mac key).1 = true ↔ mac = (SignMessage WW message key).1)
      ∧ (ValidMAC WW message mac key).2 = none
      ∧ SignMessage WW message key = (WW.hmacSum key message, none)
      ∧ SignMessage (WW.withSHA256 sha256) message key
          = (sha256 ((hmacBlockKey sha256 key).map (fun b => b ^^^ 92)
              ++ sha256 ((hmacBlockKey sha256 key).map (fun b => b ^^^ 54) ++ message)), none)
      ∧ (hmacBlockKey sha256 key2 = hmacBlockKey sha256 key →
          ValidMAC (WW.withSHA256 sha256) message
            (SignMessage (WW.withSHA256 sha256) message key2).1 key = (true, none))
      ∧ ((message2 ≠ message ∨ hmacBlockKey sha256 key2 ≠ hmacBlockKey sha256 key) →
          (ValidMAC (WW.withSHA256 sha256) message
            (SignMessage (WW.withSHA256 sha256) message2 key2).1 key).1 = true →
          ∃ x y, x ≠ y ∧ sha256 x = sha256 y) := by
  refine ⟨by simp [ValidMAC, SignMessage], by simp [ValidMAC, SignMessage], rfl, rfl, rfl, ?_, ?_⟩
  · intro hk
    simp [ValidMAC, SignMessage, WebhookWorld.withSHA256, hmacSHA256, hk]
  · intro hdiff hacc
    apply collision_of_equal_hmac sha256 message key message2 key2 hdiff
    simpa [ValidMAC, SignMessage, WebhookWorld.withSHA256] using hacc

set_option maxRecDepth 100000 in
theorem C25_witness :
    (([0, 1] : List Nat) ≠ [1] ∨ hmacBlockKey toyDigest [0, 255] ≠ hmacBlockKey toyDigest [0, 255])
      ∧ (ValidMAC (exampleWebhookWorld.withSHA256 toyDigest) [1]
          (SignMessage (exampleWebhookWorld.withSHA256 toyDigest) [0, 1] [0, 255]).1
          [0, 255]).1 = true
      ∧ ∃ x y, x ≠ y ∧ toyDigest x = toyDigest y :=
  ⟨Or.inl (by decide), by decide,
   (C25_valid_mac_iff_signature exampleWebhookWorld toyDigest [1] [0, 255] [] [0, 1]
      [0, 255]).2.2.2.2.2.2 (Or.inl (by decide)) (by decide)⟩

/-- C26: for a pending payment `CalculateTTL` sets the time to live to the
larger of 0 and `config.PaymentMaxTTL - minsFromCreation` as Go computes it,
which is the difference of the two integers whenever that difference is a
Go `int`; for a payment that is not pending it changes nothing; no other
field changes. -/
theorem C26_ttl_is_clamped_difference (cfg : Config) (p : Payment) (minsFromCreation : Int) :
    (p.Status = PaymentStatusPending →
        p.CalculateTTL cfg minsFromCreation
          = { p with TTL := max 0 (wrapInt (cfg.PaymentMaxTTL - minsFromCreation)) })
      ∧ (p.Status = PaymentStatusPending →
          -9223372036854775808 ≤ cfg.PaymentMaxTTL - minsFromCreation →
          cfg.PaymentMaxTTL - minsFromCreation ≤ 9223372036854775807 →
          p.CalculateTTL cfg minsFromCreation
            = { p with TTL := max 0 (cfg.PaymentMaxTTL - minsFromCreation) })
      ∧ (p.Status ≠ PaymentStatusPending → p.CalculateTTL cfg minsFromCreation = p) := by
  have hgen : p.Status = PaymentStatusPending →
      p.CalculateTTL cfg minsFromCreation
        = { p with TTL := max 0 (wrapInt (cfg.PaymentMaxTTL - minsFromCreation)) } := by
    intro hs
    unfold Payment.CalculateTTL
    by_cases hneg : wrapInt (cfg.PaymentMaxTTL - minsFromCreation) < 0
    · simp [hs, hneg, max_eq_left (le_of_lt hneg)]
    · simp [hs, hneg, max_eq_right (not_lt.mp hneg)]
  refine ⟨hgen, ?_, ?_⟩
  · intro hs hlo hhi
    have hw : wrapInt (cfg.PaymentMaxTTL - minsFromCreation)
        = cfg.PaymentMaxTTL - minsFromCreation := by
      unfold wrapInt
      omega
    rw [hgen hs, hw]
  · intro hs
    unfold Payment.CalculateTTL
    simp [hs]

theorem C26_witness :
    (Payment.mk "" "pending" "" 0 0 "" 0 "" 0 0 0).CalculateTTL exampleConfig 20
        = Payment.mk "" "pending" "" 0 0 "" 0 "" 0 (max 0 (60 - 20)) 0
      ∧ (Payment.mk "" "pending" "" 0 0 "" 0 "" 0 0 0).CalculateTTL exampleConfig 60
        = Payment.mk "" "pending" "" 0 0 "" 0 "" 0 (max 0 (60 - 60)) 0
      ∧ (Payment.mk "" "pending" "" 0 0 "" 0 "" 0 0 0).CalculateTTL exampleConfig 100
        = Payment.mk "" "pending" "" 0 0 "" 0 "" 0 (max 0 (60 - 100)) 0
      ∧ (Payment.mk "" "paid" "" 0 0 "" 0 "" 0 0 0).CalculateTTL exampleConfig 1000
        = Payment.mk "" "paid" "" 0 0 "" 0 "" 0 0 0 :=
  ⟨(C26_ttl_is_clamped_difference exampleConfig ⟨"", "pending", "", 0, 0, "", 0, "", 0, 0, 0⟩
      20).2.1 rfl (by decide) (by decide),
   (C26_ttl_is_clamped_difference exampleConfig ⟨"", "pending", "", 0, 0, "", 0, "", 0, 0, 0⟩
      60).2.1 rfl (by decide) (by decide),
   (C26_ttl_is_clamped_difference exampleConfig ⟨"", "pending", "", 0, 0, "", 0, "", 0, 0, 0⟩
      100).2.1 rfl (by decide) (by decide),
   (C26_ttl_is_clamped_difference exampleConfig ⟨"", "paid", "", 0, 0, "", 0, "", 0, 0, 0⟩
      1000).2.2 (by decide)⟩

end DeroMerchant

/-! ## The claims on the live push and on the unique integrated address -/

namespace DeroMerchant

/-- C23: `SendStatusUpdate(p, s)` writes the bytes of `s`, as one text frame,
to every connection registered under `p`, in order, and then closes them, in
reverse order (a connection gets as many frames and as many closes as it is
registered under `p`, one when it is registered once); it makes no call on
any other connection; the entry of `p` is removed from the table and the
entry of every other payment id is left as it was; and when nothing is
registered under `p` no call is made. -/
theorem C23_status_is_pushed_and_entry_removed (c : ConnectionsToPayment)
    (p q s : String) (conn : Nat) :
    (c.SendStatusUpdate p s).2
        = ((c.Map.lookup p).getD []).map (fun k => ConnCall.WriteServerText k (bytesOfString s))
          ++ ((c.Map.lookup p).getD []).reverse.map ConnCall.Close
      ∧ (c.SendStatusUpdate p s).2.count (ConnCall.WriteServerText conn (bytesOfString s))
          = ((c.Map.lookup p).getD []).count conn
      ∧ (c.SendStatusUpdate p s).2.count (ConnCall.Close conn)
          = ((c.Map.lookup p).getD []).count conn
      ∧ (∀ call ∈ (c.SendStatusUpdate p s).2, call.conn ∈ (c.Map.lookup p).getD [])
      ∧ (c.SendStatusUpdate p s).1.Map.lookup p = none
      ∧ (q ≠ p → (c.SendStatusUpdate p s).1.Map.lookup q = c.Map.lookup q)
      ∧ (c.Map.lookup p = none → (c.SendStatusUpdate p s).2 = []) := by
  have hW : Function.Injective (fun k => ConnCall.WriteServerText k (bytesOfString s)) := by
    intro a b h
    exact (ConnCall.WriteServerText.inj h).1
  have hC : Function.Injective ConnCall.Close := by
    intro a b h
    exact ConnCall.Close.inj h
  refine ⟨rfl, ?_, ?_, ?_, ?_, ?_, ?_⟩
  · unfold ConnectionsToPayment.SendStatusUpdate
    simp only [List.count_append]
    have h1 := List.count_map_of_injective ((c.Map.lookup p).getD [])
      (fun k => ConnCall.WriteServerText k (bytesOfString s)) hW conn
    have h2 : List.count (ConnCall.WriteServerText conn (bytesOfString s))
        (List.map ConnCall.Close ((c.Map.lookup p).getD []).reverse) = 0 := by
      rw [List.count_eq_zero]
      intro hin
      obtain ⟨k, _, hk⟩ := List.mem_map.mp hin
      cases hk
    rw [h2, Nat.add_zero]
    exact h1
  · unfold ConnectionsToPayment.SendStatusUpdate
    simp only [List.count_append]
    have h1 := List.count_map_of_injective ((c.Map.lookup p).getD []).reverse
      ConnCall.Close hC conn
    have h2 : List.count (ConnCall.Close conn)
        (List.map (fun k => ConnCall.WriteServerText k (bytesOfString s))
          ((c.Map.lookup p).getD [])) = 0 := by
      rw [List.count_eq_zero]
      intro hin
      obtain ⟨k, _, hk⟩ := List.mem_map.mp hin
      cases hk
    rw [h2, Nat.zero_add, h1, List.count_reverse]
  · intro call hcall
    unfold ConnectionsToPayment.SendStatusUpdate at hcall
    simp only [List.mem_append, List.mem_map, List.mem_reverse] at hcall
    rcases hcall with ⟨k, hk, rfl⟩ | ⟨k, hk, rfl⟩
    · exact hk
    · exact hk
  · exact lookup_filter_self p c.Map
  · intro hne
    exact lookup_filter_ne p q hne c.Map
  · intro hnone
    unfold ConnectionsToPayment.SendStatusUpdate
    simp [hnone]

theorem C23_witness :
    (exampleConnections.SendStatusUpdate "a1b2" "paid").2
        = [.WriteServerText 1 [112, 97, 105, 100], .WriteServerText 2 [112, 97, 105, 100],
           .Close 2, .Close 1]
      ∧ (exampleConnections.SendStatusUpdate "a1b2" "paid").1.Map.lookup "c3d4" = some [3]
      ∧ (exampleConnections.SendStatusUpdate "zzzz" "paid").2 = [] :=
  ⟨(C23_status_is_pushed_and_entry_removed exampleConnections "a1b2" "c3d4" "paid" 1).1,
   (C23_status_is_pushed_and_entry_removed exampleConnections "a1b2" "c3d4" "paid"
      1).2.2.2.2.2.1 (by decide),
   (C23_status_is_pushed_and_entry_removed exampleConnections "zzzz" "c3d4" "paid"
      1).2.2.2.2.2.2 (by decide)⟩

end DeroMerchant

namespace DeroMerchant

theorem generateLoop_succ_fail (AW : AddressWorld) (db : List PaymentRow) (fuel n : Nat)
    (hq : AW.QueryFails n = true) :
    generateLoop AW db (fuel + 1) n
      = some ⟨"", "", some "cannot check if generated integrated address is unique", n + 1⟩ := by
  simp only [generateLoop, isUniqueIntegratedAddress, hq, if_true]

theorem generateLoop_succ_unique (AW : AddressWorld) (db : List PaymentRow) (fuel n : Nat)
    (hq : AW.QueryFails n = false) (hc : pairCollides AW db n = false) :
    generateLoop AW db (fuel + 1) n
      = some ⟨(GenerateIntegratedAddress AW n).1, (GenerateIntegratedAddress AW n).2,
          none, n + 1⟩ := by
  unfold pairCollides at hc
  simp only [generateLoop, isUniqueIntegratedAddress, hq, hc, Bool.false_eq_true, if_false]

theorem generateLoop_succ_collide (AW : AddressWorld) (db : List PaymentRow) (fuel n : Nat)
    (hq : AW.QueryFails n = false) (hc : pairCollides AW db n = true) :
    generateLoop AW db (fuel + 1) n = generateLoop AW db fuel (n + 1) := by
  unfold pairCollides at hc
  simp only [generateLoop, isUniqueIntegratedAddress, hq, hc, Bool.false_eq_true, if_false,
    if_true]

/-- What a result of the generation loop started at iteration `n` says. -/
theorem generateLoop_sound (AW : AddressWorld) (db : List PaymentRow) :
    ∀ (fuel n : Nat) (r : GenerateResult), generateLoop AW db fuel n = some r →
      n < r.generated ∧ r.generated ≤ n + fuel
      ∧ (∀ i, n ≤ i → i + 1 < r.generated →
          AW.QueryFails i = false ∧ pairCollides AW db i = true)
      ∧ ((AW.QueryFails (r.generated - 1) = true
            ∧ r.err = some "cannot check if generated integrated address is unique"
            ∧ r.iaddr = "" ∧ r.payid = "")
          ∨ (AW.QueryFails (r.generated - 1) = false
            ∧ pairCollides AW db (r.generated - 1) = false
            ∧ r.err = none
            ∧ r.iaddr = (GenerateIntegratedAddress AW (r.generated - 1)).1
            ∧ r.payid = (GenerateIntegratedAddress AW (r.generated - 1)).2)) := by
  intro fuel
  induction fuel with
  | zero =>
    intro n r h
    simp [generateLoop] at h
  | succ fuel ih =>
    intro n r h
    cases hq : AW.QueryFails n with
    | true =>
      rw [generateLoop_succ_fail AW db fuel n hq] at h
      cases h
      refine ⟨Nat.lt_succ_self n, by simp only; omega, ?_, Or.inl ⟨?_, rfl, rfl, rfl⟩⟩
      · intro i h1 h2
        simp only at h2
        omega
      · simpa using hq
    | false =>
      cases hc : pairCollides AW db n with
      | false =>
        rw [generateLoop_succ_unique AW db fuel n hq hc] at h
        cases h
        refine ⟨Nat.lt_succ_self n, by simp only; omega, ?_, Or.inr ⟨?_, ?_, rfl, rfl, rfl⟩⟩
        · intro i h1 h2
          simp only at h2
          omega
        · simpa using hq
        · simpa using hc
      | true =>
        rw [generateLoop_succ_collide AW db fuel n hq hc] at h
        obtain ⟨h1, h2, h3, h4⟩ := ih (n + 1) r h
        refine ⟨by omega, by omega, ?_, h4⟩
        intro i hi1 hi2
        by_cases hin : i = n
        · subst hin
          exact ⟨hq, hc⟩
        · exact h3 i (by omega) hi2

/-- The generation loop returns as soon as it has fuel for an iteration in
which the query fails or the pair collides with no row. -/
theorem generateLoop_returns (AW : AddressWorld) (db : List PaymentRow) :
    ∀ (fuel n k : Nat), n ≤ k → k < n + fuel →
      (AW.QueryFails k = true ∨ pairCollides AW db k = false) →
      ∃ r, generateLoop AW db fuel n = some r ∧ r.generated ≤ k + 1 := by
  intro fuel
  induction fuel with
  | zero =>
    intro n k h1 h2 _
    omega
  | succ fuel ih =>
    intro n k h1 h2 hstop
    cases hq : AW.QueryFails n with
    | true =>
      exact ⟨_, generateLoop_succ_fail AW db fuel n hq, by simp only; omega⟩
    | false =>
      cases hc : pairCollides AW db n with
      | false =>
        exact ⟨_, generateLoop_succ_unique AW db fuel n hq hc, by simp only; omega⟩
      | true =>
        have hne : k ≠ n := by
          intro hk
          subst hk
          rcases hstop with h | h
          · rw [hq] at h
            cases h
          · rw [hc] at h
            cases h
        rw [generateLoop_succ_collide AW db fuel n hq hc]
        exact ih (n + 1) k (by omega) (by omega) hstop

theorem not_collides_of_pairCollides_false (AW : AddressWorld) (db : List PaymentRow) (n : Nat)
    (hc : pairCollides AW db n = false) :
    ∀ row ∈ db, row.payment_id ≠ (GenerateIntegratedAddress AW n).2
      ∧ row.integrated_address ≠ (GenerateIntegratedAddress AW n).1 := by
  intro row hrow
  unfold pairCollides at hc
  rw [List.any_eq_false] at hc
  have h := hc row hrow
  simp only [collides, Bool.or_eq_true, beq_iff_eq, not_or] at h
  exact h

end DeroMerchant

namespace DeroMerchant

/-- C24: whatever `GenerateUniqueIntegratedAddress` returns, it has generated
at least one pair, every pair before the last one was checked without error
and collided with a persisted payment (it was discarded and a new pair
generated), a nil error comes with the last pair generated, for which the
check ran without error and no persisted payment has that payment id or that
integrated address, and a failing check on the last pair comes with a
non-nil error and two empty strings; and the function does return as soon as
some iteration within its fuel has a failing check or a pair that collides
with no persisted payment. -/
theorem C24_unique_address_is_last_pair_generated (AW : AddressWorld) (db : List PaymentRow)
    (fuel : Nat) :
    (∀ r, GenerateUniqueIntegratedAddress AW db fuel = some r →
        1 ≤ r.generated ∧ r.generated ≤ fuel
        ∧ (∀ i, i + 1 < r.generated →
            AW.QueryFails i = false ∧ pairCollides AW db i = true)
        ∧ (r.err = none →
            r.iaddr = (GenerateIntegratedAddress AW (r.generated - 1)).1
            ∧ r.payid = (GenerateIntegratedAddress AW (r.generated - 1)).2
            ∧ AW.QueryFails (r.generated - 1) = false
            ∧ ∀ row ∈ db, row.payment_id ≠ r.payid ∧ row.integrated_address ≠ r.iaddr)
        ∧ (AW.QueryFails (r.generated - 1) = true →
            r.err ≠ none ∧ r.iaddr = "" ∧ r.payid = "")
        ∧ (r.err ≠ none → AW.QueryFails (r.generated - 1) = true))
      ∧ (∀ k, k < fuel → (AW.QueryFails k = true ∨ pairCollides AW db k = false) →
          ∃ r, GenerateUniqueIntegratedAddress AW db fuel = some r ∧ r.generated ≤ k + 1) := by
  constructor
  · intro r hret
    obtain ⟨h1, h2, h3, h4⟩ := generateLoop_sound AW db fuel 0 r hret
    refine ⟨h1, by omega, fun i hi => h3 i (Nat.zero_le i) hi, ?_, ?_, ?_⟩
    · intro herr
      rcases h4 with ⟨_, he, _, _⟩ | ⟨hq, hc, _, hi, hp⟩
      · rw [he] at herr
        cases herr
      · refine ⟨hi, hp, hq, ?_⟩
        rw [hi, hp]
        exact not_collides_of_pairCollides_false AW db _ hc
    · intro hq
      rcases h4 with ⟨_, he, hi, hp⟩ | ⟨hq2, _, _, _, _⟩
      · refine ⟨?_, hi, hp⟩
        rw [he]
        exact Option.some_ne_none _
      · rw [hq] at hq2
        cases hq2
    · intro herr
      rcases h4 with ⟨hq, _, _, _⟩ | ⟨_, _, he, _, _⟩
      · exact hq
      · exact absurd he herr
  · intro k hk hstop
    exact generateLoop_returns AW db fuel 0 k (Nat.zero_le k) (by omega) hstop

theorem C24_witness :
    (1 ≤ 2 ∧ 2 ≤ 5
        ∧ (∀ i, i + 1 < 2 →
            exampleAddressWorld.QueryFails i = false
              ∧ pairCollides exampleAddressWorld pendingTable i = true)
        ∧ ((none : Option String) = none →
            "dETo9" = (GenerateIntegratedAddress exampleAddressWorld (2 - 1)).1
            ∧ "0909" = (GenerateIntegratedAddress exampleAddressWorld (2 - 1)).2
            ∧ exampleAddressWorld.QueryFails (2 - 1) = false
            ∧ ∀ row ∈ pendingTable, row.payment_id ≠ "0909" ∧ row.integrated_address ≠ "dETo9")
        ∧ (exampleAddressWorld.QueryFails (2 - 1) = true →
            (none : Option String) ≠ none ∧ "dETo9" = "" ∧ "0909" = "")
        ∧ ((none : Option String) ≠ none → exampleAddressWorld.QueryFails (2 - 1) = true))
      ∧ ∃ r, GenerateUniqueIntegratedAddress exampleAddressWorld pendingTable 5 = some r
          ∧ r.generated ≤ 1 + 1 :=
  ⟨(C24_unique_address_is_last_pair_generated exampleAddressWorld pendingTable 5).1
      ⟨"dETo9", "0909", none, 2⟩ (by decide),
   (C24_unique_address_is_last_pair_generated exampleAddressWorld pendingTable 5).2 1
      (by decide) (Or.inr (by decide))⟩

end DeroMerchant

/-! ## The claims on the failure paths of adding a payment and of a tick -/

namespace DeroMerchant

/-- C29: when the daemon check at the entry of `AddPendingPayment` fails, the
call returns a non-nil error and the wallet as it was (same entries, same
count, same ticker, no call made: the poll loop is not started); when the
entry check passes, `StartCheckingForPayments` is called, if the count is 1,
on the wallet that already holds the new entry, so when it then fails the
call returns a non-nil error while the new entry is in the pending set, and
no ticker was created and no call made on the wallet. -/
theorem C29_failed_start_leaves_the_new_entry (W W2 : World) (w : StoreWallet)
    (paymentID : String) (atomicDeroAmount : Nat) :
    (W.IsDaemonOnline = false →
        (w.AddPendingPayment W W2 paymentID atomicDeroAmount).2 ≠ none
        ∧ (w.AddPendingPayment W W2 paymentID atomicDeroAmount).1 = w
        ∧ (w.AddPendingPayment W W2 paymentID atomicDeroAmount).1.PendingPayments.Map
            = w.PendingPayments.Map
        ∧ (w.AddPendingPayment W W2 paymentID atomicDeroAmount).1.PendingPayments.Count
            = w.PendingPayments.Count
        ∧ (w.AddPendingPayment W W2 paymentID atomicDeroAmount).1.PendingPayments.Checker
            = w.PendingPayments.Checker
        ∧ (w.AddPendingPayment W W2 paymentID atomicDeroAmount).1.calls = w.calls)
      ∧ (W.IsDaemonOnline = true →
          (w.PendingPayments.Set paymentID (NewPendingPayment W atomicDeroAmount)).Count = 1 →
          (w.AddPendingPayment W W2 paymentID atomicDeroAmount).1
              = (StoreWallet.StartCheckingForPayments W2
                  { w with PendingPayments :=
                      w.PendingPayments.Set paymentID (NewPendingPayment W atomicDeroAmount) }).1
          ∧ (W2.IsDaemonOnline = false →
              (w.AddPendingPayment W W2 paymentID atomicDeroAmount).2
                  = some "cannot start checking for payments"
              ∧ (w.AddPendingPayment W W2 paymentID atomicDeroAmount).2 ≠ none
              ∧ (w.AddPendingPayment W W2 paymentID atomicDeroAmount).1.PendingPayments.Get
                    paymentID = some (NewPendingPayment W atomicDeroAmount)
              ∧ (w.AddPendingPayment W W2 paymentID atomicDeroAmount).1.PendingPayments.Map
                  = [(paymentID, NewPendingPayment W atomicDeroAmount)]
              ∧ (w.AddPendingPayment W W2 paymentID atomicDeroAmount).1.PendingPayments.Checker
                  = w.PendingPayments.Checker
              ∧ (w.AddPendingPayment W W2 paymentID atomicDeroAmount).1.calls = w.calls)) := by
  constructor
  · intro hoff
    have h : w.AddPendingPayment W W2 paymentID atomicDeroAmount = (w, some "daemon offline") := by
      simp [StoreWallet.AddPendingPayment, hoff]
    rw [h]
    exact ⟨Option.some_ne_none _, rfl, rfl, rfl, rfl, rfl⟩
  · intro hon hcount
    have hfil : w.PendingPayments.Map.filter (fun e => e.1 != paymentID) = [] := by
      simp only [PendingPayments.Count, PendingPayments.Set, List.length_cons] at hcount
      exact List.length_eq_zero.mp (by omega)
    constructor
    · unfold StoreWallet.AddPendingPayment
      simp only [hon, Bool.not_true, Bool.false_eq_true, if_false, hcount, if_true]
      cases hW2 : W2.IsDaemonOnline <;>
        simp [StoreWallet.StartCheckingForPayments, hW2]
    · intro hoff2
      have h : w.AddPendingPayment W W2 paymentID atomicDeroAmount
          = ({ w with PendingPayments :=
                w.PendingPayments.Set paymentID (NewPendingPayment W atomicDeroAmount) },
             some "cannot start checking for payments") := by
        unfold StoreWallet.AddPendingPayment
        simp only [hon, Bool.not_true, Bool.false_eq_true, if_false, hcount, if_true]
        simp [StoreWallet.StartCheckingForPayments, hoff2]
      rw [h]
      refine ⟨rfl, Option.some_ne_none _, ?_, ?_, rfl, rfl⟩
      · simp [PendingPayments.Get, PendingPayments.Set, List.lookup]
      · simp only [PendingPayments.Set, hfil]

theorem C29_witness :
    (((freshWallet exampleWebhook).AddPendingPayment offlineWorld offlineWorld
          "c3d4" 1000000000000).2 ≠ none
      ∧ ((freshWallet exampleWebhook).AddPendingPayment offlineWorld offlineWorld
          "c3d4" 1000000000000).1 = freshWallet exampleWebhook)
      ∧ (((freshWallet exampleWebhook).AddPendingPayment (exampleWorld [] 100 100 0) offlineWorld
            "c3d4" 1000000000000).2 = some "cannot start checking for payments"
        ∧ ((freshWallet exampleWebhook).AddPendingPayment (exampleWorld [] 100 100 0)
            offlineWorld "c3d4" 1000000000000).1.PendingPayments.Map
              = [("c3d4", NewPendingPayment (exampleWorld [] 100 100 0) 1000000000000)]
        ∧ ((freshWallet exampleWebhook).AddPendingPayment (exampleWorld [] 100 100 0)
            offlineWorld "c3d4" 1000000000000).1.PendingPayments.Checker = none) :=
  ⟨⟨((C29_failed_start_leaves_the_new_entry offlineWorld offlineWorld
        (freshWallet exampleWebhook) "c3d4" 1000000000000).1 rfl).1,
    ((C29_failed_start_leaves_the_new_entry offlineWorld offlineWorld
        (freshWallet exampleWebhook) "c3d4" 1000000000000).1 rfl).2.1⟩,
   (((C29_failed_start_leaves_the_new_entry (exampleWorld [] 100 100 0) offlineWorld
        (freshWallet exampleWebhook) "c3d4" 1000000000000).2 rfl rfl).2 rfl).1,
   (((C29_failed_start_leaves_the_new_entry (exampleWorld [] 100 100 0) offlineWorld
        (freshWallet exampleWebhook) "c3d4" 1000000000000).2 rfl rfl).2 rfl).2.2.2.1,
   (((C29_failed_start_leaves_the_new_entry (exampleWorld [] 100 100 0) offlineWorld
        (freshWallet exampleWebhook) "c3d4" 1000000000000).2 rfl rfl).2 rfl).2.2.2.2.1⟩

end DeroMerchant

namespace DeroMerchant

/-- Under distinct keys, whether some entry with the key P is deleted by the
sweep is whether the entry of P is. -/
theorem any_removes_of_nodup (cfg : Config) (W : World) (l : List (String × PendingPayment))
    (P : String) (p : PendingPayment) (hkeys : (l.map Prod.fst).Nodup) (hmem : (P, p) ∈ l) :
    l.any (fun kv => stepRemoves cfg W kv && kv.1 == P) = stepRemoves cfg W (P, p) := by
  rw [Bool.eq_iff_iff]
  simp only [List.any_eq_true, Bool.and_eq_true, beq_iff_eq]
  constructor
  · rintro ⟨kv, hin, hr, hk⟩
    obtain ⟨k, v⟩ := kv
    simp only at hk
    subst hk
    have hv := value_unique_of_nodup_keys l k v p hkeys hin hmem
    rw [← hv]
    exact hr
  · intro hr
    exact ⟨(P, p), hmem, hr, rfl⟩

/-- Which entries with the key P an online tick leaves in the pending set. -/
theorem mem_tick_map_iff (cfg : Config) (W : World) (w : StoreWallet) (db : List PaymentRow)
    (P : String) (p p2 : PendingPayment) (honline : W.IsDaemonOnline = true)
    (hkeys : (w.PendingPayments.Map.map Prod.fst).Nodup)
    (hmem : (P, p) ∈ w.PendingPayments.Map) :
    (P, p2) ∈ (tick cfg W w db).wallet.PendingPayments.Map
      ↔ p2 = p ∧ stepRemoves cfg W (P, p) = false := by
  rw [tick_map cfg W w db honline, sweep_map, List.mem_filter,
    any_removes_of_nodup cfg W _ P p hkeys hmem]
  constructor
  · rintro ⟨hin, hr⟩
    exact ⟨value_unique_of_nodup_keys _ P p2 p hkeys hin hmem, by simpa using hr⟩
  · rintro ⟨rfl, hr⟩
    exact ⟨hmem, by simp [hr]⟩

/-- C28: in an online tick over a pending set with distinct keys, the id P
of a pending payment is absent afterwards if and only if "paid" or "expired"
was chosen for it and its update returned no error; when the update returns
an error the entry of P stays as it was (same amount, same creation time),
the only effect about P is the statement itself (no webhook, no live push)
and the worker waits for the next tick; every entry left was there before,
the entries left are a sublist of the entries before and the count does not
increase. -/
theorem C28_removed_iff_status_chosen_and_persisted (cfg : Config) (W : World)
    (w : StoreWallet) (db : List PaymentRow) (P : String) (p : PendingPayment)
    (honline : W.IsDaemonOnline = true)
    (hkeys : (w.PendingPayments.Map.map Prod.fst).Nodup)
    (hmem : (P, p) ∈ w.PendingPayments.Map) :
    ((∀ p2, (P, p2) ∉ (tick cfg W w db).wallet.PendingPayments.Map)
        ↔ ((decision cfg W (P, p) = PaymentStatusPaid
              ∨ decision cfg W (P, p) = PaymentStatusExpired)
            ∧ W.ExecFails (some P) = false))
      ∧ (decision cfg W (P, p) ≠ "" → W.ExecFails (some P) = true →
          (P, p) ∈ (tick cfg W w db).wallet.PendingPayments.Map
          ∧ (∀ p2, (P, p2) ∈ (tick cfg W w db).wallet.PendingPayments.Map → p2 = p)
          ∧ (tick cfg W w db).effects.filter (fun e => e.paymentID == some P)
              = [Effect.exec
                  (.setStatusOfPayment (decision cfg W (P, p)) P PaymentStatusPending)]
          ∧ (tick cfg W w db).status = .next)
      ∧ (∀ kv ∈ (tick cfg W w db).wallet.PendingPayments.Map, kv ∈ w.PendingPayments.Map)
      ∧ List.Sublist (tick cfg W w db).wallet.PendingPayments.Map w.PendingPayments.Map
      ∧ (tick cfg W w db).wallet.PendingPayments.Count ≤ w.PendingPayments.Count := by
  have hsub : List.Sublist (tick cfg W w db).wallet.PendingPayments.Map
      w.PendingPayments.Map := by
    rw [tick_map cfg W w db honline, sweep_map]
    exact List.filter_sublist _
  refine ⟨?_, ?_, fun kv hkv => hsub.subset hkv, hsub, hsub.length_le⟩
  · constructor
    · intro habs
      have hr : stepRemoves cfg W (P, p) = true := by
        cases h : stepRemoves cfg W (P, p) with
        | true => rfl
        | false =>
          exact absurd ((mem_tick_map_iff cfg W w db P p p honline hkeys hmem).mpr ⟨rfl, h⟩)
            (habs p)
      simp only [stepRemoves, Bool.and_eq_true, bne_iff_ne, Bool.not_eq_true'] at hr
      exact ⟨decision_paid_or_expired cfg W (P, p) hr.1, hr.2⟩
    · rintro ⟨hdec, hok⟩ p2 hin
      have hne : decision cfg W (P, p) ≠ "" := by
        rcases hdec with h | h <;> rw [h] <;> decide
      have h2 := ((mem_tick_map_iff cfg W w db P p p2 honline hkeys hmem).mp hin).2
      simp [stepRemoves, hne, hok] at h2
  · intro hne hfail
    have hr : stepRemoves cfg W (P, p) = false := by
      simp [stepRemoves, hfail]
    have hin : (P, p) ∈ (tick cfg W w db).wallet.PendingPayments.Map :=
      (mem_tick_map_iff cfg W w db P p p honline hkeys hmem).mpr ⟨rfl, hr⟩
    refine ⟨hin, ?_, ?_, ?_⟩
    · intro p2 h2
      exact ((mem_tick_map_iff cfg W w db P p p2 honline hkeys hmem).mp h2).1
    · rw [tick_effects cfg W w db honline, sweep_effects,
        filter_flatten_present cfg W w.Webhook P p _ hkeys hmem]
      simp [stepEffects, hne, hfail, stepQuery]
    · apply tick_status_next cfg W w db honline
      rw [tick_map cfg W w db honline] at hin
      intro h0
      rw [PendingPayments.Count, List.length_eq_zero] at h0
      rw [h0] at hin
      cases hin

theorem C28_witness :
    (("a1b2", examplePayment)
        ∈ (tick exampleConfig refusedUpdateWorld (exampleWallet exampleWebhook)
            pendingTable).wallet.PendingPayments.Map
      ∧ (tick exampleConfig refusedUpdateWorld (exampleWallet exampleWebhook)
            pendingTable).effects.filter (fun e => e.paymentID == some "a1b2")
          = [Effect.exec (.setStatusOfPayment "paid" "a1b2" "pending")]
      ∧ (tick exampleConfig refusedUpdateWorld (exampleWallet exampleWebhook)
            pendingTable).status = .next)
    ∧ (∀ p2, ("a1b2", p2)
        ∉ (tick exampleConfig (exampleWorld [⟨1000000000000, 97⟩] 100 100 5)
            (exampleWallet exampleWebhook) pendingTable).wallet.PendingPayments.Map)
    ∧ (tick exampleConfig (exampleWorld [⟨1000000000000, 97⟩] 100 100 5)
          (exampleWallet exampleWebhook) pendingTable).wallet.PendingPayments.Count
        ≤ (exampleWallet exampleWebhook).PendingPayments.Count :=
  have h := (C28_removed_iff_status_chosen_and_persisted exampleConfig refusedUpdateWorld
    (exampleWallet exampleWebhook) pendingTable "a1b2" examplePayment
    rfl (by simp [exampleWallet]) (by simp [exampleWallet])).2.1 (by decide) rfl
  have h2 := C28_removed_iff_status_chosen_and_persisted exampleConfig
    (exampleWorld [⟨1000000000000, 97⟩] 100 100 5) (exampleWallet exampleWebhook)
    pendingTable "a1b2" examplePayment rfl (by simp [exampleWallet]) (by simp [exampleWallet])
  ⟨⟨h.1, h.2.2.1, h.2.2.2⟩, h2.1.mpr ⟨Or.inl (by decide), rfl⟩, h2.2.2.2.2⟩

end DeroMerchant

/-! ## The claim on the two height differences -/

namespace DeroMerchant

/-- The difference of two `uint64` values when the second is the greater:
the difference wraps. -/
theorem u64sub_of_lt (a b : Nat) (hb : b < 18446744073709551616) (hab : a < b) :
    u64sub a b = 18446744073709551616 - (b - a) := by
  unfold u64sub
  omega

/-- C30, as stated, fails twice.  First: with the minimum of confirmations
-1, a deposit 5 blocks above the daemon height has the wrapped value
2^64 - 5, which is at least -1, yet the code compares with `uint64(-1)` and
finds the deposit under-confirmed, so the covered payment gets no status.
Second: with the daemon at height 0 and the wallet at height 2^64 - 1 the
wallet is above the daemon, yet the lag computed is 1, which does not exceed
20, and an underpaid payment past its time to live is expired on that
tick. -/
theorem C30_counterexample :
    ((exampleWorld [⟨1000000000000, 105⟩] 100 100 5).Get_Daemon_Height < 105
      ∧ u64sub (exampleWorld [⟨1000000000000, 105⟩] 100 100 5).Get_Daemon_Height 105
          = 18446744073709551611
      ∧ negativeConfig.PaymentMinConfirmations ≤ (18446744073709551611 : Int)
      ∧ underConfirmed negativeConfig (exampleWorld [⟨1000000000000, 105⟩] 100 100 5)
          ⟨1000000000000, 105⟩
      ∧ decision negativeConfig (exampleWorld [⟨1000000000000, 105⟩] 100 100 5)
          ("a1b2", examplePayment) = "")
    ∧ ((exampleWorld [] 18446744073709551615 0 61).Get_Daemon_Height
        < (exampleWorld [] 18446744073709551615 0 61).Get_Height
      ∧ u64sub (exampleWorld [] 18446744073709551615 0 61).Get_Daemon_Height
          (exampleWorld [] 18446744073709551615 0 61).Get_Height = 1
      ∧ decision exampleConfig (exampleWorld [] 18446744073709551615 0 61)
          ("a1b2", examplePayment) = PaymentStatusExpired
      ∧ Effect.exec (.setStatusOfPayment PaymentStatusExpired "a1b2" PaymentStatusPending)
          ∈ (tick exampleConfig (exampleWorld [] 18446744073709551615 0 61)
              (exampleWallet exampleWebhook) pendingTable).effects) := by
  have hd : decision exampleConfig (exampleWorld [] 18446744073709551615 0 61)
      ("a1b2", examplePayment) = PaymentStatusExpired := by
    rw [decision_of_short _ _ _ (by simp [exampleWorld, examplePayment])]
    norm_num [scanEntries, exampleWorld, PendingPayment.MinutesFromCreation, float64OfInt,
      exampleConfig, u64sub, examplePayment]
  refine ⟨⟨by decide, by decide, by decide, by decide, by decide⟩,
    by decide, by decide, hd, ?_⟩
  have h := exec_mem_tick exampleConfig (exampleWorld [] 18446744073709551615 0 61)
    (exampleWallet exampleWebhook) pendingTable ("a1b2", examplePayment) rfl
    (by simp [exampleWallet]) (by rw [hd]; decide)
  rw [stepQuery, hd] at h
  exact h

/-- C30, amended: both height differences are computed modulo 2^64.  A
deposit above the daemon height gets 2^64 minus the distance as its
confirmations; it counts as confirmed exactly when that value is at least
`uint64(config.PaymentMinConfirmations)`, hence, for a minimum that is not
negative, whenever that value is at least the minimum, and a payment whose
only deposit is such a deposit covering the expected amount is then paid;
and when the wallet height is above the daemon height by less than
2^64 - 20, the lag computed is 2^64 minus the distance and exceeds 20, so an
underpaid payment is not expired on that tick, whatever the time elapsed: no
status is chosen for it, no effect is emitted for it and it stays in the
pending set. -/
theorem C30_height_differences_wrap (cfg : Config) (W : World) (w : StoreWallet)
    (db : List PaymentRow) (P : String) (p : PendingPayment) (e : Entry) :
    (W.Get_Daemon_Height < e.Height → e.Height < 18446744073709551616 →
        u64sub W.Get_Daemon_Height e.Height
            = 18446744073709551616 - (e.Height - W.Get_Daemon_Height)
        ∧ (¬ underConfirmed cfg W e
            ↔ uint64OfInt cfg.PaymentMinConfirmations
                ≤ 18446744073709551616 - (e.Height - W.Get_Daemon_Height))
        ∧ (W.Get_Payments_Payment_ID (W.DecodeString P) = [e] →
            uint64OfInt cfg.PaymentMinConfirmations
                ≤ 18446744073709551616 - (e.Height - W.Get_Daemon_Height) →
            e.Amount < 18446744073709551616 → p.AtomicDeroAmount ≤ e.Amount →
            decision cfg W (P, p) = PaymentStatusPaid)
        ∧ (0 ≤ cfg.PaymentMinConfirmations →
            cfg.PaymentMinConfirmations ≤ ((u64sub W.Get_Daemon_Height e.Height : Nat) : Int) →
            ¬ underConfirmed cfg W e
            ∧ (W.Get_Payments_Payment_ID (W.DecodeString P) = [e] →
                e.Amount < 18446744073709551616 → p.AtomicDeroAmount ≤ e.Amount →
                decision cfg W (P, p) = PaymentStatusPaid)))
      ∧ (W.Get_Daemon_Height < W.Get_Height → W.Get_Height < 18446744073709551616 →
          W.Get_Height - W.Get_Daemon_Height < 18446744073709551616 - 20 →
          u64sub W.Get_Daemon_Height W.Get_Height
              = 18446744073709551616 - (W.Get_Height - W.Get_Daemon_Height)
          ∧ 20 < u64sub W.Get_Daemon_Height W.Get_Height
          ∧ (((W.Get_Payments_Payment_ID (W.DecodeString P)).map Entry.Amount).sum
                % 18446744073709551616 < p.AtomicDeroAmount →
              decision cfg W (P, p) = ""
              ∧ (W.IsDaemonOnline = true → (w.PendingPayments.Map.map Prod.fst).Nodup →
                  (P, p) ∈ w.PendingPayments.Map →
                  (∀ ef ∈ (tick cfg W w db).effects, ef.paymentID ≠ some P)
                  ∧ (P, p) ∈ (tick cfg W w db).wallet.PendingPayments.Map))) := by
  constructor
  · intro hgt hlt
    have hsub := u64sub_of_lt _ _ hlt hgt
    have hconf : ¬ underConfirmed cfg W e
        ↔ uint64OfInt cfg.PaymentMinConfirmations
            ≤ 18446744073709551616 - (e.Height - W.Get_Daemon_Height) := by
      unfold underConfirmed
      rw [hsub, not_lt]
    have hpaid : W.Get_Payments_Payment_ID (W.DecodeString P) = [e] →
        uint64OfInt cfg.PaymentMinConfirmations
            ≤ 18446744073709551616 - (e.Height - W.Get_Daemon_Height) →
        e.Amount < 18446744073709551616 → p.AtomicDeroAmount ≤ e.Amount →
        decision cfg W (P, p) = PaymentStatusPaid := by
      intro hentries hmin hamt hcover
      have hall : ∀ e2 ∈ W.Get_Payments_Payment_ID (W.DecodeString (P, p).1),
          ¬ underConfirmed cfg W e2 := by
        intro e2 he2
        rw [hentries, List.mem_singleton] at he2
        rw [he2]
        exact hconf.mpr hmin
      rw [decision_of_confirmed cfg W (P, p) hall, hentries]
      have hsum : ([e].map Entry.Amount).sum % 18446744073709551616 = e.Amount := by
        simp only [List.map_cons, List.map_nil, List.sum_cons, List.sum_nil, Nat.add_zero]
        exact Nat.mod_eq_of_lt hamt
      rw [hsum]
      unfold chooseStatus
      simp [hcover]
    refine ⟨hsub, hconf, hpaid, ?_⟩
    intro hmin0 hle
    have hu : uint64OfInt cfg.PaymentMinConfirmations
        ≤ 18446744073709551616 - (e.Height - W.Get_Daemon_Height) := by
      rw [hsub] at hle
      have hu2 : (uint64OfInt cfg.PaymentMinConfirmations : Int)
          = cfg.PaymentMinConfirmations := by
        unfold uint64OfInt
        rw [Int.toNat_of_nonneg (Int.emod_nonneg _ (by decide))]
        exact Int.emod_eq_of_lt hmin0 (by omega)
      omega
    exact ⟨hconf.mpr hu, fun hentries hamt hcover => hpaid hentries hu hamt hcover⟩
  · intro hgt hlt hdist
    have hsub := u64sub_of_lt _ _ hlt hgt
    have hlag : 20 < u64sub W.Get_Daemon_Height W.Get_Height := by
      rw [hsub]
      omega
    refine ⟨hsub, hlag, ?_⟩
    intro hshort
    have hd : decision cfg W (P, p) = "" := by
      rw [decision_of_short cfg W (P, p) hshort]
      have hn : ¬ (u64sub W.Get_Daemon_Height W.Get_Height ≤ 20) := by omega
      simp [hn]
    refine ⟨hd, ?_⟩
    intro honline hkeys hmem
    have h := tick_untouched cfg W w db P p honline hmem (by
      intro kv hkv hk
      have hv : kv = (P, p) := by
        have h2 : (P, kv.2) ∈ w.PendingPayments.Map := by rw [← hk]; exact hkv
        exact Prod.ext hk (value_unique_of_nodup_keys _ P kv.2 p hkeys h2 hmem)
      rw [hv]
      exact hd)
    exact ⟨h.1, h.2.1⟩

theorem C30_witness :
    (u64sub (exampleWorld [⟨1000000000000, 105⟩] 100 100 5).Get_Daemon_Height 105
        = 18446744073709551616 - (105 - 100)
      ∧ decision exampleConfig (exampleWorld [⟨1000000000000, 105⟩] 100 100 5)
          ("a1b2", examplePayment) = PaymentStatusPaid
      ∧ ¬ underConfirmed exampleConfig (exampleWorld [⟨1000000000000, 105⟩] 100 100 5)
          ⟨1000000000000, 105⟩)
    ∧ (20 < u64sub (exampleWorld [] 105 100 61).Get_Daemon_Height
              (exampleWorld [] 105 100 61).Get_Height
      ∧ decision exampleConfig (exampleWorld [] 105 100 61) ("a1b2", examplePayment) = ""
      ∧ ("a1b2", examplePayment)
          ∈ (tick exampleConfig (exampleWorld [] 105 100 61) (exampleWallet exampleWebhook)
              pendingTable).wallet.PendingPayments.Map) :=
  have h1 := (C30_height_differences_wrap exampleConfig
    (exampleWorld [⟨1000000000000, 105⟩] 100 100 5) (exampleWallet exampleWebhook)
    pendingTable "a1b2" examplePayment ⟨1000000000000, 105⟩).1 (by decide) (by decide)
  have h2 := (C30_height_differences_wrap exampleConfig
    (exampleWorld [] 105 100 61) (exampleWallet exampleWebhook)
    pendingTable "a1b2" examplePayment ⟨0, 0⟩).2 (by decide) (by decide) (by decide)
  have h3 := h2.2.2 (by simp [exampleWorld, examplePayment])
  have h4 := h1.2.2.2 (by decide) (by decide)
  ⟨⟨h1.1, h4.2 rfl (by decide) (by decide), h4.1⟩,
   h2.2.1, h3.1, (h3.2 rfl (by simp [exampleWallet]) (by simp [exampleWallet])).2⟩

end DeroMerchant

/-! ## The claim on the order of iteration -/

namespace DeroMerchant

theorem foldl_checkPayment_DB (cfg : Config) (W : World) :
    ∀ (l : List (String × PendingPayment)) (s : TickState),
      (l.foldl (checkPayment cfg W) s).DB = l.foldl (stepDB cfg W) s.DB := by
  intro l
  induction l with
  | nil => intro s; rfl
  | cons kv l ih =>
      intro s
      rw [List.foldl_cons, List.foldl_cons, ih, checkPayment_eq]
      rfl

/-- Two updates of different payments commute. -/
theorem run_comm (s1 s2 id1 id2 ws : String) (hne : id1 ≠ id2) (t : List PaymentRow) :
    (Query.setStatusOfPayment s1 id1 ws).run ((Query.setStatusOfPayment s2 id2 ws).run t)
      = (Query.setStatusOfPayment s2 id2 ws).run ((Query.setStatusOfPayment s1 id1 ws).run t) := by
  unfold Query.run
  rw [List.map_map, List.map_map]
  apply List.map_congr_left
  intro r _
  simp only [Function.comp, Query.selects, Query.newStatus]
  by_cases h1 : r.payment_id = id1
  · have h2 : r.payment_id ≠ id2 := fun h => hne (h1.symm.trans h)
    by_cases h3 : r.status = ws <;> simp [h1, h2, h3, hne]
  · by_cases h2 : r.payment_id = id2
    · by_cases h3 : r.status = ws <;> simp [h1, h2, h3, Ne.symm hne]
    · simp [h1, h2]

theorem stepDB_comm (cfg : Config) (W : World) (x y : String × PendingPayment)
    (h : x = y ∨ x.1 ≠ y.1) (z : List PaymentRow) :
    stepDB cfg W (stepDB cfg W z x) y = stepDB cfg W (stepDB cfg W z y) x := by
  rcases h with h | h
  · rw [h]
  · unfold stepDB
    by_cases hx : stepRemoves cfg W x = true
    · by_cases hy : stepRemoves cfg W y = true
      · simp only [hx, hy, if_true, stepQuery]
        exact (run_comm _ _ _ _ _ h z).symm
      · simp [hx, hy]
    · simp [hx]

theorem any_eq_of_perm {α : Type} (f : α → Bool) (l l2 : List α) (h : l2.Perm l) :
    l2.any f = l.any f := by
  rw [Bool.eq_iff_iff]
  simp only [List.any_eq_true]
  constructor
  · rintro ⟨a, ha, hf⟩
    exact ⟨a, h.mem_iff.mp ha, hf⟩
  · rintro ⟨a, ha, hf⟩
    exact ⟨a, h.mem_iff.mpr ha, hf⟩

/-- How the worker leaves an online tick. -/
theorem tick_status_eq (cfg : Config) (W : World) (w : StoreWallet) (db : List PaymentRow)
    (honline : W.IsDaemonOnline = true) :
    (tick cfg W w db).status
      = if (sweep cfg W w db).wallet.PendingPayments.Map.length = 0 then
          (if w.PendingPayments.Checker.isSome then .returned else .panicked)
        else .next := by
  by_cases hc : (sweep cfg W w db).wallet.PendingPayments.Map.length = 0
  · have hck := sweep_checker cfg W w db
    unfold tick
    simp only [honline, Bool.not_true, Bool.false_eq_true, if_false, PendingPayments.Count, hc,
      if_true]
    cases hw : w.PendingPayments.Checker with
    | none =>
      rw [hw] at hck
      rw [stop_of_nil _ hck]
      rfl
    | some c =>
      rw [hw] at hck
      rw [stop_of_ticker _ c hck]
      rfl
  · rw [tick_status_next cfg W w db honline hc]
    simp [hc]

/-- The status chosen for a payment is a function of the configuration, the
two heights, the time elapsed since the creation of the payment, its
expected amount and its deposits. -/
theorem decision_congr (cfg : Config) (W W2 : World) (P : String) (p : PendingPayment)
    (hd : W2.Get_Daemon_Height = W.Get_Daemon_Height)
    (hh : W2.Get_Height = W.Get_Height)
    (hm : W2.MinutesSince p.CreationTime = W.MinutesSince p.CreationTime)
    (he : W2.Get_Payments_Payment_ID (W2.DecodeString P)
            = W.Get_Payments_Payment_ID (W.DecodeString P)) :
    decision cfg W2 (P, p) = decision cfg W (P, p) := by
  have hs : scanStep cfg W2 = scanStep cfg W := by
    funext acc e
    simp only [scanStep, hd]
  unfold decision chooseStatus scanEntries PendingPayment.MinutesFromCreation
  simp only [hs, he, hd, hh, hm]

end DeroMerchant

namespace DeroMerchant

/-- C27: in an online tick, with the answers of the wallet, the clock and
the store held fixed, let the pending set (distinct keys) be iterated in two
orders.  The effects emitted are the same up to the order in which the
payments are visited, and for every pending payment P the effects about P,
in their order, are those determined by the entry of P alone; the entries
left in the pending set are the same, an entry being left exactly when no
status was chosen for it or its update failed; the payments table and the
way the worker goes on are the same; and the status chosen for a payment is
the same in every world that agrees on the two heights, on the time elapsed
since the creation of the payment and on its deposits. -/
theorem C27_outcome_does_not_depend_on_iteration_order (cfg : Config) (W : World)
    (w w2 : StoreWallet) (db : List PaymentRow)
    (honline : W.IsDaemonOnline = true)
    (hperm : w2.PendingPayments.Map.Perm w.PendingPayments.Map)
    (hwh : w2.Webhook = w.Webhook)
    (hck : w2.PendingPayments.Checker = w.PendingPayments.Checker)
    (hkeys : (w.PendingPayments.Map.map Prod.fst).Nodup) :
    (tick cfg W w2 db).effects.Perm (tick cfg W w db).effects
      ∧ (tick cfg W w2 db).wallet.PendingPayments.Map.Perm
          (tick cfg W w db).wallet.PendingPayments.Map
      ∧ (∀ kv, kv ∈ (tick cfg W w2 db).wallet.PendingPayments.Map
          ↔ kv ∈ (tick cfg W w db).wallet.PendingPayments.Map)
      ∧ (tick cfg W w2 db).DB = (tick cfg W w db).DB
      ∧ (tick cfg W w2 db).status = (tick cfg W w db).status
      ∧ (∀ P p, (P, p) ∈ w.PendingPayments.Map →
          (tick cfg W w2 db).effects.filter (fun e => e.paymentID == some P)
              = stepEffects cfg W w.Webhook (P, p)
          ∧ (tick cfg W w db).effects.filter (fun e => e.paymentID == some P)
              = stepEffects cfg W w.Webhook (P, p)
          ∧ ((P, p) ∈ (tick cfg W w2 db).wallet.PendingPayments.Map
              ↔ stepRemoves cfg W (P, p) = false)
          ∧ ((P, p) ∈ (tick cfg W w db).wallet.PendingPayments.Map
              ↔ stepRemoves cfg W (P, p) = false)
          ∧ (∀ W2 : World, W2.Get_Daemon_Height = W.Get_Daemon_Height →
              W2.Get_Height = W.Get_Height →
              W2.MinutesSince p.CreationTime = W.MinutesSince p.CreationTime →
              W2.Get_Payments_Payment_ID (W2.DecodeString P)
                = W.Get_Payments_Payment_ID (W.DecodeString P) →
              decision cfg W2 (P, p) = decision cfg W (P, p))) := by
  have hkeys2 : (w2.PendingPayments.Map.map Prod.fst).Nodup :=
    (hperm.map Prod.fst).nodup_iff.mpr hkeys
  have hpred : (fun e : String × PendingPayment =>
        !(w2.PendingPayments.Map.any (fun kv => stepRemoves cfg W kv && kv.1 == e.1)))
      = (fun e : String × PendingPayment =>
        !(w.PendingPayments.Map.any (fun kv => stepRemoves cfg W kv && kv.1 == e.1))) := by
    funext e
    rw [any_eq_of_perm _ _ _ hperm]
  have hmap : (tick cfg W w2 db).wallet.PendingPayments.Map.Perm
      (tick cfg W w db).wallet.PendingPayments.Map := by
    rw [tick_map cfg W w2 db honline, tick_map cfg W w db honline, sweep_map, sweep_map, hpred]
    exact hperm.filter _
  refine ⟨?_, hmap, fun kv => hmap.mem_iff, ?_, ?_, ?_⟩
  · rw [tick_effects cfg W w2 db honline, tick_effects cfg W w db honline, sweep_effects,
      sweep_effects, hwh]
    exact (hperm.map _).flatten
  · rw [tick_DB cfg W w2 db honline, tick_DB cfg W w db honline]
    unfold sweep
    rw [foldl_checkPayment_DB, foldl_checkPayment_DB]
    apply hperm.foldl_eq'
    intro x hx y hy z
    apply stepDB_comm
    by_cases hk : x.1 = y.1
    · left
      have hx2 : (x.1, x.2) ∈ w2.PendingPayments.Map := hx
      have hy2 : (x.1, y.2) ∈ w2.PendingPayments.Map := by rw [hk]; exact hy
      exact Prod.ext hk (value_unique_of_nodup_keys _ x.1 x.2 y.2 hkeys2 hx2 hy2)
    · right
      exact hk
  · rw [tick_status_eq cfg W w2 db honline, tick_status_eq cfg W w db honline, hck]
    rw [tick_map cfg W w2 db honline, tick_map cfg W w db honline] at hmap
    rw [hmap.length_eq]
  · intro P p hmem
    have hmem2 : (P, p) ∈ w2.PendingPayments.Map := hperm.mem_iff.mpr hmem
    refine ⟨?_, ?_, ?_, ?_, ?_⟩
    · rw [tick_effects cfg W w2 db honline, sweep_effects, hwh,
        filter_flatten_present cfg W w.Webhook P p _ hkeys2 hmem2]
    · rw [tick_effects cfg W w db honline, sweep_effects,
        filter_flatten_present cfg W w.Webhook P p _ hkeys hmem]
    · rw [mem_tick_map_iff cfg W w2 db P p p honline hkeys2 hmem2]
      simp
    · rw [mem_tick_map_iff cfg W w db P p p honline hkeys hmem]
      simp
    · intro W2 hd hh hm he
      exact decision_congr cfg W W2 P p hd hh hm he

theorem C27_witness :
    (tick exampleConfig (exampleWorld [⟨1000000000000, 97⟩] 100 100 5)
        twoPaymentsWalletSwapped twoPendingTable).effects.Perm
      (tick exampleConfig (exampleWorld [⟨1000000000000, 97⟩] 100 100 5)
        twoPaymentsWallet twoPendingTable).effects
    ∧ (tick exampleConfig (exampleWorld [⟨1000000000000, 97⟩] 100 100 5)
        twoPaymentsWalletSwapped twoPendingTable).DB
      = (tick exampleConfig (exampleWorld [⟨1000000000000, 97⟩] 100 100 5)
        twoPaymentsWallet twoPendingTable).DB
    ∧ (tick exampleConfig (exampleWorld [⟨1000000000000, 97⟩] 100 100 5)
        twoPaymentsWalletSwapped twoPendingTable).status
      = (tick exampleConfig (exampleWorld [⟨1000000000000, 97⟩] 100 100 5)
        twoPaymentsWallet twoPendingTable).status :=
  have h := C27_outcome_does_not_depend_on_iteration_order exampleConfig
    (exampleWorld [⟨1000000000000, 97⟩] 100 100 5) twoPaymentsWallet twoPaymentsWalletSwapped
    twoPendingTable rfl (List.Perm.swap _ _ _) rfl rfl
    (by simp [twoPaymentsWallet])
  ⟨h.1, h.2.2.2.1, h.2.2.2.2.1⟩

end DeroMerchant
